/-
Verification of the GeoBan leaderboard sanction tracker.

This file shallowly embeds the core of the tracker (the retrying request
executor `makeAPIRequest`, the leaderboard snapshot fetcher
`fetchCurrentLeaderboard`, the entity activity prober `getUserActivity`,
the persisted-store loader `loadPlayerData`, and the full check cycle
`checkForBannedPlayers` with its probing passes) as pure Lean functions,
and proves or refutes the specified properties about them.

Conventions used throughout:
* Timestamps are naturals (milliseconds since epoch), as JavaScript
  `Date.now()` values.  `suspendedUntil` values are modelled as numeric
  timestamps; the JavaScript code stores ISO strings but only ever
  compares them for identity or converts them through `new Date`, so a
  canonical numeric representation is faithful.
* Network and file-system effects are supplied as explicit inputs: the
  leaderboard as a list, per-entity probe outcomes as a function from
  user id.  Within one check cycle the probe function is fixed, which
  models each entity returning consistent results during the cycle.
* Exception-raising code is modelled with `Except` or `Option`; a
  `catch`-and-continue handler becomes a `match` on the error case.
* Console logging, Discord embed formatting, CSV rows and pacing delays
  that carry no state are dropped; where a delay length matters to a
  claim (backoff, pagination cooldown) it is returned explicitly.
-/
import Mathlib

namespace GeoBan

/-! ## Decimal rendering and parsing

The executor classifies errors by matching substrings of rendered error
messages (e.g. `error.message.includes('404')`) and re-parses the retry
delay out of the message with `message.match(/\d+/)[0]`.  To embed that
faithfully we need a decimal renderer for naturals and a parser for the
first digit run of a string. -/

/-- Fuel-driven decimal digit extraction (most significant first); the
fuel argument makes the recursion structural so that concrete values
reduce inside the kernel. -/
def natDigitsCharsAux : Nat → Nat → List Char
  | 0, _ => []
  | fuel + 1, n =>
    if n = 0 then []
    else natDigitsCharsAux fuel (n / 10) ++ [Nat.digitChar (n % 10)]

/-- Characters of the decimal representation of `n` (most significant
first); empty for `0`, matching `Nat.digits`. -/
def natDigitsChars (n : Nat) : List Char := natDigitsCharsAux n n

theorem natDigitsCharsAux_eq (fuel : Nat) :
    ∀ n, n ≤ fuel → natDigitsCharsAux fuel n = ((Nat.digits 10 n).reverse).map Nat.digitChar := by
  induction fuel with
  | zero =>
    intro n hn
    interval_cases n
    simp [natDigitsCharsAux]
  | succ f ih =>
    intro n hn
    by_cases h0 : n = 0
    · subst h0; simp [natDigitsCharsAux]
    · have hdiv : n / 10 ≤ f := by
        have h1 := Nat.div_lt_self (by omega : 0 < n) (by norm_num : 1 < 10)
        omega
      have hstep : natDigitsCharsAux (f + 1) n =
          natDigitsCharsAux f (n / 10) ++ [Nat.digitChar (n % 10)] := by
        conv_lhs => rw [natDigitsCharsAux]
        rw [if_neg h0]
      rw [hstep, ih (n / 10) hdiv, Nat.digits_def' (by norm_num : 1 < 10) (by omega : 0 < n)]
      simp

theorem natDigitsChars_eq (n : Nat) :
    natDigitsChars n = ((Nat.digits 10 n).reverse).map Nat.digitChar :=
  natDigitsCharsAux_eq n n le_rfl

/-- Decimal rendering of a natural, as JavaScript template interpolation
renders a number. -/
def natRepr (n : Nat) : String :=
  if n = 0 then "0" else String.mk (natDigitsChars n)

/-- Numeric value of a decimal digit character. -/
def digitVal (c : Char) : Nat := c.toNat - 48

/-- Fold a big-endian digit-character run into a natural. -/
def parseDigits (cs : List Char) : Nat :=
  cs.foldl (fun acc c => 10 * acc + digitVal c) 0

/-- First maximal digit run of a character list, parsed as a natural;
`0` when the list has no digit.  Embeds `parseInt(s.match(/\d+/)[0])`. -/
def firstNatOfChars (cs : List Char) : Nat :=
  parseDigits ((cs.dropWhile (fun c => !c.isDigit)).takeWhile (fun c => c.isDigit))

/-- First number occurring in a string. -/
def firstNat (s : String) : Nat := firstNatOfChars s.toList

/-- Substring test, embedding JavaScript `String.prototype.includes`. -/
def strContains (s pat : String) : Bool :=
  s.toList.tails.any (fun t => pat.toList.isPrefixOf t)

theorem strContains_infix_char (s pat : String) :
    strContains s pat = true ↔ pat.toList <:+: s.toList := by
  unfold strContains
  rw [List.any_eq_true]
  constructor
  · rintro ⟨t, ht, hpre⟩
    rw [List.mem_tails] at ht
    exact List.infix_iff_prefix_suffix.mpr ⟨t, List.isPrefixOf_iff_prefix.mp hpre, ht⟩
  · intro h
    obtain ⟨t, hpre, hsuf⟩ := List.infix_iff_prefix_suffix.mp h
    exact ⟨t, (List.mem_tails _ _).mpr hsuf, List.isPrefixOf_iff_prefix.mpr hpre⟩

theorem digitVal_digitChar {d : Nat} (h : d < 10) : digitVal (Nat.digitChar d) = d := by
  interval_cases d <;> rfl

theorem isDigit_digitChar {d : Nat} (h : d < 10) : (Nat.digitChar d).isDigit = true := by
  interval_cases d <;> rfl

theorem natDigitsChars_all_digits (n : Nat) :
    ∀ c ∈ natDigitsChars n, c.isDigit = true := by
  intro c hc
  rw [natDigitsChars_eq] at hc
  obtain ⟨d, hd, rfl⟩ := List.mem_map.mp hc
  rw [List.mem_reverse] at hd
  exact isDigit_digitChar (Nat.digits_lt_base (by norm_num) hd)

theorem parseDigits_digitsChars (n : Nat) : parseDigits (natDigitsChars n) = n := by
  rw [natDigitsChars_eq]
  unfold parseDigits
  rw [List.foldl_map]
  have key : ∀ l : List Nat, (∀ d ∈ l, d < 10) →
      l.reverse.foldl (fun acc d => 10 * acc + digitVal (Nat.digitChar d)) 0 =
        Nat.ofDigits 10 l := by
    intro l
    induction l with
    | nil => intro _; rfl
    | cons d ds ih =>
      intro hlt
      rw [List.reverse_cons, List.foldl_append,
        ih (fun x hx => hlt x (List.mem_cons_of_mem _ hx))]
      simp [Nat.ofDigits_cons, digitVal_digitChar (hlt d (List.mem_cons_self _ _))]
      ring
  rw [key (Nat.digits 10 n) (fun d hd => Nat.digits_lt_base (by norm_num) hd),
    Nat.ofDigits_digits]

theorem dropWhile_append_of_all {p : Char → Bool} {l₁ l₂ : List Char}
    (h : ∀ c ∈ l₁, p c = true) :
    (l₁ ++ l₂).dropWhile p = l₂.dropWhile p := by
  induction l₁ with
  | nil => rfl
  | cons c cs ih =>
    rw [List.cons_append, List.dropWhile_cons]
    simp [h c (List.mem_cons_self _ _), ih (fun x hx => h x (List.mem_cons_of_mem _ hx))]

theorem takeWhile_append_of_all {p : Char → Bool} {l₁ l₂ : List Char}
    (h : ∀ c ∈ l₁, p c = true) :
    (l₁ ++ l₂).takeWhile p = l₁ ++ l₂.takeWhile p := by
  induction l₁ with
  | nil => rfl
  | cons c cs ih =>
    rw [List.cons_append, List.takeWhile_cons]
    simp [h c (List.mem_cons_self _ _), ih (fun x hx => h x (List.mem_cons_of_mem _ hx))]

/-- Parsing the first number out of a string of the shape
`pre ++ digits n ++ suf` recovers `n`, provided the prefix has no digit
and the suffix starts with a non-digit. -/
theorem firstNat_sandwich (pre suf : List Char) (n : Nat) (hn : 0 < n)
    (hpre : ∀ c ∈ pre, c.isDigit = false)
    (hsuf : ∀ c ∈ suf.head?, c.isDigit = false) :
    firstNatOfChars (pre ++ natDigitsChars n ++ suf) = n := by
  unfold firstNatOfChars
  rw [List.append_assoc, dropWhile_append_of_all (by simp_all)]
  have hdrop : (natDigitsChars n ++ suf).dropWhile (fun c => !c.isDigit) =
      natDigitsChars n ++ suf := by
    match hd : natDigitsChars n with
    | [] =>
      exfalso
      have hne : Nat.digits 10 n ≠ [] := Nat.digits_ne_nil_iff_ne_zero.mpr (by omega)
      rw [natDigitsChars_eq] at hd
      simp_all
    | c :: cs =>
      rw [List.cons_append, List.dropWhile_cons]
      have : c.isDigit = true := natDigitsChars_all_digits n c (by rw [hd]; exact List.mem_cons_self _ _)
      simp [this]
  rw [hdrop, takeWhile_append_of_all (natDigitsChars_all_digits n)]
  have htake : suf.takeWhile (fun c => c.isDigit) = [] := by
    match hs : suf with
    | [] => rfl
    | c :: cs =>
      rw [List.takeWhile_cons]
      have : c.isDigit = false := by
        have := hsuf c
        simp [hs] at this
        exact this
      simp [this]
  rw [htake, List.append_nil, parseDigits_digitsChars]

/-! ## Retrying request executor (`makeAPIRequest`, part_000 lines 156-225)

One HTTP attempt fails with a classified error; the loop makes up to
`maxRetries` additional attempts, waiting between attempts according to
the error's rendered message. -/

/-- Classified failure of one request attempt.  Constructors carry the
data that the source interpolates into the rejection message.
`rateLimited` stores the already-defaulted `retryAfter` value
(`parseInt(res.headers['retry-after']) || 15`). -/
inductive ApiError where
  | rateLimited (retryAfter : Nat)
  | notAccessible (code : Nat)
  | httpError (code : Nat)
  | timeout
  | invalidJson
  | netError (msg : String)
deriving DecidableEq

/-- Build the rate-limit error from the optional `retry-after` header:
`parseInt(...) || 15` defaults both a missing header and a zero value
to 15 (zero is falsy in JavaScript). -/
def rateLimitedOf (header : Option Nat) : ApiError :=
  .rateLimited (match header with
    | some h => if h = 0 then 15 else h
    | none => 15)

/-- The `Error.message` string each rejection site constructs. -/
def messageOf : ApiError → String
  | .rateLimited r => "Rate limited. Retry after " ++ natRepr r ++ " seconds"
  | .notAccessible c => "HTTP " ++ natRepr c ++ ": User not accessible"
  | .httpError c => "HTTP Error: " ++ natRepr c
  | .timeout => "Request timeout"
  | .invalidJson => "Invalid JSON response"
  | .netError m => m

/-- Backoff before the next attempt, from part_000 lines 205-215: the
wait is chosen by substring tests on the error message, and the
rate-limit branch re-parses the first number of the message. -/
def waitTimeFor (e : ApiError) (attempt : Nat) : Nat :=
  if strContains (messageOf e) "Rate limited" then
    if strContains (messageOf e) "Retry after" then firstNat (messageOf e) * 1000
    else min (15000 + attempt * 5000) 45000
  else if strContains (messageOf e) "404" || strContains (messageOf e) "403" then
    2000 + attempt * 1000
  else 3000 + attempt * 2000

/-- The retry loop of `makeAPIRequest`: `attempt` is the index of the
attempt about to run, `remaining` the number of further attempts allowed
after it.  Returns the final outcome and the list of waits taken. -/
def requestGo {α : Type} (responses : Nat → Except ApiError α) :
    Nat → Nat → Except ApiError α × List Nat
  | attempt, 0 =>
    match responses attempt with
    | .ok v => (.ok v, [])
    | .error e => (.error e, [])
  | attempt, Nat.succ r =>
    match responses attempt with
    | .ok v => (.ok v, [])
    | .error e =>
      let next := requestGo responses (attempt + 1) r
      (next.1, waitTimeFor e attempt :: next.2)

/-- `makeAPIRequest` with its attempt outcomes supplied as a function of
the attempt index; `maxRetries` additional attempts follow the first. -/
def makeAPIRequest {α : Type} (responses : Nat → Except ApiError α) (maxRetries : Nat) :
    Except ApiError α × List Nat :=
  requestGo responses 0 maxRetries

/-- Modelled from the spec: the claimed rate-limit backoff — the server
hint when present, otherwise 15s plus 5s per attempt capped at 45s. -/
def specRateLimitWait (hint : Option Nat) (attempt : Nat) : Nat :=
  match hint with
  | some h => h * 1000
  | none => min (15000 + attempt * 5000) 45000

theorem waitTimeFor_rateLimited (r attempt : Nat) (hr : 0 < r) :
    waitTimeFor (.rateLimited r) attempt = r * 1000 := by
  have h1 : strContains (messageOf (.rateLimited r)) "Rate limited" = true := by
    rw [strContains_infix_char]
    show _ <:+: ("Rate limited. Retry after " ++ natRepr r ++ " seconds").toList
    have he : ("Rate limited. Retry after " ++ natRepr r ++ " seconds").toList =
        "Rate limited".toList ++ (". Retry after ".toList ++ (natRepr r ++ " seconds").toList) := by
      simp
    rw [he]
    exact (List.prefix_append _ _).isInfix
  have h2 : strContains (messageOf (.rateLimited r)) "Retry after" = true := by
    rw [strContains_infix_char]
    show _ <:+: ("Rate limited. Retry after " ++ natRepr r ++ " seconds").toList
    have he : ("Rate limited. Retry after " ++ natRepr r ++ " seconds").toList =
        "Rate limited. ".toList ++ "Retry after".toList ++
          (" ".toList ++ (natRepr r ++ " seconds").toList) := by
      simp
    rw [he]
    exact List.infix_append _ _ _
  have hmsg : (messageOf (.rateLimited r)).toList =
      "Rate limited. Retry after ".toList ++ natDigitsChars r ++ " seconds".toList := by
    show ("Rate limited. Retry after " ++ natRepr r ++ " seconds").toList = _
    have hnr : natRepr r = String.mk (natDigitsChars r) := by
      unfold natRepr
      rw [if_neg (by omega)]
    simp [hnr]
  have hfn : firstNat (messageOf (.rateLimited r)) = r := by
    unfold firstNat
    rw [hmsg]
    exact firstNat_sandwich _ _ r hr (by decide) (by decide)
  unfold waitTimeFor
  rw [h1, h2, hfn]
  simp

theorem waitTimeFor_rateLimitedOf (hint : Option Nat) (attempt : Nat) :
    waitTimeFor (rateLimitedOf hint) attempt =
      (match hint with
       | some h => if h = 0 then 15000 else h * 1000
       | none => 15000) := by
  match hint with
  | none =>
    show waitTimeFor (.rateLimited 15) attempt = 15000
    rw [waitTimeFor_rateLimited 15 attempt (by norm_num)]
  | some h =>
    show waitTimeFor (.rateLimited (if h = 0 then 15 else h)) attempt =
      if h = 0 then 15000 else h * 1000
    by_cases h0 : h = 0
    · rw [if_pos h0, if_pos h0, waitTimeFor_rateLimited 15 attempt (by norm_num)]
    · rw [if_neg h0, if_neg h0]
      exact waitTimeFor_rateLimited h attempt (by omega)

theorem requestGo_of_ok {α : Type} (responses : Nat → Except ApiError α)
    (attempt remaining : Nat) (v : α) (h : responses attempt = .ok v) :
    requestGo responses attempt remaining = (.ok v, []) := by
  match remaining with
  | 0 => simp only [requestGo, h]
  | Nat.succ r => simp only [requestGo, h]

theorem requestGo_of_error_zero {α : Type} (responses : Nat → Except ApiError α)
    (attempt : Nat) (e : ApiError) (h : responses attempt = .error e) :
    requestGo responses attempt 0 = (.error e, []) := by
  simp only [requestGo, h]

theorem requestGo_of_error_succ {α : Type} (responses : Nat → Except ApiError α)
    (attempt r : Nat) (e : ApiError) (h : responses attempt = .error e) :
    requestGo responses attempt (r + 1) =
      ((requestGo responses (attempt + 1) r).1,
        waitTimeFor e attempt :: (requestGo responses (attempt + 1) r).2) := by
  simp only [requestGo, h]

theorem requestGo_length {α : Type} (responses : Nat → Except ApiError α) :
    ∀ remaining attempt, (requestGo responses attempt remaining).2.length ≤ remaining := by
  intro remaining
  induction remaining with
  | zero =>
    intro attempt
    match h : responses attempt with
    | .ok v => rw [requestGo_of_ok responses attempt 0 v h]; simp
    | .error e => rw [requestGo_of_error_zero responses attempt e h]; simp
  | succ r ih =>
    intro attempt
    match h : responses attempt with
    | .ok v => rw [requestGo_of_ok responses attempt (r + 1) v h]; simp
    | .error e =>
      rw [requestGo_of_error_succ responses attempt r e h]
      simp only [List.length_cons]
      exact Nat.succ_le_succ (ih (attempt + 1))

theorem requestGo_all_fail {α : Type} (responses : Nat → Except ApiError α) :
    ∀ remaining attempt,
      (∀ i, i ≤ attempt + remaining → (responses i).isOk = false) →
      (requestGo responses attempt remaining).1 = responses (attempt + remaining) := by
  intro remaining
  induction remaining with
  | zero =>
    intro attempt hfail
    have hh := hfail attempt (by omega)
    match h : responses attempt with
    | .ok v => rw [h] at hh; simp [Except.isOk, Except.toBool] at hh
    | .error e => rw [requestGo_of_error_zero responses attempt e h]
  | succ r ih =>
    intro attempt hfail
    match h : responses attempt with
    | .ok v =>
      have hh := hfail attempt (by omega)
      rw [h] at hh
      simp [Except.isOk, Except.toBool] at hh
    | .error e =>
      rw [requestGo_of_error_succ responses attempt r e h]
      have := ih (attempt + 1) (fun i hi => hfail i (by omega))
      rw [this]
      congr 1
      omega

/-! ## Leaderboard snapshot fetcher (`fetchCurrentLeaderboard`, part_000 lines 264-295)

The fetcher pages through offsets 0, 100, ... below 2000.  An empty
page or a non-rate-limit error ends pagination; a rate-limit error
waits 15s and retries the same offset (`offset -= 100; continue`). -/

/-- One leaderboard entry, as produced by the ratings endpoint. -/
structure LBPlayer where
  userId : String
  nick : String
  countryCode : Option String
  rating : Int
  position : Nat
deriving DecidableEq

/-- Outcome of one page request, after `makeAPIRequest` finished: a
payload, a surfaced error whose message contains `Rate limited`, or any
other surfaced error. -/
inductive PageResult where
  | ok (players : List LBPlayer)
  | rateLimited
  | fail
deriving DecidableEq

/-- Is this page outcome a rate-limit failure? -/
def PageResult.isRL : PageResult → Bool
  | .rateLimited => true
  | _ => false

/-- The pagination loop of `fetchCurrentLeaderboard`.  `script` supplies
the successive page-request outcomes, `offset` and `acc` are the loop
state.  Returns the gathered players and the pacing/cooldown waits
taken.  An exhausted script ends the run with the players gathered so
far. -/
def fetchGo : List PageResult → Nat → List LBPlayer → List LBPlayer × List Nat
  | [], _, acc => (acc, [])
  | r :: rest, offset, acc =>
    if 2000 ≤ offset then (acc, [])
    else
      match r with
      | .ok ps =>
        if ps.isEmpty then (acc, [])
        else
          let next := fetchGo rest (offset + 100) (acc ++ ps)
          (next.1, (if offset + 100 < 2000 then [75] else []) ++ next.2)
      | .rateLimited =>
        let next := fetchGo rest offset acc
        (next.1, 15000 :: next.2)
      | .fail => (acc, [])

/-- `fetchCurrentLeaderboard` run from the first page. -/
def fetchCurrentLeaderboard (script : List PageResult) : List LBPlayer × List Nat :=
  fetchGo script 0 []

theorem fetchGo_of_le (script : List PageResult) (offset : Nat) (acc : List LBPlayer)
    (h : 2000 ≤ offset) : fetchGo script offset acc = (acc, []) := by
  match script with
  | [] => rfl
  | r :: rest => simp [fetchGo, h]

theorem fetchGo_ok (ps : List LBPlayer) (rest : List PageResult) (offset : Nat)
    (acc : List LBPlayer) (h : ¬ 2000 ≤ offset) (hps : ps.isEmpty = false) :
    fetchGo (.ok ps :: rest) offset acc =
      ((fetchGo rest (offset + 100) (acc ++ ps)).1,
        (if offset + 100 < 2000 then [75] else []) ++
          (fetchGo rest (offset + 100) (acc ++ ps)).2) := by
  simp [fetchGo, h, hps]

theorem fetchGo_ok_empty (rest : List PageResult) (offset : Nat) (acc : List LBPlayer)
    (h : ¬ 2000 ≤ offset) : fetchGo (.ok [] :: rest) offset acc = (acc, []) := by
  simp [fetchGo, h, List.isEmpty]

theorem fetchGo_rl (rest : List PageResult) (offset : Nat) (acc : List LBPlayer)
    (h : ¬ 2000 ≤ offset) :
    fetchGo (.rateLimited :: rest) offset acc =
      ((fetchGo rest offset acc).1, 15000 :: (fetchGo rest offset acc).2) := by
  simp [fetchGo, h]

theorem fetchGo_fail (rest : List PageResult) (offset : Nat) (acc : List LBPlayer)
    (h : ¬ 2000 ≤ offset) : fetchGo (.fail :: rest) offset acc = (acc, []) := by
  simp [fetchGo, h]

theorem fetchGo_filter_rateLimited (script : List PageResult) :
    ∀ offset acc,
      (fetchGo (script.filter (fun r => !r.isRL)) offset acc).1 =
        (fetchGo script offset acc).1 := by
  induction script with
  | nil => intro o a; rfl
  | cons r rest ih =>
    intro o a
    by_cases h2 : 2000 ≤ o
    · rw [fetchGo_of_le _ _ _ h2, fetchGo_of_le _ _ _ h2]
    · match r with
      | .ok ps =>
        rw [List.filter_cons_of_pos (by rfl)]
        match hps : ps.isEmpty with
        | true =>
          have hnil : ps = [] := List.isEmpty_iff.mp hps
          subst hnil
          rw [fetchGo_ok_empty _ _ _ h2, fetchGo_ok_empty _ _ _ h2]
        | false =>
          rw [fetchGo_ok _ _ _ _ h2 hps, fetchGo_ok _ _ _ _ h2 hps]
          exact ih _ _
      | .rateLimited =>
        rw [List.filter_cons_of_neg (by decide), fetchGo_rl _ _ _ h2]
        exact ih o a
      | .fail =>
        rw [List.filter_cons_of_pos (by rfl), fetchGo_fail _ _ _ h2, fetchGo_fail _ _ _ h2]

/-! ## Entity activity prober (`getUserActivity`, part_000 lines 297-337)

A successful user fetch is classified into banned/suspended flags; an
executor failure is inspected by substring: a message containing `404`
or `403` is mapped to an inaccessible/deleted result, anything else
rethrows. -/

/-- The fields of the user-detail payload the prober reads.  The source
accepts either of two spellings for the ban flag and the suspension
timestamp (`isBanned`/`banned`, `suspendedUntil`/`suspended_until`);
the merged value is modelled directly. -/
structure UserResp where
  isBanned : Bool
  suspendedUntil : Option Nat
  countryCode : Option String
deriving DecidableEq

/-- The `ProbeResult` shape `getUserActivity` produces. -/
structure Activity where
  accessible : Bool
  banned : Bool
  suspended : Bool
  suspendedUntil : Option Nat
  countryCode : Option String
  deleted : Bool
deriving DecidableEq

/-- `suspendedUntil !== null && new Date(suspendedUntil) > new Date()`. -/
def suspendedNow (su : Option Nat) (now : Nat) : Bool :=
  match su with
  | some t => decide (now < t)
  | none => false

/-- The result `getUserActivity` returns for a 404/403 failure
(`accessible: false, banned: false, deleted: true`; the absent fields
are JavaScript `undefined`, i.e. falsy/none). -/
def deletedActivity : Activity :=
  { accessible := false, banned := false, suspended := false,
    suspendedUntil := none, countryCode := none, deleted := true }

/-- `getUserActivity`: classify a user-detail fetch outcome.  The catch
block tests `error.message.includes('404')` and then `'403'`; any other
error is rethrown. -/
def getUserActivity (result : Except ApiError UserResp) (now : Nat) :
    Except ApiError Activity :=
  match result with
  | .ok resp => .ok
      { accessible := true, banned := resp.isBanned,
        suspended := suspendedNow resp.suspendedUntil now,
        suspendedUntil := resp.suspendedUntil,
        countryCode := resp.countryCode, deleted := false }
  | .error e =>
    if strContains (messageOf e) "404" then .ok deletedActivity
    else if strContains (messageOf e) "403" then .ok deletedActivity
    else .error e

/-! ## Persisted-store loader (`loadPlayerData`, part_000 lines 227-241)

The loader returns the default tracking object when the file is
missing, unreadable or unparseable; otherwise whatever JSON the file
holds. -/

/-- A JSON value, as `JSON.parse` can produce. -/
inductive Json where
  | null
  | bool (b : Bool)
  | num (n : Int)
  | str (s : String)
  | arr (xs : List Json)
  | obj (fields : List (String × Json))

/-- Observable states of the tracking file as `loadPlayerData` can
encounter them: absent, present but unreadable (read throws), present
but not valid JSON (parse throws), or parsed content. -/
inductive FileState where
  | missing
  | unreadable
  | badJson
  | content (v : Json)

/-- The default tracking object returned on any load failure:
`{ players: {}, lastCheck: null, totalChecks: 0 }`. -/
def defaultTrackingData : Json :=
  .obj [("players", .obj []), ("lastCheck", .null), ("totalChecks", .num 0)]

/-- `loadPlayerData`: the `try`/`catch` around `existsSync`,
`readFileSync` and `JSON.parse` collapses every failure to the default
object; a successfully parsed file is returned as-is. -/
def loadPlayerData : FileState → Json
  | .missing => defaultTrackingData
  | .unreadable => defaultTrackingData
  | .badJson => defaultTrackingData
  | .content v => v

/-- First field of a JSON object with the given key, as JavaScript
property access. -/
def jsonField (v : Json) (key : String) : Option Json :=
  match v with
  | .obj fields => (fields.find? (fun f => f.1 == key)).map (·.2)
  | _ => none

/-- Does a JSON value have the shape the check cycle requires of the
store: an object whose `players` field is an object? -/
def isStoreShaped (v : Json) : Bool :=
  match jsonField v "players" with
  | some (.obj _) => true
  | _ => false

/-! ## Claims C6, C7, C8, C10 -/

/-- **C6** (counterexample).  Two clauses of the claimed backoff
schedule fail.  (1) The claim states that a rate-limited failure
without a server-supplied retry hint waits 15s plus 5s per attempt,
capped at 45s; in the code the rejection message always embeds the
already-defaulted hint (`Rate limited. Retry after 15 seconds`), so the
message always contains `Retry after` and the escalation branch is
unreachable: at attempt 1 the code waits 15000 ms where the claimed
formula gives 20000 ms.  (2) The claim states that a network failure
waits 3s plus 2s per attempt; the code classifies a raw network error
by substring tests on its message, so a network error whose message
happens to contain `404` — here the DNS failure
`getaddrinfo ENOTFOUND cdn404.example.com` — takes the 404/403 branch
and waits 2000 ms at attempt 0 where the claimed formula gives
3000 ms. -/
theorem c6_backoff_counterexample :
    (waitTimeFor (rateLimitedOf none) 1 = 15000 ∧
     specRateLimitWait none 1 = 20000 ∧
     waitTimeFor (rateLimitedOf none) 1 ≠ specRateLimitWait none 1) ∧
    (waitTimeFor (.netError "getaddrinfo ENOTFOUND cdn404.example.com") 0 = 2000 ∧
     waitTimeFor (.netError "getaddrinfo ENOTFOUND cdn404.example.com") 0 ≠
       3000 + 0 * 2000) :=
  ⟨⟨by decide, by decide, by decide⟩, ⟨by decide, by decide⟩⟩

/-- **C6** (amended).  The executor makes at most `maxRetries`
additional attempts after the first; the wait before a retry is: for a
rate-limit failure the server hint times 1000 ms, defaulting to a
constant 15s when the hint is absent or zero (never the escalating
15s+5s/attempt formula); for 404/403 failures 2s plus 1s per attempt;
for timeout and malformed-JSON failures 3s plus 2s per attempt; for a
raw network failure, whose message is classified by the same substring
tests, 3s plus 2s per attempt provided the message contains none of
`Rate limited`, `404`, `403`; and when every attempt fails, the error
of the final attempt is surfaced to the caller. -/
theorem c6_retry_policy (α : Type) (responses : Nat → Except ApiError α)
    (maxRetries attempt : Nat) (hint : Option Nat) (msg : String)
    (hm1 : strContains msg "Rate limited" = false)
    (hm2 : strContains msg "404" = false)
    (hm3 : strContains msg "403" = false)
    (hfail : ∀ i, i ≤ maxRetries → (responses i).isOk = false) :
    (makeAPIRequest responses maxRetries).2.length ≤ maxRetries ∧
    waitTimeFor (rateLimitedOf hint) attempt =
      (match hint with
       | some h => if h = 0 then 15000 else h * 1000
       | none => 15000) ∧
    waitTimeFor (.notAccessible 404) attempt = 2000 + attempt * 1000 ∧
    waitTimeFor (.notAccessible 403) attempt = 2000 + attempt * 1000 ∧
    waitTimeFor .timeout attempt = 3000 + attempt * 2000 ∧
    waitTimeFor .invalidJson attempt = 3000 + attempt * 2000 ∧
    waitTimeFor (.netError msg) attempt = 3000 + attempt * 2000 ∧
    (makeAPIRequest responses maxRetries).1 = responses maxRetries := by
  refine ⟨requestGo_length responses maxRetries 0,
    waitTimeFor_rateLimitedOf hint attempt, ?_, ?_, ?_, ?_, ?_, ?_⟩
  · unfold waitTimeFor
    rw [show strContains (messageOf (.notAccessible 404)) "Rate limited" = false from by decide,
      show strContains (messageOf (.notAccessible 404)) "404" = true from by decide]
    simp
  · unfold waitTimeFor
    rw [show strContains (messageOf (.notAccessible 403)) "Rate limited" = false from by decide,
      show strContains (messageOf (.notAccessible 403)) "404" = false from by decide,
      show strContains (messageOf (.notAccessible 403)) "403" = true from by decide]
    simp
  · unfold waitTimeFor
    rw [show strContains (messageOf .timeout) "Rate limited" = false from by decide,
      show strContains (messageOf .timeout) "404" = false from by decide,
      show strContains (messageOf .timeout) "403" = false from by decide]
    simp
  · unfold waitTimeFor
    rw [show strContains (messageOf .invalidJson) "Rate limited" = false from by decide,
      show strContains (messageOf .invalidJson) "404" = false from by decide,
      show strContains (messageOf .invalidJson) "403" = false from by decide]
    simp
  · unfold waitTimeFor
    have hme : messageOf (.netError msg) = msg := rfl
    rw [hme, hm1, hm2, hm3]
    simp
  · have h := requestGo_all_fail responses maxRetries 0 (by simpa using hfail)
    simpa [makeAPIRequest] using h

/-- Witness for `c6_retry_policy` at a concrete all-failing response
sequence and the concrete network-error message `socket hang up`. -/
theorem c6_retry_policy_witness :
    (makeAPIRequest (fun _ => (.error .timeout : Except ApiError Unit)) 3).2.length ≤ 3 ∧
    waitTimeFor (rateLimitedOf none) 0 = 15000 ∧
    waitTimeFor (.notAccessible 404) 0 = 2000 + 0 * 1000 ∧
    waitTimeFor (.notAccessible 403) 0 = 2000 + 0 * 1000 ∧
    waitTimeFor .timeout 0 = 3000 + 0 * 2000 ∧
    waitTimeFor .invalidJson 0 = 3000 + 0 * 2000 ∧
    waitTimeFor (.netError "socket hang up") 0 = 3000 + 0 * 2000 ∧
    (makeAPIRequest (fun _ => (.error .timeout : Except ApiError Unit)) 3).1 =
      .error .timeout :=
  c6_retry_policy Unit (fun _ => .error .timeout) 3 0 none "socket hang up"
    (by decide) (by decide) (by decide) (fun _ _ => rfl)

/-- **C7**.  During snapshot pagination (pages of 100 below offset
2000, ending early on an empty page), a rate-limited page waits the
fixed 15s cooldown and re-requests the same offset with the gathered
players unchanged (no page skipped) — indeed deleting all rate-limit
outcomes from a run's script never changes the returned player
sequence — while any other page failure ends pagination immediately,
returning the partial sequence gathered so far. -/
theorem c7_pagination_recovery (script rest : List PageResult) (ps : List LBPlayer)
    (offset : Nat) (acc : List LBPlayer) (h : offset < 2000) (hps : ps.isEmpty = false) :
    (fetchGo (.rateLimited :: rest) offset acc =
      ((fetchGo rest offset acc).1, 15000 :: (fetchGo rest offset acc).2)) ∧
    (fetchGo (.fail :: rest) offset acc = (acc, [])) ∧
    (fetchGo (.ok [] :: rest) offset acc = (acc, [])) ∧
    (fetchGo (.ok ps :: rest) offset acc =
      ((fetchGo rest (offset + 100) (acc ++ ps)).1,
        (if offset + 100 < 2000 then [75] else []) ++
          (fetchGo rest (offset + 100) (acc ++ ps)).2)) ∧
    ((fetchGo (script.filter (fun r => !r.isRL)) offset acc).1 =
      (fetchGo script offset acc).1) := by
  have h2 : ¬ 2000 ≤ offset := by omega
  exact ⟨fetchGo_rl _ _ _ h2, fetchGo_fail _ _ _ h2, fetchGo_ok_empty _ _ _ h2,
    fetchGo_ok _ _ _ _ h2 hps, fetchGo_filter_rateLimited _ _ _⟩

/-- Witness for `c7_pagination_recovery` at offset 0 with a one-player
page. -/
theorem c7_pagination_recovery_witness :
    (fetchGo [.rateLimited] 0 [] = ((fetchGo [] 0 []).1, 15000 :: (fetchGo [] 0 []).2)) ∧
    (fetchGo [.fail] 0 [] = ([], [])) ∧
    (fetchGo [.ok []] 0 [] = ([], [])) ∧
    (fetchGo [.ok [⟨"u1", "n1", none, 1000, 1⟩]] 0 [] =
      ((fetchGo [] 100 ([] ++ [⟨"u1", "n1", none, 1000, 1⟩])).1,
        (if 100 < 2000 then [75] else []) ++
          (fetchGo [] 100 ([] ++ [⟨"u1", "n1", none, 1000, 1⟩])).2)) ∧
    ((fetchGo ([.rateLimited].filter (fun r => !r.isRL)) 0 []).1 =
      (fetchGo [.rateLimited] 0 []).1) :=
  c7_pagination_recovery [.rateLimited] [] [⟨"u1", "n1", none, 1000, 1⟩] 0 []
    (by decide) (by decide)

/-- **C8** (counterexample).  The claim states that every executor
failure other than 404/403 propagates out of the prober.  But the
classification is by message substring: a rate-limited failure whose
retry hint renders as `404` produces the message `Rate limited. Retry
after 404 seconds`, which contains `404`, so `getUserActivity` swallows
this non-404/403 failure and reports the entity deleted instead of
propagating it. -/
theorem c8_probe_counterexample :
    rateLimitedOf (some 404) = ApiError.rateLimited 404 ∧
    getUserActivity (.error (ApiError.rateLimited 404)) 0 = .ok deletedActivity := by
  refine ⟨rfl, ?_⟩
  have hm : strContains (messageOf (ApiError.rateLimited 404)) "404" = true := by decide
  show (if strContains (messageOf (ApiError.rateLimited 404)) "404" then
      (.ok deletedActivity : Except ApiError Activity)
    else if strContains (messageOf (ApiError.rateLimited 404)) "403" then .ok deletedActivity
    else .error (ApiError.rateLimited 404)) = .ok deletedActivity
  rw [hm]
  simp

/-- **C8** (amended).  `getUserActivity` never raises for 404/403
executor failures: they are mapped to the inaccessible/deleted probe
result (`accessible = false`, `deleted = true`); an executor failure
propagates to the caller exactly when its message contains neither the
substring `404` nor `403` (which holds for every 404/403-free message,
but fails for e.g. a rate-limit hint rendering those digits); a
successful fetch never raises. -/
theorem c8_probe_contract (e : ApiError) (resp : UserResp) (now : Nat)
    (h404 : strContains (messageOf e) "404" = false)
    (h403 : strContains (messageOf e) "403" = false) :
    (getUserActivity (.error (.notAccessible 404)) now = .ok deletedActivity ∧
      getUserActivity (.error (.notAccessible 403)) now = .ok deletedActivity ∧
      deletedActivity.accessible = false ∧ deletedActivity.deleted = true) ∧
    getUserActivity (.error e) now = .error e ∧
    (getUserActivity (.ok resp) now).isOk = true := by
  refine ⟨⟨rfl, rfl, rfl, rfl⟩, ?_, rfl⟩
  have hstep : getUserActivity (.error e) now =
      (if strContains (messageOf e) "404" then .ok deletedActivity
       else if strContains (messageOf e) "403" then .ok deletedActivity
       else .error e) := rfl
  rw [hstep, h404, h403]
  simp

/-- Witness for `c8_probe_contract` at a timeout failure. -/
theorem c8_probe_contract_witness :
    (getUserActivity (.error (.notAccessible 404)) 0 = .ok deletedActivity ∧
      getUserActivity (.error (.notAccessible 403)) 0 = .ok deletedActivity ∧
      deletedActivity.accessible = false ∧ deletedActivity.deleted = true) ∧
    getUserActivity (.error .timeout) 0 = .error .timeout ∧
    (getUserActivity (.ok ⟨false, none, none⟩) 0).isOk = true :=
  c8_probe_contract .timeout ⟨false, none, none⟩ 0 (by decide) (by decide)

/-- **C10** (counterexample).  The claim concludes that a cycle always
starts with a well-formed store value.  A tracking file holding the
valid JSON text `null` is readable and parseable, so `loadPlayerData`
returns it unchanged: the result is neither the default initial state
nor store-shaped. -/
theorem c10_load_counterexample :
    loadPlayerData (.content .null) = Json.null ∧
    Json.null ≠ defaultTrackingData ∧
    isStoreShaped (loadPlayerData (.content .null)) = false :=
  ⟨rfl, fun h => Json.noConfusion h, rfl⟩

/-- **C10** (amended).  `loadPlayerData` is total and returns the
default initial state `{players: {}, lastCheck: null, totalChecks: 0}`
for a missing, unreadable or unparseable file — and that default is
store-shaped — but a readable file with valid JSON is returned as-is,
whatever its shape. -/
theorem c10_load_total :
    loadPlayerData .missing = defaultTrackingData ∧
    loadPlayerData .unreadable = defaultTrackingData ∧
    loadPlayerData .badJson = defaultTrackingData ∧
    isStoreShaped defaultTrackingData = true ∧
    ∀ v, loadPlayerData (.content v) = v :=
  ⟨rfl, rfl, rfl, rfl, fun _ => rfl⟩

/-! ## The check cycle (`checkForBannedPlayers`, part_000 lines 725-1028)

The cycle is embedded as a pure function of the loaded store, the
fetched leaderboard, a per-entity probe outcome function (fixed for the
cycle), the cycle timestamp, and a flag modelling an unexpected
exception escaping the coordinator during the full-population phase
(e.g. the `TypeError` thrown at line 912 when a persisted record lacks
a `ratings` array; the per-player loop is the first point after the
priority pass's mid-cycle save that is not wrapped in a per-entity
`try`/`catch`).

Display-only data (console logs, embed fields such as `nick`,
`lastRating`, `hoursSinceSeen`, CSV rows) and pacing delays inside the
passes are dropped; batch concurrency is sequentialised, which is
faithful because batch results are collected in input order and each
entity's handler only touches that entity's record. -/

/-- Persisted sanction status of a tracked player. -/
inductive Status where
  | active
  | banned
  | suspended
  | suspensionExpired
  | deletedAccount
deriving DecidableEq

/-- One rating-history sample. -/
structure RatingEntry where
  rating : Int
  position : Nat
  timestamp : Nat
deriving DecidableEq

/-- A persisted player record (`data.players[userId]`). -/
structure PlayerData where
  nick : String
  countryCode : Option String
  firstSeen : Nat
  ratings : List RatingEntry
  lastSeen : Nat
  status : Status
  suspendedUntil : Option Nat
  suspendedAt : Option Nat
  bannedAt : Option Nat
  deletedAt : Option Nat
  unbannedAt : Option Nat
  unsuspendedAt : Option Nat
deriving DecidableEq

/-- The persisted store (`player_tracking.json`, parsed). -/
structure Store where
  players : List (String × PlayerData)
  lastCheck : Option Nat
  totalChecks : Nat
deriving DecidableEq

/-- Property lookup in the players map (`data.players[userId]`);
JavaScript object keys are unique, modelled as an association list. -/
def getPlayer (ps : List (String × PlayerData)) (uid : String) : Option PlayerData :=
  (ps.find? (fun p => p.1 == uid)).map (·.2)

/-- Property write in the players map: overwrite in place, or append a
new key (JavaScript object insertion order). -/
def setPlayer : List (String × PlayerData) → String → PlayerData → List (String × PlayerData)
  | [], uid, pd => [(uid, pd)]
  | (k, v) :: rest, uid, pd =>
    if k == uid then (k, pd) :: rest else (k, v) :: setPlayer rest uid pd

/-- `!data.lastCheck || (currentTime - data.lastCheck) > 3*60*60*1000`
(part_000 line 745): the "first check after restart" guard is purely a
gap test against the persisted `lastCheck` (a stored `0` is falsy in
JavaScript and also counts). -/
def isFirstCheckAfterRestart (lastCheck : Option Nat) (now : Nat) : Bool :=
  match lastCheck with
  | none => true
  | some t => t == 0 || decide (3 * 60 * 60 * 1000 < now - t)

/-- Per-entity probe outcome for one cycle, at the granularity the
cycle observes `getUserActivity`: a successful user fetch with its raw
fields, an executor failure classified as 404/403 by the message test
(mapped to the deleted result), or any other failure (rethrown by
`getUserActivity`, caught by the per-entity batch handler, entity
skipped). -/
inductive RawProbe where
  | ok (isBanned : Bool) (suspendedUntil : Option Nat) (countryCode : Option String)
  | notFound
  | forbidden
  | fail
deriving DecidableEq

/-- What `getUserActivity` hands the cycle for one entity: `none` when
the probe failed and the entity is skipped this cycle. -/
def activityOf (r : RawProbe) (now : Nat) : Option Activity :=
  match r with
  | .ok b su cc => some
      { accessible := true, banned := b, suspended := suspendedNow su now,
        suspendedUntil := su, countryCode := cc, deleted := false }
  | .notFound => some deletedActivity
  | .forbidden => some deletedActivity
  | .fail => none

/-- The operative fields of a probing-pass result object (the
display-only fields `nick`, `lastRating`, `hoursSinceSeen` are
dropped).  Absent JavaScript fields are modelled as `false`/`none`. -/
structure PassResult where
  userId : String
  countryCode : Option String
  deletedAccount : Bool
  isNewDeletion : Bool
  confirmedBanned : Bool
  suspended : Bool
  suspendedUntil : Option Nat
  isNewSanction : Bool
deriving DecidableEq

/-- Kind of an externally visible per-entity event: a ban/suspension
notification, an unban/unsuspension (restored) event, or a
deleted-account notification. -/
inductive EKind where
  | sanction
  | restored
  | deletion
deriving DecidableEq

/-- In-flight cycle state: the players map plus the two cycle-scoped
dedup key sets and the events emitted so far.  The JavaScript keys
`userId_ban_banned` / `userId_ban_suspended` and `userId_unban` /
`userId_unsuspend` are modelled as pairs `(userId, flag)`; the string
encoding is injective because the suffix alphabet is fixed. -/
structure CycleSt where
  players : List (String × PlayerData)
  bansKeys : List (String × Bool)
  unbanKeys : List (String × Bool)
  events : List (String × EKind)
deriving DecidableEq

/-- Membership in a dedup key set. -/
def hasKey (ks : List (String × Bool)) (uid : String) (b : Bool) : Bool :=
  ks.any (fun k => k.1 == uid && k.2 == b)

/-- Effect of processing one list element on the cycle state: an
updated own record (`none` leaves the map untouched), at most one new
ban-dedup key and one unban-dedup key (always scoped to the element's
own entity id), events concerning the own entity, and an optional pass
result. -/
structure StepOut where
  pd : Option PlayerData
  addBanKey : Option Bool
  addUnbanKey : Option Bool
  evs : List EKind
  res : Option PassResult

/-- A per-element handler: it sees only its own record and the key sets
restricted to its own entity id (as membership views). -/
def LocalStep (α : Type) : Type :=
  Option PlayerData → (Bool → Bool) → (Bool → Bool) → α → StepOut

/-- Apply a handler to one element: look up the own record and the own
key views, then fold the declared effects into the cycle state. -/
def applyStep {α : Type} (uidOf : α → String) (f : LocalStep α) (st : CycleSt) (a : α) :
    CycleSt × Option PassResult :=
  let uid := uidOf a
  let out := f (getPlayer st.players uid)
    (fun b => hasKey st.bansKeys uid b) (fun b => hasKey st.unbanKeys uid b) a
  let st1 : CycleSt :=
    { players := match out.pd with
        | some pd => setPlayer st.players uid pd
        | none => st.players,
      bansKeys := st.bansKeys ++ (match out.addBanKey with
        | some b => [(uid, b)]
        | none => []),
      unbanKeys := st.unbanKeys ++ (match out.addUnbanKey with
        | some b => [(uid, b)]
        | none => []),
      events := st.events ++ out.evs.map (fun k => (uid, k)) }
  (st1, out.res)

/-- Run a per-element handler over a list, threading the cycle state;
results are collected in input order, as `Promise.allSettled` preserves
order. -/
def runPass {α : Type} (uidOf : α → String) (f : LocalStep α) :
    List α → CycleSt → CycleSt × List PassResult
  | [], st => (st, [])
  | a :: rest, st =>
    let s := applyStep uidOf f st a
    let next := runPass uidOf f rest s.1
    (next.1, s.2.toList ++ next.2)

/-- A "no effect" step outcome. -/
def StepOut.skip : StepOut := ⟨none, none, none, [], none⟩

/-- A fresh record for a newly tracked leaderboard player
(part_000 lines 836-843 and the identical blocks in the passes). -/
def freshPlayer (p : LBPlayer) (now : Nat) : PlayerData :=
  { nick := p.nick, countryCode := p.countryCode, firstSeen := now,
    ratings := [⟨p.rating, p.position, now⟩], lastSeen := now, status := .active,
    suspendedUntil := none, suspendedAt := none, bannedAt := none, deletedAt := none,
    unbannedAt := none, unsuspendedAt := none }

/-- `ratings.push(...)` followed by `slice(-30)` when the history
exceeds 30 samples (part_000 lines 912-920). -/
def pushRating (rs : List RatingEntry) (r : RatingEntry) : List RatingEntry :=
  let rs2 := rs ++ [r]
  if 30 < rs2.length then rs2.drop (rs2.length - 30) else rs2

/-- An entity recently seen as `active` that vanished from the
snapshot (part_000 lines 755-776). -/
structure MissingP where
  userId : String
  pd : PlayerData
  hoursSinceSeen : Nat
deriving DecidableEq

/-- Selection of the priority ("recently missing") entities: persisted
`active`, seen within six hours, absent from the snapshot, and missing
for 1 to 23 whole hours. -/
def missingPlayersOf (players : List (String × PlayerData)) (lb : List LBPlayer)
    (now : Nat) : List MissingP :=
  players.filterMap (fun p =>
    if now - 6 * 60 * 60 * 1000 < p.2.lastSeen ∧ p.2.status = .active ∧
        ¬ (lb.any (fun q => q.userId == p.1)) = true then
      let hrs := (now - p.2.lastSeen) / (60 * 60 * 1000)
      if 1 ≤ hrs ∧ hrs < 24 then some ⟨p.1, p.2, hrs⟩ else none
    else none)

/-- Handler of the priority pass `verifyBannedPlayers` (part_000 lines
1055-1141): deletions are recorded in the map immediately; sanctions
only produce a result object; a probe failure or a missing record
(which would throw and be caught) yields nothing. -/
def priorityStep (probe : String → RawProbe) (now : Nat) : LocalStep MissingP :=
  fun pd? _ _ mp =>
    match activityOf (probe mp.userId) now with
    | none => .skip
    | some act =>
      if act.deleted then
        match pd? with
        | none => .skip
        | some pData =>
          if pData.status ≠ .deletedAccount then
            ⟨some { pData with status := .deletedAccount, deletedAt := some now },
              none, none, [],
              some ⟨mp.userId, mp.pd.countryCode, true, true, false, false,
                mp.pd.suspendedUntil, false⟩⟩
          else .skip
      else if act.banned || act.suspended then
        match pd? with
        | none => .skip
        | some pData =>
          let isNew : Bool :=
            if act.banned then decide (pData.status ≠ .banned)
            else decide (pData.status ≠ .suspended ∨ pData.suspendedUntil ≠ act.suspendedUntil)
          ⟨none, none, none, [],
            some ⟨mp.userId, act.countryCode, false, false, act.banned, act.suspended,
              act.suspendedUntil, isNew⟩⟩
      else .skip

/-- Handler of the full-population pass `verifyAllTop2000Players`
(part_000 lines 372-484): untracked players get a fresh record created
before classification; deletions are recorded immediately; sanctions
only produce a result object. -/
def verifyAllStep (probe : String → RawProbe) (now : Nat) : LocalStep LBPlayer :=
  fun pd? _ _ p =>
    match activityOf (probe p.userId) now with
    | none => .skip
    | some act =>
      if act.deleted then
        match pd? with
        | none =>
          ⟨some { freshPlayer p now with status := .deletedAccount, deletedAt := some now },
            none, none, [],
            some ⟨p.userId, p.countryCode, true, true, false, false, none, false⟩⟩
        | some pData =>
          if pData.status ≠ .deletedAccount then
            ⟨some { pData with status := .deletedAccount, deletedAt := some now },
              none, none, [],
              some ⟨p.userId, p.countryCode, true, true, false, false, none, false⟩⟩
          else .skip
      else if act.banned || act.suspended then
        let prev := match pd? with
          | none => freshPlayer p now
          | some pData => pData
        let isNew : Bool :=
          if act.banned then decide (prev.status ≠ .banned)
          else decide (prev.status ≠ .suspended ∨ prev.suspendedUntil ≠ act.suspendedUntil)
        ⟨(match pd? with
            | none => some (freshPlayer p now)
            | some _ => none), none, none, [],
          some ⟨p.userId, act.countryCode, false, false, act.banned, act.suspended,
            act.suspendedUntil, isNew⟩⟩
      else .skip

/-- Handler of the main per-snapshot-player reconciliation loop
(part_000 lines 832-922).  It consults the full-population pass results
(`apiSanction`), skips entities already handled by the priority pass,
applies sanction state updates and data corrections, fires the
dedup-guarded unban/unsuspend path (note: it does **not** remove
`suspendedUntil` when restoring, and the restart guard suppresses it),
silently reactivates on the first check after restart, and finally
refreshes the rating history. -/
def loopStep (top2000Info priorityResults : List PassResult) (firstCheck : Bool)
    (now : Nat) : LocalStep LBPlayer :=
  fun pd? _ unbanView p =>
    match pd? with
    | none => ⟨some (freshPlayer p now), none, none, [], none⟩
    | some pd0 =>
      let pd1 := { pd0 with nick := p.nick, lastSeen := now }
      let apiSanction := top2000Info.find? (fun s => s.userId == p.userId)
      let already := priorityResults.any (fun s => s.userId == p.userId)
      let afterStatus : PlayerData × Option Bool × List EKind :=
        match apiSanction, already with
        | some s, false =>
          if s.isNewSanction then
            if s.confirmedBanned then
              ({ pd1 with
                  status := .banned, bannedAt := some (pd1.bannedAt.getD now),
                  suspendedUntil := none, suspendedAt := none }, none, [])
            else
              ({ pd1 with
                  status := .suspended,
                  suspendedAt := some (pd1.suspendedAt.getD now),
                  suspendedUntil := s.suspendedUntil }, none, [])
          else if pd1.status = .active then
            if s.confirmedBanned then
              ({ pd1 with status := .banned, bannedAt := some (pd1.bannedAt.getD now) },
                none, [])
            else
              ({ pd1 with
                  status := .suspended,
                  suspendedAt := some (pd1.suspendedAt.getD now),
                  suspendedUntil := s.suspendedUntil }, none, [])
          else (pd1, none, [])
        | none, false =>
          if (pd1.status = .banned ∨ pd1.status = .suspended ∨
                pd1.status = .suspensionExpired) ∧
              pd1.status ≠ .deletedAccount ∧ firstCheck = false then
            let wasBanned : Bool := pd1.status == .banned
            if unbanView wasBanned = false then
              ({ pd1 with
                  status := .active,
                  unbannedAt := if wasBanned then some now else pd1.unbannedAt,
                  unsuspendedAt := if wasBanned then pd1.unsuspendedAt else some now },
                some wasBanned, [.restored])
            else (pd1, none, [])
          else if pd1.status ≠ .active ∧ pd1.status ≠ .deletedAccount then
            ({ pd1 with status := .active }, none, [])
          else (pd1, none, [])
        | _, true => (pd1, none, [])
      let pd2 := afterStatus.1
      ⟨some { pd2 with ratings := pushRating pd2.ratings ⟨p.rating, p.position, now⟩ },
        none, afterStatus.2.1, afterStatus.2.2, none⟩

/-- Effect of the natural suspension-expiry sweep on one record
(part_000 lines 930-938). -/
def sweepOne (now : Nat) (pd : PlayerData) : PlayerData :=
  match pd.status, pd.suspendedUntil with
  | .suspended, some u =>
    if u ≤ now then
      { pd with
        status := .suspensionExpired,
        suspendedUntil := none, suspendedAt := none }
    else pd
  | _, _ => pd

/-- The natural suspension-expiry sweep (part_000 lines 929-939): a
pure pass over the map, no probe involved. -/
def sweepPlayers (players : List (String × PlayerData)) (now : Nat) :
    List (String × PlayerData) :=
  players.map (fun p => (p.1, sweepOne now p.2))

/-- Snapshot of a currently sanctioned entity queued for
re-verification (part_000 lines 944-959; display-only fields
dropped). -/
structure SanctionedP where
  userId : String
  status : Status
  suspendedUntil : Option Nat
  countryCode : Option String
deriving DecidableEq

/-- Selection of persisted `banned`/`suspended` entities seen within
the last week. -/
def existingSanctionedOf (players : List (String × PlayerData)) (now : Nat) :
    List SanctionedP :=
  players.filterMap (fun p =>
    if (p.2.status = .suspended ∨ p.2.status = .banned) ∧
        p.2.status ≠ .deletedAccount ∧
        now - 7 * 24 * 60 * 60 * 1000 < p.2.lastSeen then
      some ⟨p.1, p.2.status, p.2.suspendedUntil, p.2.countryCode⟩
    else none)

/-- Handler of the re-verification pass
`verifyExistingSanctionedPlayers` (part_000 lines 554-693).  It reads
the live record, records deletions immediately, reports sanction-type
changes as results, and on an unsanctioned probe runs the
dedup-guarded restoration inline (re-fetching the leaderboard there is
behaviourally inert — the fetched value is never used — and is
dropped). Note: this path has **no** restart guard. -/
def reverifyStep (probe : String → RawProbe) (now : Nat) : LocalStep SanctionedP :=
  fun pd? _ unbanView e =>
    match activityOf (probe e.userId) now with
    | none => .skip
    | some act =>
      match pd? with
      | none => .skip
      | some pData =>
        if act.deleted then
          if pData.status ≠ .deletedAccount then
            ⟨some { pData with status := .deletedAccount, deletedAt := some now },
              none, none, [],
              some ⟨e.userId, e.countryCode, true, true, false, false, none, false⟩⟩
          else .skip
        else if act.banned then
          if pData.status ≠ .banned then
            ⟨none, none, none, [],
              some ⟨e.userId, act.countryCode, false, false, act.banned, act.suspended,
                act.suspendedUntil, true⟩⟩
          else .skip
        else if act.suspended then
          if pData.status = .banned then
            ⟨none, none, none, [],
              some ⟨e.userId, act.countryCode, false, false, act.banned, act.suspended,
                act.suspendedUntil, true⟩⟩
          else if pData.status = .suspended then
            if pData.suspendedUntil ≠ act.suspendedUntil then
              ⟨none, none, none, [],
                some ⟨e.userId, act.countryCode, false, false, act.banned, act.suspended,
                  act.suspendedUntil, true⟩⟩
            else .skip
          else
            ⟨none, none, none, [],
              some ⟨e.userId, act.countryCode, false, false, act.banned, act.suspended,
                act.suspendedUntil, true⟩⟩
        else
          if pData.status = .banned ∨ pData.status = .suspended then
            let wasBanned : Bool := pData.status == .banned
            if unbanView wasBanned = false then
              ⟨some { pData with
                  status := .active, suspendedUntil := none, suspendedAt := none,
                  unbannedAt := if wasBanned then some now else pData.unbannedAt,
                  unsuspendedAt := if wasBanned then pData.unsuspendedAt else some now },
                none, some wasBanned, [.restored], none⟩
            else .skip
          else .skip

/-- `priorityBannedPlayers.filter(p => p.isNewSanction && !p.deletedAccount)`. -/
def newBansOf (prs : List PassResult) : List PassResult :=
  prs.filter (fun r => r.isNewSanction && !r.deletedAccount)

/-- `filter(p => p.deletedAccount && p.isNewDeletion)`. -/
def newDeletionsOf (prs : List PassResult) : List PassResult :=
  prs.filter (fun r => r.deletedAccount && r.isNewDeletion)

/-- The dedup-guarded per-event state update applied after a ban
notification (part_000 lines 791-811 in the priority block and
974-996 in the combined block, which are identical): first occurrence
of the `(userId, kind)` ban key updates the record to the sanctioned
state; a repeated key does nothing. -/
def banUpdateStep (now : Nat) : LocalStep PassResult :=
  fun pd? banView _ r =>
    if banView r.confirmedBanned = false then
      let pdOut : Option PlayerData :=
        match pd? with
        | some pd =>
          if r.confirmedBanned then
            some { pd with
              bannedAt := if pd.status ≠ .banned then some now else pd.bannedAt,
              status := .banned, suspendedUntil := none, suspendedAt := none }
          else if r.suspended then
            some { pd with
              suspendedAt :=
                if pd.status ≠ .suspended ∨ pd.suspendedUntil ≠ r.suspendedUntil
                then some now else pd.suspendedAt,
              status := .suspended, suspendedUntil := r.suspendedUntil }
          else some pd
        | none => none
      ⟨pdOut, some r.confirmedBanned, none, [], none⟩
    else .skip

/-- Observable outcome of one check cycle: the in-memory store at the
end, the stores passed to `savePlayerData` in order, the per-entity
notification events in order, and the counts of error and non-error
status messages. -/
structure CycleOut where
  store : Store
  saves : List Store
  events : List (String × EKind)
  errorMsgs : Nat
  infoMsgs : Nat
deriving DecidableEq

/-- The persisted store after a cycle: the last save, or the original
file content if the cycle never saved. -/
def persistedAfter (out : CycleOut) (initial : Store) : Store :=
  out.saves.getLastD initial

/-- The priority notification block (part_000 lines 784-827): if the
priority pass produced any result, notify the new bans (the whole list,
before any dedup-key test), run the key-guarded per-player state
update, notify the new deletions, and save. -/
def priorityBlock (now : Nat) (priorityResults : List PassResult) (st : CycleSt) : CycleSt :=
  if priorityResults.isEmpty then st
  else
    let newBans := newBansOf priorityResults
    let newDeletions := newDeletionsOf priorityResults
    let st2 := { st with
      events := st.events ++ newBans.map (fun r => (r.userId, EKind.sanction)) }
    let st3 := if newBans.isEmpty then st2
      else (runPass (·.userId) (banUpdateStep now) newBans st2).1
    { st3 with
      events := st3.events ++ newDeletions.map (fun r => (r.userId, EKind.deletion)) }

/-- The combined notification block over the full-population and
re-verification results (part_000 lines 965-1007): notify all new
sanctions (again before any dedup-key test), run the key-guarded state
update, then notify the new deletions. -/
def combinedBlock (now : Nat) (allSanctions : List PassResult) (st : CycleSt) : CycleSt :=
  let allDeleted := allSanctions.filter (fun s => s.deletedAccount && s.isNewDeletion)
  let allNewSanctions := allSanctions.filter (fun s => s.isNewSanction && !s.deletedAccount)
  let st9 : CycleSt :=
    if allNewSanctions.isEmpty then st
    else
      let st9a := { st with
        events := st.events ++
          allNewSanctions.map (fun (r : PassResult) => (r.userId, EKind.sanction)) }
      (runPass (·.userId) (banUpdateStep now) allNewSanctions st9a).1
  { st9 with
    events := st9.events ++
      allDeleted.map (fun (r : PassResult) => (r.userId, EKind.deletion)) }

/-- The priority pass exactly as the cycle runs it: state and results
over the missing-entity selection, from fresh cycle state. -/
def priorityOutcome (store : Store) (lb : List LBPlayer) (probe : String → RawProbe)
    (now : Nat) : CycleSt × List PassResult :=
  runPass (·.userId) (priorityStep probe now)
    (missingPlayersOf store.players lb now) ⟨store.players, [], [], []⟩

/-- Cycle state after the priority pass and its notification block. -/
def stpOf (store : Store) (lb : List LBPlayer) (probe : String → RawProbe)
    (now : Nat) : CycleSt :=
  priorityBlock now (priorityOutcome store lb probe now).2
    (priorityOutcome store lb probe now).1

/-- The full-population pass exactly as the cycle runs it. -/
def vrOf (store : Store) (lb : List LBPlayer) (probe : String → RawProbe)
    (now : Nat) : CycleSt × List PassResult :=
  runPass (·.userId) (verifyAllStep probe now) lb (stpOf store lb probe now)

/-- The reconciliation loop exactly as the cycle runs it. -/
def lpOf (store : Store) (lb : List LBPlayer) (probe : String → RawProbe)
    (now : Nat) : CycleSt × List PassResult :=
  runPass (·.userId)
    (loopStep (vrOf store lb probe now).2 (priorityOutcome store lb probe now).2
      (isFirstCheckAfterRestart store.lastCheck now) now)
    lb (vrOf store lb probe now).1

/-- Cycle state after the suspension-expiry sweep. -/
def st7Of (store : Store) (lb : List LBPlayer) (probe : String → RawProbe)
    (now : Nat) : CycleSt :=
  { (lpOf store lb probe now).1 with
      players := sweepPlayers (lpOf store lb probe now).1.players now }

/-- The re-verification selection exactly as the cycle builds it. -/
def sanctOf (store : Store) (lb : List LBPlayer) (probe : String → RawProbe)
    (now : Nat) : List SanctionedP :=
  existingSanctionedOf (st7Of store lb probe now).players now

/-- The re-verification pass exactly as the cycle runs it. -/
def rvOf (store : Store) (lb : List LBPlayer) (probe : String → RawProbe)
    (now : Nat) : CycleSt × List PassResult :=
  runPass (·.userId) (reverifyStep probe now) (sanctOf store lb probe now)
    (st7Of store lb probe now)

/-- Cycle state after the combined notification block. -/
def st10Of (store : Store) (lb : List LBPlayer) (probe : String → RawProbe)
    (now : Nat) : CycleSt :=
  combinedBlock now ((vrOf store lb probe now).2 ++ (rvOf store lb probe now).2)
    (rvOf store lb probe now).1

/-- The full check cycle `checkForBannedPlayers`.  `store` is the
loaded tracking data, `lb` the fetched snapshot, `probe` the per-entity
outcome of `getUserActivity` for this cycle, `now` the cycle timestamp
(`currentTime`), and `crash` injects an unexpected exception escaping
the coordinator right after the priority block (see the section
comment); the surrounding `try`/`catch` then reports one error status
message and the cycle ends. -/
def checkForBannedPlayers (store : Store) (lb : List LBPlayer)
    (probe : String → RawProbe) (now : Nat) (crash : Bool) : CycleOut :=
  let firstCheck := isFirstCheckAfterRestart store.lastCheck now
  if lb.isEmpty then
    { store := store, saves := [], events := [], errorMsgs := 1, infoMsgs := 0 }
  else
    let priorityResults := (priorityOutcome store lb probe now).2
    let stp := stpOf store lb probe now
    let prioritySaves : List Store :=
      if priorityResults.isEmpty then [] else [{ store with players := stp.players }]
    if crash then
      { store := { store with players := stp.players }, saves := prioritySaves,
        events := stp.events, errorMsgs := 1, infoMsgs := 0 }
    else
      let st10 := st10Of store lb probe now
      let finalStore : Store :=
        { players := st10.players, lastCheck := some now,
          totalChecks := store.totalChecks + 1 }
      { store := finalStore, saves := prioritySaves ++ [finalStore],
        events := st10.events, errorMsgs := 0,
        infoMsgs := (if firstCheck then 1 else 0) + 1 }

/-! ### Association-list, key-set and pass-runner lemmas -/

theorem getPlayer_cons (k : String) (v : PlayerData) (rest : List (String × PlayerData))
    (u : String) :
    getPlayer ((k, v) :: rest) u = if k = u then some v else getPlayer rest u := by
  by_cases h : k = u
  · subst h
    simp [getPlayer, List.find?_cons]
  · have hb : (k == u) = false := beq_eq_false_iff_ne.mpr h
    simp [getPlayer, List.find?_cons, hb, h]

theorem getPlayer_setPlayer_same (ps : List (String × PlayerData)) (uid : String)
    (pd : PlayerData) : getPlayer (setPlayer ps uid pd) uid = some pd := by
  induction ps with
  | nil =>
    show getPlayer [(uid, pd)] uid = some pd
    rw [getPlayer_cons, if_pos rfl]
  | cons kv rest ih =>
    obtain ⟨k, v⟩ := kv
    by_cases h : k = uid
    · subst h
      have hb : (k == k) = true := beq_self_eq_true k
      show getPlayer (if k == k then (k, pd) :: rest else (k, v) :: setPlayer rest k pd) k
        = some pd
      rw [hb, if_pos rfl, getPlayer_cons, if_pos rfl]
    · have hb : (k == uid) = false := beq_eq_false_iff_ne.mpr h
      show getPlayer (if k == uid then (k, pd) :: rest else (k, v) :: setPlayer rest uid pd) uid
        = some pd
      rw [hb, if_neg (by simp), getPlayer_cons, if_neg h]
      exact ih

theorem getPlayer_setPlayer_other (ps : List (String × PlayerData)) (uid u : String)
    (pd : PlayerData) (h : u ≠ uid) :
    getPlayer (setPlayer ps uid pd) u = getPlayer ps u := by
  induction ps with
  | nil =>
    show getPlayer [(uid, pd)] u = getPlayer [] u
    rw [getPlayer_cons, if_neg (Ne.symm h)]
  | cons kv rest ih =>
    obtain ⟨k, v⟩ := kv
    by_cases hk : k = uid
    · subst hk
      have hb : (k == k) = true := beq_self_eq_true k
      show getPlayer (if k == k then (k, pd) :: rest else (k, v) :: setPlayer rest k pd) u
        = getPlayer ((k, v) :: rest) u
      rw [hb, if_pos rfl, getPlayer_cons, getPlayer_cons,
        if_neg (fun he => h (Eq.symm he)), if_neg (fun he => h (Eq.symm he))]
    · have hb : (k == uid) = false := beq_eq_false_iff_ne.mpr hk
      show getPlayer (if k == uid then (k, pd) :: rest else (k, v) :: setPlayer rest uid pd) u
        = getPlayer ((k, v) :: rest) u
      rw [hb, if_neg (by simp), getPlayer_cons, getPlayer_cons]
      by_cases hku : k = u
      · rw [if_pos hku, if_pos hku]
      · rw [if_neg hku, if_neg hku]
        exact ih

theorem map_fst_setPlayer (ps : List (String × PlayerData)) (uid : String) (pd : PlayerData) :
    (setPlayer ps uid pd).map Prod.fst =
      if uid ∈ ps.map Prod.fst then ps.map Prod.fst else ps.map Prod.fst ++ [uid] := by
  induction ps with
  | nil => simp [setPlayer]
  | cons kv rest ih =>
    obtain ⟨k, v⟩ := kv
    by_cases h : k = uid
    · subst h
      have hb : (k == k) = true := beq_self_eq_true k
      show (if k == k then (k, pd) :: rest else (k, v) :: setPlayer rest k pd).map Prod.fst = _
      rw [hb, if_pos rfl]
      simp
    · have hb : (k == uid) = false := beq_eq_false_iff_ne.mpr h
      show (if k == uid then (k, pd) :: rest else (k, v) :: setPlayer rest uid pd).map Prod.fst
        = _
      rw [hb, if_neg (by simp)]
      simp only [List.map_cons, ih]
      by_cases hm : uid ∈ rest.map Prod.fst
      · rw [if_pos hm, if_pos (by simp [hm])]
      · rw [if_neg hm, if_neg (by simp [hm, Ne.symm h]), List.cons_append]

theorem nodup_map_fst_setPlayer (ps : List (String × PlayerData)) (uid : String)
    (pd : PlayerData) (hnd : (ps.map Prod.fst).Nodup) :
    ((setPlayer ps uid pd).map Prod.fst).Nodup := by
  rw [map_fst_setPlayer]
  by_cases hm : uid ∈ ps.map Prod.fst
  · simpa [hm]
  · simp only [hm, if_false]
    rw [List.nodup_append]
    exact ⟨hnd, List.nodup_singleton uid, by simpa using hm⟩

theorem mem_of_getPlayer {ps : List (String × PlayerData)} {k : String} {v : PlayerData}
    (h : getPlayer ps k = some v) : (k, v) ∈ ps := by
  unfold getPlayer at h
  match hf : ps.find? (fun p => p.1 == k) with
  | none => rw [hf] at h; simp at h
  | some q =>
    rw [hf] at h
    have hq := List.find?_some hf
    have hmem := List.mem_of_find?_eq_some hf
    simp only [beq_iff_eq] at hq
    obtain ⟨q1, q2⟩ := q
    simp only [Option.map_some'] at h
    injection h with h2
    dsimp only at hq h2
    subst hq
    subst h2
    exact hmem

theorem getPlayer_of_mem {ps : List (String × PlayerData)} {k : String} {v : PlayerData}
    (hnd : (ps.map Prod.fst).Nodup) (h : (k, v) ∈ ps) : getPlayer ps k = some v := by
  induction ps with
  | nil => simp at h
  | cons kv rest ih =>
    obtain ⟨k0, v0⟩ := kv
    rw [getPlayer_cons]
    rcases List.mem_cons.mp h with heq | hmem
    · injection heq with h1 h2
      subst h1
      subst h2
      rw [if_pos rfl]
    · have hk0 : k0 ≠ k := by
        intro he
        subst he
        have hin : k0 ∈ rest.map Prod.fst := List.mem_map.mpr ⟨(k0, v), hmem, rfl⟩
        simp only [List.map_cons, List.nodup_cons] at hnd
        exact hnd.1 hin
      rw [if_neg hk0]
      exact ih (by simpa using (List.nodup_cons.mp (by simpa using hnd)).2) hmem

theorem getPlayer_mem_fst {ps : List (String × PlayerData)} {k : String} {v : PlayerData}
    (h : getPlayer ps k = some v) : k ∈ ps.map Prod.fst :=
  List.mem_map.mpr ⟨(k, v), mem_of_getPlayer h, rfl⟩

theorem hasKey_append (ks ks' : List (String × Bool)) (u : String) (b : Bool) :
    hasKey (ks ++ ks') u b = (hasKey ks u b || hasKey ks' u b) := by
  simp [hasKey]

theorem hasKey_iff_mem (ks : List (String × Bool)) (u : String) (b : Bool) :
    hasKey ks u b = true ↔ (u, b) ∈ ks := by
  simp only [hasKey, List.any_eq_true]
  constructor
  · rintro ⟨⟨k1, k2⟩, hm, hk⟩
    simp only [Bool.and_eq_true, beq_iff_eq] at hk
    obtain ⟨h1, h2⟩ := hk
    subst h1
    subst h2
    exact hm
  · intro hm
    exact ⟨(u, b), hm, by simp⟩

theorem hasKey_single (u' : String) (b' : Bool) (u : String) (b : Bool) :
    hasKey [(u', b')] u b = (u' == u && b' == b) := by
  simp [hasKey]

/-- The outcome a handler produces for one element when no dedup key
for its entity has been set yet, as a function of the players map. -/
def localOut {α : Type} (uidOf : α → String) (f : LocalStep α)
    (players : List (String × PlayerData)) (a : α) : StepOut :=
  f (getPlayer players (uidOf a)) (fun _ => false) (fun _ => false) a

/-- Results of a pass, per element, over a fixed players map. -/
def passResultsOf {α : Type} (uidOf : α → String) (f : LocalStep α)
    (players : List (String × PlayerData)) (l : List α) : List PassResult :=
  l.filterMap (fun a => (localOut uidOf f players a).res)

/-- Events of a pass, per element, over a fixed players map. -/
def passEventsOf {α : Type} (uidOf : α → String) (f : LocalStep α)
    (players : List (String × PlayerData)) (l : List α) : List (String × EKind) :=
  l.flatMap (fun a => ((localOut uidOf f players a).evs).map (fun k => (uidOf a, k)))

/-- Ban-dedup keys added by a pass, over a fixed players map. -/
def passBanKeysOf {α : Type} (uidOf : α → String) (f : LocalStep α)
    (players : List (String × PlayerData)) (l : List α) : List (String × Bool) :=
  l.flatMap (fun a => match (localOut uidOf f players a).addBanKey with
    | some b => [(uidOf a, b)]
    | none => [])

/-- Unban-dedup keys added by a pass, over a fixed players map. -/
def passUnbanKeysOf {α : Type} (uidOf : α → String) (f : LocalStep α)
    (players : List (String × PlayerData)) (l : List α) : List (String × Bool) :=
  l.flatMap (fun a => match (localOut uidOf f players a).addUnbanKey with
    | some b => [(uidOf a, b)]
    | none => [])

/-- The application a handler actually receives at an element, with the
real key views.  When this coincides with the false-view application
(`localOut`) — because the keys are fresh for that entity or because
the handler ignores that view — the step's effect has a closed form. -/
def localApp {α : Type} (uidOf : α → String) (f : LocalStep α) (st : CycleSt) (a : α) :
    StepOut :=
  f (getPlayer st.players (uidOf a))
    (fun b => hasKey st.bansKeys (uidOf a) b)
    (fun b => hasKey st.unbanKeys (uidOf a) b) a

/-- Freshness of both key sets for an entity makes the real application
coincide with the false-view application. -/
theorem localApp_of_fresh {α : Type} (uidOf : α → String) (f : LocalStep α) (st : CycleSt)
    (a : α)
    (hb : ∀ b, hasKey st.bansKeys (uidOf a) b = false)
    (hu : ∀ b, hasKey st.unbanKeys (uidOf a) b = false) :
    localApp uidOf f st a = localOut uidOf f st.players a := by
  unfold localApp localOut
  rw [funext hb, funext hu]

theorem applyStep_eq {α : Type} (uidOf : α → String) (f : LocalStep α) (st : CycleSt)
    (a : α)
    (happ : localApp uidOf f st a = localOut uidOf f st.players a) :
    applyStep uidOf f st a =
      ({ players := match (localOut uidOf f st.players a).pd with
           | some pd => setPlayer st.players (uidOf a) pd
           | none => st.players,
         bansKeys := st.bansKeys ++ (match (localOut uidOf f st.players a).addBanKey with
           | some b => [(uidOf a, b)]
           | none => []),
         unbanKeys := st.unbanKeys ++ (match (localOut uidOf f st.players a).addUnbanKey with
           | some b => [(uidOf a, b)]
           | none => []),
         events := st.events ++
           ((localOut uidOf f st.players a).evs).map (fun k => (uidOf a, k)) },
       (localOut uidOf f st.players a).res) := by
  unfold localApp at happ
  simp only [applyStep]
  rw [happ]

theorem runPass_nil {α : Type} (uidOf : α → String) (f : LocalStep α) (st : CycleSt) :
    runPass uidOf f [] st = (st, []) := rfl

theorem runPass_cons {α : Type} (uidOf : α → String) (f : LocalStep α) (a : α)
    (rest : List α) (st : CycleSt) :
    runPass uidOf f (a :: rest) st =
      ((runPass uidOf f rest (applyStep uidOf f st a).1).1,
        (applyStep uidOf f st a).2.toList ++
          (runPass uidOf f rest (applyStep uidOf f st a).1).2) := rfl

theorem runPass_getPlayer_not_mem {α : Type} (uidOf : α → String) (f : LocalStep α) :
    ∀ (l : List α) (st : CycleSt) (uid : String), uid ∉ l.map uidOf →
      getPlayer (runPass uidOf f l st).1.players uid = getPlayer st.players uid := by
  intro l
  induction l with
  | nil => intro st uid _; rfl
  | cons a rest ih =>
    intro st uid hmem
    simp only [List.map_cons, List.mem_cons, not_or] at hmem
    rw [runPass_cons]
    dsimp only
    rw [ih _ uid (by simpa using hmem.2)]
    show getPlayer (applyStep uidOf f st a).1.players uid = getPlayer st.players uid
    unfold applyStep
    dsimp only
    match (f (getPlayer st.players (uidOf a))
        (fun b => hasKey st.bansKeys (uidOf a) b)
        (fun b => hasKey st.unbanKeys (uidOf a) b) a).pd with
    | some pd => exact getPlayer_setPlayer_other _ _ _ _ hmem.1
    | none => rfl

theorem localOut_congr {α : Type} (uidOf : α → String) (f : LocalStep α)
    {ps ps' : List (String × PlayerData)} (a : α)
    (h : getPlayer ps (uidOf a) = getPlayer ps' (uidOf a)) :
    localOut uidOf f ps a = localOut uidOf f ps' a := by
  unfold localOut
  rw [h]

theorem flatMap_congr_mem {α β : Type} {l : List α} {f g : α → List β}
    (h : ∀ a ∈ l, f a = g a) : l.flatMap f = l.flatMap g := by
  induction l with
  | nil => rfl
  | cons a rest ih =>
    simp only [List.flatMap_cons]
    rw [h a (List.mem_cons_self _ _), ih (fun x hx => h x (List.mem_cons_of_mem _ hx))]

theorem applyStep_res {α : Type} (uidOf : α → String) (f : LocalStep α) (st : CycleSt)
    (a : α) (happ : localApp uidOf f st a = localOut uidOf f st.players a) :
    (applyStep uidOf f st a).2 = (localOut uidOf f st.players a).res := by
  rw [applyStep_eq uidOf f st a happ]

theorem applyStep_events {α : Type} (uidOf : α → String) (f : LocalStep α) (st : CycleSt)
    (a : α) (happ : localApp uidOf f st a = localOut uidOf f st.players a) :
    (applyStep uidOf f st a).1.events =
      st.events ++ ((localOut uidOf f st.players a).evs).map (fun k => (uidOf a, k)) := by
  rw [applyStep_eq uidOf f st a happ]

theorem applyStep_bansKeys {α : Type} (uidOf : α → String) (f : LocalStep α) (st : CycleSt)
    (a : α) (happ : localApp uidOf f st a = localOut uidOf f st.players a) :
    (applyStep uidOf f st a).1.bansKeys =
      st.bansKeys ++ (match (localOut uidOf f st.players a).addBanKey with
        | some b => [(uidOf a, b)]
        | none => []) := by
  rw [applyStep_eq uidOf f st a happ]

theorem applyStep_unbanKeys {α : Type} (uidOf : α → String) (f : LocalStep α) (st : CycleSt)
    (a : α) (happ : localApp uidOf f st a = localOut uidOf f st.players a) :
    (applyStep uidOf f st a).1.unbanKeys =
      st.unbanKeys ++ (match (localOut uidOf f st.players a).addUnbanKey with
        | some b => [(uidOf a, b)]
        | none => []) := by
  rw [applyStep_eq uidOf f st a happ]

theorem applyStep_players {α : Type} (uidOf : α → String) (f : LocalStep α) (st : CycleSt)
    (a : α) (happ : localApp uidOf f st a = localOut uidOf f st.players a) :
    (applyStep uidOf f st a).1.players =
      (match (localOut uidOf f st.players a).pd with
       | some pd => setPlayer st.players (uidOf a) pd
       | none => st.players) := by
  rw [applyStep_eq uidOf f st a happ]

theorem applyStep_getPlayer_other {α : Type} (uidOf : α → String) (f : LocalStep α)
    (st : CycleSt) (a : α) (u : String) (h : u ≠ uidOf a) :
    getPlayer (applyStep uidOf f st a).1.players u = getPlayer st.players u := by
  unfold applyStep
  dsimp only
  match (f (getPlayer st.players (uidOf a))
      (fun b => hasKey st.bansKeys (uidOf a) b)
      (fun b => hasKey st.unbanKeys (uidOf a) b) a).pd with
  | some pd => exact getPlayer_setPlayer_other _ _ _ _ h
  | none => rfl

theorem applyStep_hasKey_bans_other {α : Type} (uidOf : α → String) (f : LocalStep α)
    (st : CycleSt) (a : α) (u : String) (b : Bool) (h : u ≠ uidOf a) :
    hasKey (applyStep uidOf f st a).1.bansKeys u b = hasKey st.bansKeys u b := by
  unfold applyStep
  dsimp only
  rw [hasKey_append]
  match (f (getPlayer st.players (uidOf a))
      (fun b => hasKey st.bansKeys (uidOf a) b)
      (fun b => hasKey st.unbanKeys (uidOf a) b) a).addBanKey with
  | some b0 =>
    rw [hasKey_single]
    have hne : (uidOf a == u) = false := beq_eq_false_iff_ne.mpr (Ne.symm h)
    simp [hne]
  | none => simp [hasKey]

theorem applyStep_hasKey_unban_other {α : Type} (uidOf : α → String) (f : LocalStep α)
    (st : CycleSt) (a : α) (u : String) (b : Bool) (h : u ≠ uidOf a) :
    hasKey (applyStep uidOf f st a).1.unbanKeys u b = hasKey st.unbanKeys u b := by
  unfold applyStep
  dsimp only
  rw [hasKey_append]
  match (f (getPlayer st.players (uidOf a))
      (fun b => hasKey st.bansKeys (uidOf a) b)
      (fun b => hasKey st.unbanKeys (uidOf a) b) a).addUnbanKey with
  | some b0 =>
    rw [hasKey_single]
    have hne : (uidOf a == u) = false := beq_eq_false_iff_ne.mpr (Ne.symm h)
    simp [hne]
  | none => simp [hasKey]

/-- Characterisation of a pass over pairwise-distinct entity ids whose
elements all satisfy the `localApp = localOut` condition (fresh keys,
or a handler that ignores the corresponding view): results, events and
added keys are those each element would produce against the initial
players map. -/
theorem runPass_char {α : Type} (uidOf : α → String) (f : LocalStep α) :
    ∀ (l : List α) (st : CycleSt),
      (l.map uidOf).Nodup →
      (∀ a ∈ l, localApp uidOf f st a = localOut uidOf f st.players a) →
      (runPass uidOf f l st).2 = passResultsOf uidOf f st.players l ∧
      (runPass uidOf f l st).1.events = st.events ++ passEventsOf uidOf f st.players l ∧
      (runPass uidOf f l st).1.bansKeys =
        st.bansKeys ++ passBanKeysOf uidOf f st.players l ∧
      (runPass uidOf f l st).1.unbanKeys =
        st.unbanKeys ++ passUnbanKeysOf uidOf f st.players l := by
  intro l
  induction l with
  | nil =>
    intro st _ _
    simp [runPass_nil, passResultsOf, passEventsOf, passBanKeysOf, passUnbanKeysOf]
  | cons a rest ih =>
    intro st hnd hloc
    have hlA := hloc a (List.mem_cons_self _ _)
    have hndc : uidOf a ∉ rest.map uidOf ∧ (rest.map uidOf).Nodup := by
      rw [List.map_cons, List.nodup_cons] at hnd
      exact hnd
    have hane : ∀ a' ∈ rest, uidOf a' ≠ uidOf a := by
      intro a' ha' he
      exact hndc.1 (he ▸ List.mem_map.mpr ⟨a', ha', rfl⟩)
    have hget : ∀ a' ∈ rest,
        getPlayer (applyStep uidOf f st a).1.players (uidOf a') =
          getPlayer st.players (uidOf a') := by
      intro a' ha'
      exact applyStep_getPlayer_other uidOf f st a _ (hane a' ha')
    have hloc' : ∀ a' ∈ rest,
        localApp uidOf f (applyStep uidOf f st a).1 a' =
          localOut uidOf f (applyStep uidOf f st a).1.players a' := by
      intro a' ha'
      have hbview : (fun b => hasKey (applyStep uidOf f st a).1.bansKeys (uidOf a') b) =
          (fun b => hasKey st.bansKeys (uidOf a') b) :=
        funext (fun b => applyStep_hasKey_bans_other uidOf f st a _ b (hane a' ha'))
      have huview : (fun b => hasKey (applyStep uidOf f st a).1.unbanKeys (uidOf a') b) =
          (fun b => hasKey st.unbanKeys (uidOf a') b) :=
        funext (fun b => applyStep_hasKey_unban_other uidOf f st a _ b (hane a' ha'))
      unfold localApp
      rw [hget a' ha', hbview, huview]
      have := hloc a' (List.mem_cons_of_mem _ ha')
      unfold localApp at this
      rw [this, localOut_congr uidOf f a' (hget a' ha').symm]
    obtain ⟨ihr, ihe, ihbk, ihuk⟩ := ih (applyStep uidOf f st a).1 hndc.2 hloc'
    have hres : passResultsOf uidOf f (applyStep uidOf f st a).1.players rest =
        passResultsOf uidOf f st.players rest :=
      List.filterMap_congr (fun a' ha' => by rw [localOut_congr uidOf f a' (hget a' ha')])
    have hevs : passEventsOf uidOf f (applyStep uidOf f st a).1.players rest =
        passEventsOf uidOf f st.players rest :=
      flatMap_congr_mem (fun a' ha' => by rw [localOut_congr uidOf f a' (hget a' ha')])
    have hbk : passBanKeysOf uidOf f (applyStep uidOf f st a).1.players rest =
        passBanKeysOf uidOf f st.players rest :=
      flatMap_congr_mem (fun a' ha' => by rw [localOut_congr uidOf f a' (hget a' ha')])
    have huk : passUnbanKeysOf uidOf f (applyStep uidOf f st a).1.players rest =
        passUnbanKeysOf uidOf f st.players rest :=
      flatMap_congr_mem (fun a' ha' => by rw [localOut_congr uidOf f a' (hget a' ha')])
    refine ⟨?_, ?_, ?_, ?_⟩
    · rw [runPass_cons]
      dsimp only
      rw [ihr, hres, applyStep_res uidOf f st a hlA]
      show (localOut uidOf f st.players a).res.toList ++ _ = _
      unfold passResultsOf
      rw [List.filterMap_cons]
      match (localOut uidOf f st.players a).res with
      | some r => rfl
      | none => rfl
    · rw [runPass_cons]
      dsimp only
      rw [ihe, hevs, applyStep_events uidOf f st a hlA]
      unfold passEventsOf
      rw [List.flatMap_cons, List.append_assoc]
    · rw [runPass_cons]
      dsimp only
      rw [ihbk, hbk, applyStep_bansKeys uidOf f st a hlA]
      unfold passBanKeysOf
      rw [List.flatMap_cons, List.append_assoc]
    · rw [runPass_cons]
      dsimp only
      rw [ihuk, huk, applyStep_unbanKeys uidOf f st a hlA]
      unfold passUnbanKeysOf
      rw [List.flatMap_cons, List.append_assoc]

/-- The record an entity ends a pass with, under the same conditions:
its own handler output applied to its initial record. -/
theorem runPass_getPlayer_mem {α : Type} (uidOf : α → String) (f : LocalStep α) :
    ∀ (l : List α) (st : CycleSt),
      (l.map uidOf).Nodup →
      (∀ a ∈ l, localApp uidOf f st a = localOut uidOf f st.players a) →
      ∀ a ∈ l, getPlayer (runPass uidOf f l st).1.players (uidOf a) =
        (match (localOut uidOf f st.players a).pd with
         | some pd => some pd
         | none => getPlayer st.players (uidOf a)) := by
  intro l
  induction l with
  | nil => intro st _ _ a ha; simp at ha
  | cons a0 rest ih =>
    intro st hnd hloc a ha
    have hlA := hloc a0 (List.mem_cons_self _ _)
    have hndc : uidOf a0 ∉ rest.map uidOf ∧ (rest.map uidOf).Nodup := by
      rw [List.map_cons, List.nodup_cons] at hnd
      exact hnd
    have hane : ∀ a' ∈ rest, uidOf a' ≠ uidOf a0 := by
      intro a' ha' he
      exact hndc.1 (he ▸ List.mem_map.mpr ⟨a', ha', rfl⟩)
    rcases List.mem_cons.mp ha with rfl | hmem
    · rw [runPass_cons]
      dsimp only
      rw [runPass_getPlayer_not_mem uidOf f rest (applyStep uidOf f st a).1 (uidOf a)
        (by
          intro hmm
          obtain ⟨a', ha', he⟩ := List.mem_map.mp hmm
          exact hane a' ha' he)]
      rw [applyStep_players uidOf f st a hlA]
      match (localOut uidOf f st.players a).pd with
      | some pd => exact getPlayer_setPlayer_same _ _ _
      | none => rfl
    · have hget : ∀ a' ∈ rest,
          getPlayer (applyStep uidOf f st a0).1.players (uidOf a') =
            getPlayer st.players (uidOf a') := by
        intro a' ha'
        exact applyStep_getPlayer_other uidOf f st a0 _ (hane a' ha')
      have hloc' : ∀ a' ∈ rest,
          localApp uidOf f (applyStep uidOf f st a0).1 a' =
            localOut uidOf f (applyStep uidOf f st a0).1.players a' := by
        intro a' ha'
        have hbview : (fun b => hasKey (applyStep uidOf f st a0).1.bansKeys (uidOf a') b) =
            (fun b => hasKey st.bansKeys (uidOf a') b) :=
          funext (fun b => applyStep_hasKey_bans_other uidOf f st a0 _ b (hane a' ha'))
        have huview : (fun b => hasKey (applyStep uidOf f st a0).1.unbanKeys (uidOf a') b) =
            (fun b => hasKey st.unbanKeys (uidOf a') b) :=
          funext (fun b => applyStep_hasKey_unban_other uidOf f st a0 _ b (hane a' ha'))
        unfold localApp
        rw [hget a' ha', hbview, huview]
        have := hloc a' (List.mem_cons_of_mem _ ha')
        unfold localApp at this
        rw [this, localOut_congr uidOf f a' (hget a' ha').symm]
      rw [runPass_cons]
      dsimp only
      rw [ih (applyStep uidOf f st a0).1 hndc.2 hloc' a hmem,
        localOut_congr uidOf f a (hget a hmem), hget a hmem]

/-- A pass keeps the players-map keys duplicate-free. -/
theorem runPass_nodup_keys {α : Type} (uidOf : α → String) (f : LocalStep α) :
    ∀ (l : List α) (st : CycleSt),
      ((st.players.map Prod.fst).Nodup) →
      (((runPass uidOf f l st).1.players.map Prod.fst).Nodup) := by
  intro l
  induction l with
  | nil => intro st h; exact h
  | cons a rest ih =>
    intro st h
    rw [runPass_cons]
    dsimp only
    refine ih _ ?_
    unfold applyStep
    dsimp only
    match (f (getPlayer st.players (uidOf a))
        (fun b => hasKey st.bansKeys (uidOf a) b)
        (fun b => hasKey st.unbanKeys (uidOf a) b) a).pd with
    | some pd => exact nodup_map_fst_setPlayer _ _ _ h
    | none => exact h

/-- If no handler application ever emits events, a pass leaves the
event log unchanged. -/
theorem runPass_events_of_no_evs {α : Type} (uidOf : α → String) (f : LocalStep α)
    (hno : ∀ pd? bv uv a, (f pd? bv uv a).evs = []) :
    ∀ (l : List α) (st : CycleSt), (runPass uidOf f l st).1.events = st.events := by
  intro l
  induction l with
  | nil => intro st; rfl
  | cons a rest ih =>
    intro st
    rw [runPass_cons]
    dsimp only
    rw [ih]
    show (applyStep uidOf f st a).1.events = st.events
    unfold applyStep
    dsimp only
    rw [hno]
    simp

/-- If no handler application ever adds a ban key, a pass leaves the
ban-key set unchanged. -/
theorem runPass_bansKeys_of_none {α : Type} (uidOf : α → String) (f : LocalStep α)
    (hno : ∀ pd? bv uv a, (f pd? bv uv a).addBanKey = none) :
    ∀ (l : List α) (st : CycleSt), (runPass uidOf f l st).1.bansKeys = st.bansKeys := by
  intro l
  induction l with
  | nil => intro st; rfl
  | cons a rest ih =>
    intro st
    rw [runPass_cons]
    dsimp only
    rw [ih]
    show (applyStep uidOf f st a).1.bansKeys = st.bansKeys
    unfold applyStep
    dsimp only
    rw [hno]
    simp

/-- If no handler application ever adds an unban key, a pass leaves the
unban-key set unchanged. -/
theorem runPass_unbanKeys_of_none {α : Type} (uidOf : α → String) (f : LocalStep α)
    (hno : ∀ pd? bv uv a, (f pd? bv uv a).addUnbanKey = none) :
    ∀ (l : List α) (st : CycleSt), (runPass uidOf f l st).1.unbanKeys = st.unbanKeys := by
  intro l
  induction l with
  | nil => intro st; rfl
  | cons a rest ih =>
    intro st
    rw [runPass_cons]
    dsimp only
    rw [ih]
    show (applyStep uidOf f st a).1.unbanKeys = st.unbanKeys
    unfold applyStep
    dsimp only
    rw [hno]
    simp

/-- Key case analysis for a map write. -/
theorem getPlayer_setPlayer_cases (ps : List (String × PlayerData)) (uid u : String)
    (pd : PlayerData) :
    getPlayer (setPlayer ps uid pd) u =
      (if u = uid then some pd else getPlayer ps u) := by
  by_cases h : u = uid
  · subst h
    rw [if_pos rfl]
    exact getPlayer_setPlayer_same _ _ _
  · rw [if_neg h]
    exact getPlayer_setPlayer_other _ _ _ _ h

/-- Invariant propagation for one pass: if each handler application
(at an input record satisfying the invariant for its entity) only
writes records satisfying it, the whole map keeps satisfying it. -/
theorem runPass_preserves {α : Type} (uidOf : α → String) (f : LocalStep α)
    (P : String → Option PlayerData → Prop) :
    ∀ (l : List α) (st : CycleSt),
      (∀ a ∈ l, ∀ pd? bv uv, P (uidOf a) pd? →
        ∀ pd', (f pd? bv uv a).pd = some pd' → P (uidOf a) (some pd')) →
      (∀ uid, P uid (getPlayer st.players uid)) →
      ∀ uid, P uid (getPlayer (runPass uidOf f l st).1.players uid) := by
  intro l
  induction l with
  | nil => intro st _ hst uid; exact hst uid
  | cons a rest ih =>
    intro st hstep hst uid
    rw [runPass_cons]
    dsimp only
    refine ih _ (fun a' ha' => hstep a' (List.mem_cons_of_mem _ ha')) ?_ uid
    intro u
    show P u (getPlayer (applyStep uidOf f st a).1.players u)
    unfold applyStep
    dsimp only
    match hpd : (f (getPlayer st.players (uidOf a))
        (fun b => hasKey st.bansKeys (uidOf a) b)
        (fun b => hasKey st.unbanKeys (uidOf a) b) a).pd with
    | some pd' =>
      rw [getPlayer_setPlayer_cases]
      by_cases hu : u = uidOf a
      · subst hu
        rw [if_pos rfl]
        exact hstep a (List.mem_cons_self _ _) _ _ _ (hst _) pd' hpd
      · rw [if_neg hu]
        exact hst u
    | none => exact hst u

/-- Every event a pass appends satisfies a predicate, provided each
handler application (at an invariant-respecting input record) only
emits such events, and the invariant is maintained. -/
theorem runPass_events_prop {α : Type} (uidOf : α → String) (f : LocalStep α)
    (P : String → Option PlayerData → Prop) (E : String × EKind → Prop) :
    ∀ (l : List α) (st : CycleSt),
      (∀ a ∈ l, ∀ pd? bv uv, P (uidOf a) pd? →
        ∀ pd', (f pd? bv uv a).pd = some pd' → P (uidOf a) (some pd')) →
      (∀ uid, P uid (getPlayer st.players uid)) →
      (∀ a ∈ l, ∀ pd? bv uv, P (uidOf a) pd? →
        ∀ k ∈ (f pd? bv uv a).evs, E (uidOf a, k)) →
      (∀ e ∈ st.events, E e) →
      ∀ e ∈ (runPass uidOf f l st).1.events, E e := by
  intro l
  induction l with
  | nil => intro st _ _ _ h0 e he; exact h0 e he
  | cons a rest ih =>
    intro st hstep hst hev h0 e he
    rw [runPass_cons] at he
    dsimp only at he
    refine ih _ (fun a' ha' => hstep a' (List.mem_cons_of_mem _ ha')) ?_
      (fun a' ha' => hev a' (List.mem_cons_of_mem _ ha')) ?_ e he
    · intro u
      show P u (getPlayer (applyStep uidOf f st a).1.players u)
      unfold applyStep
      dsimp only
      match hpd : (f (getPlayer st.players (uidOf a))
          (fun b => hasKey st.bansKeys (uidOf a) b)
          (fun b => hasKey st.unbanKeys (uidOf a) b) a).pd with
      | some pd' =>
        rw [getPlayer_setPlayer_cases]
        by_cases hu : u = uidOf a
        · subst hu
          rw [if_pos rfl]
          exact hstep a (List.mem_cons_self _ _) _ _ _ (hst _) pd' hpd
        · rw [if_neg hu]
          exact hst u
      | none => exact hst u
    · intro e' he'
      show E e'
      have : e' ∈ st.events ++ ((f (getPlayer st.players (uidOf a))
          (fun b => hasKey st.bansKeys (uidOf a) b)
          (fun b => hasKey st.unbanKeys (uidOf a) b) a).evs).map
            (fun k => (uidOf a, k)) := he'
      rcases List.mem_append.mp this with hin | hin
      · exact h0 e' hin
      · obtain ⟨k, hk, rfl⟩ := List.mem_map.mp hin
        exact hev a (List.mem_cons_self _ _) _ _ _ (hst _) k hk

/-- Every result a pass returns satisfies a predicate, provided each
handler application (at an invariant-respecting input record) only
returns such results, and the invariant is maintained. -/
theorem runPass_results_prop {α : Type} (uidOf : α → String) (f : LocalStep α)
    (P : String → Option PlayerData → Prop) (Q : PassResult → Prop) :
    ∀ (l : List α) (st : CycleSt),
      (∀ a ∈ l, ∀ pd? bv uv, P (uidOf a) pd? →
        ∀ pd', (f pd? bv uv a).pd = some pd' → P (uidOf a) (some pd')) →
      (∀ uid, P uid (getPlayer st.players uid)) →
      (∀ a ∈ l, ∀ pd? bv uv, P (uidOf a) pd? →
        ∀ r, (f pd? bv uv a).res = some r → Q r) →
      ∀ r ∈ (runPass uidOf f l st).2, Q r := by
  intro l
  induction l with
  | nil => intro st _ _ _ r hr; simp [runPass_nil] at hr
  | cons a rest ih =>
    intro st hstep hst hres r hr
    rw [runPass_cons] at hr
    dsimp only at hr
    rcases List.mem_append.mp hr with hin | hin
    · have : (applyStep uidOf f st a).2 = some r := by
        match h2 : (applyStep uidOf f st a).2 with
        | some r0 =>
          rw [h2] at hin
          simp only [Option.toList_some, List.mem_singleton] at hin
          rw [hin]
        | none => rw [h2] at hin; simp at hin
      have happ : (f (getPlayer st.players (uidOf a))
          (fun b => hasKey st.bansKeys (uidOf a) b)
          (fun b => hasKey st.unbanKeys (uidOf a) b) a).res = some r := this
      exact hres a (List.mem_cons_self _ _) _ _ _ (hst _) r happ
    · refine ih _ (fun a' ha' => hstep a' (List.mem_cons_of_mem _ ha')) ?_
        (fun a' ha' => hres a' (List.mem_cons_of_mem _ ha')) r hin
      intro u
      show P u (getPlayer (applyStep uidOf f st a).1.players u)
      unfold applyStep
      dsimp only
      match hpd : (f (getPlayer st.players (uidOf a))
          (fun b => hasKey st.bansKeys (uidOf a) b)
          (fun b => hasKey st.unbanKeys (uidOf a) b) a).pd with
      | some pd' =>
        rw [getPlayer_setPlayer_cases]
        by_cases hu : u = uidOf a
        · subst hu
          rw [if_pos rfl]
          exact hstep a (List.mem_cons_self _ _) _ _ _ (hst _) pd' hpd
        · rw [if_neg hu]
          exact hst u
      | none => exact hst u

/-- Per-kind projection of an event log: the ids that got an event of
kind `k`. -/
def projEv (k : EKind) (l : List (String × EKind)) : List String :=
  l.filterMap (fun e => if e.2 = k then some e.1 else none)

theorem projEv_append (k : EKind) (l1 l2 : List (String × EKind)) :
    projEv k (l1 ++ l2) = projEv k l1 ++ projEv k l2 := by
  simp [projEv]

theorem projEv_map_pair (k k0 : EKind) (uids : List String) :
    projEv k (uids.map (fun u => (u, k0))) =
      (if k = k0 then uids else []) := by
  by_cases h : k = k0
  · subst h
    rw [if_pos rfl]
    induction uids with
    | nil => rfl
    | cons u rest ih => simp [projEv, List.filterMap_cons] at ih ⊢; exact ih
  · rw [if_neg h]
    induction uids with
    | nil => rfl
    | cons u rest ih =>
      simp only [List.map_cons, projEv, List.filterMap_cons]
      have : ¬ ((u, k0).2 = k) := fun hk => h hk.symm
      rw [if_neg this]
      exact ih

theorem mem_projEv {k : EKind} {l : List (String × EKind)} {u : String} :
    u ∈ projEv k l ↔ (u, k) ∈ l := by
  constructor
  · intro hu
    obtain ⟨e, he, hcond⟩ := List.mem_filterMap.mp hu
    by_cases h2 : e.2 = k
    · rw [if_pos h2] at hcond
      have : e = (u, k) := by
        obtain ⟨e1, e2⟩ := e
        simp only at h2
        subst h2
        simpa using hcond
      rw [this] at he; exact he
    · rw [if_neg h2] at hcond; cases hcond
  · intro hm
    exact List.mem_filterMap.mpr ⟨(u, k), hm, by simp⟩

/-- A list of (id, kind) events has no duplicates as soon as each
per-kind id projection has none. -/
theorem nodup_of_projEv (l : List (String × EKind))
    (h : ∀ k, (projEv k l).Nodup) : l.Nodup := by
  induction l with
  | nil => exact List.nodup_nil
  | cons e rest ih =>
    rw [List.nodup_cons]
    constructor
    · intro hmem
      have h1 : e.1 ∈ projEv e.2 rest := mem_projEv.mpr (by
        obtain ⟨e1, e2⟩ := e; exact hmem)
      have h2 := h e.2
      have : projEv e.2 (e :: rest) = e.1 :: projEv e.2 rest := by
        simp [projEv, List.filterMap_cons]
      rw [this, List.nodup_cons] at h2
      exact h2.1 h1
    · refine ih (fun k => ?_)
      have h2 := h k
      by_cases hk : e.2 = k
      · have : projEv k (e :: rest) = e.1 :: projEv k rest := by
          simp [projEv, List.filterMap_cons, hk]
        rw [this, List.nodup_cons] at h2
        exact h2.2
      · have : projEv k (e :: rest) = projEv k rest := by
          simp [projEv, List.filterMap_cons, hk]
        rw [this] at h2
        exact h2

/-- Ids produced through a `filterMap` stay among the source ids. -/
theorem mem_filterMap_map {α β γ : Type} (l : List α) (g : α → Option β) (h : β → γ)
    (k : α → γ) (hg : ∀ a b, g a = some b → h b = k a) :
    ∀ u ∈ (l.filterMap g).map h, u ∈ l.map k := by
  intro u hu
  obtain ⟨b, hb, rfl⟩ := List.mem_map.mp hu
  obtain ⟨a, ha, hga⟩ := List.mem_filterMap.mp hb
  exact List.mem_map.mpr ⟨a, ha, (hg a b hga).symm ▸ rfl⟩

/-- A `filterMap` that preserves a key keeps the key list
duplicate-free. -/
theorem nodup_filterMap_map {α β γ : Type} (l : List α) (g : α → Option β) (h : β → γ)
    (k : α → γ) (hg : ∀ a b, g a = some b → h b = k a)
    (hnd : (l.map k).Nodup) : ((l.filterMap g).map h).Nodup := by
  induction l with
  | nil => exact List.nodup_nil
  | cons a rest ih =>
    rw [List.map_cons, List.nodup_cons] at hnd
    rw [List.filterMap_cons]
    match hga : g a with
    | none => exact ih hnd.2
    | some b =>
      rw [List.map_cons, List.nodup_cons]
      refine ⟨fun hmem => ?_, ih hnd.2⟩
      have := mem_filterMap_map rest g h k hg (h b) hmem
      rw [hg a b hga] at this
      exact hnd.1 this

/-- A `filter` keeps a mapped key list duplicate-free. -/
theorem nodup_map_filter {α γ : Type} (l : List α) (q : α → Bool) (k : α → γ)
    (hnd : (l.map k).Nodup) : ((l.filter q).map k).Nodup :=
  ((List.filter_sublist l).map k).nodup hnd

/-- Over duplicate-free ids, `find?` at a member's id returns exactly
that member. -/
theorem find?_userId_eq_of_mem {l : List PassResult} {s : PassResult}
    (hmem : s ∈ l) (hnd : (l.map PassResult.userId).Nodup) :
    l.find? (fun t => t.userId == s.userId) = some s := by
  induction l with
  | nil => cases hmem
  | cons t rest ih =>
    rw [List.map_cons, List.nodup_cons] at hnd
    rcases List.mem_cons.mp hmem with rfl | hmem'
    · rw [List.find?_cons_of_pos _ (by simp)]
    · have hne : (t.userId == s.userId) = false := by
        refine beq_eq_false_iff_ne.mpr (fun he => ?_)
        exact hnd.1 (he ▸ List.mem_map.mpr ⟨s, hmem', rfl⟩)
      rw [List.find?_cons_of_neg _ (by simp [hne])]
      exact ih hmem' hnd.2

/-- The sweep is a per-record map: lookups commute with it. -/
theorem getPlayer_sweep (ps : List (String × PlayerData)) (now : Nat) (uid : String) :
    getPlayer (sweepPlayers ps now) uid = (getPlayer ps uid).map (sweepOne now) := by
  induction ps with
  | nil => rfl
  | cons p rest ih =>
    show getPlayer ((p.1, sweepOne now p.2) :: sweepPlayers rest now) uid = _
    rw [getPlayer_cons, getPlayer_cons]
    by_cases h : p.1 = uid
    · rw [if_pos h, if_pos h]; rfl
    · rw [if_neg h, if_neg h]; exact ih

/-- The sweep does not change the key list. -/
theorem map_fst_sweep (ps : List (String × PlayerData)) (now : Nat) :
    (sweepPlayers ps now).map Prod.fst = ps.map Prod.fst := by
  induction ps with
  | nil => rfl
  | cons p rest ih =>
    show p.1 :: (sweepPlayers rest now).map Prod.fst = _
    rw [ih]; rfl

/-- Any ban key present after a pass was present before or is scoped to
one of the processed entities. -/
theorem runPass_bansKeys_mem {α : Type} (uidOf : α → String) (f : LocalStep α) :
    ∀ (l : List α) (st : CycleSt) (x : String × Bool),
      x ∈ (runPass uidOf f l st).1.bansKeys → x ∈ st.bansKeys ∨ x.1 ∈ l.map uidOf := by
  intro l
  induction l with
  | nil => intro st x hx; exact Or.inl hx
  | cons a rest ih =>
    intro st x hx
    rw [runPass_cons] at hx
    dsimp only at hx
    rcases ih _ x hx with hin | hin
    · have : x ∈ (applyStep uidOf f st a).1.bansKeys := hin
      unfold applyStep at this
      dsimp only at this
      rcases List.mem_append.mp this with h1 | h1
      · exact Or.inl h1
      · right
        match h2 : (f (getPlayer st.players (uidOf a))
            (fun b => hasKey st.bansKeys (uidOf a) b)
            (fun b => hasKey st.unbanKeys (uidOf a) b) a).addBanKey with
        | some b0 =>
          rw [h2] at h1
          rw [List.mem_singleton.mp h1]
          exact List.mem_map.mpr ⟨a, List.mem_cons_self _ _, rfl⟩
        | none => rw [h2] at h1; cases h1
    · exact Or.inr (by rw [List.map_cons]; exact List.mem_cons_of_mem _ hin)

/-- Any unban key present after a pass was present before or is scoped
to one of the processed entities. -/
theorem runPass_unbanKeys_mem {α : Type} (uidOf : α → String) (f : LocalStep α) :
    ∀ (l : List α) (st : CycleSt) (x : String × Bool),
      x ∈ (runPass uidOf f l st).1.unbanKeys → x ∈ st.unbanKeys ∨ x.1 ∈ l.map uidOf := by
  intro l
  induction l with
  | nil => intro st x hx; exact Or.inl hx
  | cons a rest ih =>
    intro st x hx
    rw [runPass_cons] at hx
    dsimp only at hx
    rcases ih _ x hx with hin | hin
    · have : x ∈ (applyStep uidOf f st a).1.unbanKeys := hin
      unfold applyStep at this
      dsimp only at this
      rcases List.mem_append.mp this with h1 | h1
      · exact Or.inl h1
      · right
        match h2 : (f (getPlayer st.players (uidOf a))
            (fun b => hasKey st.bansKeys (uidOf a) b)
            (fun b => hasKey st.unbanKeys (uidOf a) b) a).addUnbanKey with
        | some b0 =>
          rw [h2] at h1
          rw [List.mem_singleton.mp h1]
          exact List.mem_map.mpr ⟨a, List.mem_cons_self _ _, rfl⟩
        | none => rw [h2] at h1; cases h1
    · exact Or.inr (by rw [List.map_cons]; exact List.mem_cons_of_mem _ hin)

/-- Membership in the unban keys a pass would add. -/
theorem mem_passUnbanKeysOf {α : Type} (uidOf : α → String) (f : LocalStep α)
    (ps : List (String × PlayerData)) (l : List α) (u : String) (b : Bool) :
    (u, b) ∈ passUnbanKeysOf uidOf f ps l ↔
      ∃ a ∈ l, uidOf a = u ∧ (localOut uidOf f ps a).addUnbanKey = some b := by
  unfold passUnbanKeysOf
  rw [List.mem_flatMap]
  constructor
  · rintro ⟨a, ha, hmem⟩
    refine ⟨a, ha, ?_⟩
    cases h : (localOut uidOf f ps a).addUnbanKey with
    | some b0 =>
      rw [h] at hmem
      simp only [List.mem_singleton, Prod.mk.injEq] at hmem
      exact ⟨hmem.1.symm, by rw [hmem.2]⟩
    | none =>
      rw [h] at hmem
      simp at hmem
  · rintro ⟨a, ha, rfl, hk⟩
    exact ⟨a, ha, by rw [hk]; exact List.mem_singleton.mpr rfl⟩

/-- A handler that ignores the ban-key view only needs fresh unban keys
for the closed-form application to apply. -/
theorem localApp_of_unban_fresh {α : Type} (uidOf : α → String) (f : LocalStep α)
    (st : CycleSt) (a : α)
    (hins : ∀ pd? bv bv' uv a0, f pd? bv uv a0 = f pd? bv' uv a0)
    (hu : ∀ b, hasKey st.unbanKeys (uidOf a) b = false) :
    localApp uidOf f st a = localOut uidOf f st.players a := by
  unfold localApp localOut
  rw [funext hu, hins _ _ (fun _ => false) _ _]

/-- A handler that ignores the unban-key view only needs fresh ban keys
for the closed-form application to apply. -/
theorem localApp_of_bans_fresh {α : Type} (uidOf : α → String) (f : LocalStep α)
    (st : CycleSt) (a : α)
    (hins : ∀ pd? bv uv uv' a0, f pd? bv uv a0 = f pd? bv uv' a0)
    (hb : ∀ b, hasKey st.bansKeys (uidOf a) b = false) :
    localApp uidOf f st a = localOut uidOf f st.players a := by
  unfold localApp localOut
  rw [funext hb, hins _ _ _ (fun _ => false) _]

/-- A handler that ignores both key views. -/
theorem localApp_of_insensitive {α : Type} (uidOf : α → String) (f : LocalStep α)
    (st : CycleSt) (a : α)
    (hins : ∀ pd? bv uv bv' uv' a0, f pd? bv uv a0 = f pd? bv' uv' a0) :
    localApp uidOf f st a = localOut uidOf f st.players a := by
  unfold localApp localOut
  rw [hins _ _ _ (fun _ => false) (fun _ => false) _]

/-- The priority-pass handler never adds keys or emits events. -/
theorem priorityStep_effects (probe : String → RawProbe) (now : Nat)
    (pd? : Option PlayerData) (bv uv : Bool → Bool) (mp : MissingP) :
    (priorityStep probe now pd? bv uv mp).addBanKey = none ∧
    (priorityStep probe now pd? bv uv mp).addUnbanKey = none ∧
    (priorityStep probe now pd? bv uv mp).evs = [] := by
  unfold priorityStep StepOut.skip
  cases activityOf (probe mp.userId) now
  all_goals dsimp only
  all_goals repeat' split
  all_goals exact ⟨rfl, rfl, rfl⟩

/-- The full-population handler never adds keys or emits events. -/
theorem verifyAllStep_effects (probe : String → RawProbe) (now : Nat)
    (pd? : Option PlayerData) (bv uv : Bool → Bool) (p : LBPlayer) :
    (verifyAllStep probe now pd? bv uv p).addBanKey = none ∧
    (verifyAllStep probe now pd? bv uv p).addUnbanKey = none ∧
    (verifyAllStep probe now pd? bv uv p).evs = [] := by
  unfold verifyAllStep StepOut.skip
  cases activityOf (probe p.userId) now
  all_goals dsimp only
  all_goals repeat' split
  all_goals exact ⟨rfl, rfl, rfl⟩

/-- The reconciliation-loop handler never adds a ban key and never
produces a result object. -/
theorem loopStep_effects (t pr : List PassResult) (fc : Bool) (now : Nat)
    (pd? : Option PlayerData) (bv uv : Bool → Bool) (p : LBPlayer) :
    (loopStep t pr fc now pd? bv uv p).addBanKey = none ∧
    (loopStep t pr fc now pd? bv uv p).res = none := by
  unfold loopStep
  cases pd?
  all_goals dsimp only
  all_goals repeat' split
  all_goals exact ⟨rfl, rfl⟩

/-- The re-verification handler never adds a ban key. -/
theorem reverifyStep_effects (probe : String → RawProbe) (now : Nat)
    (pd? : Option PlayerData) (bv uv : Bool → Bool) (e : SanctionedP) :
    (reverifyStep probe now pd? bv uv e).addBanKey = none := by
  unfold reverifyStep StepOut.skip
  cases activityOf (probe e.userId) now
  all_goals dsimp only
  all_goals repeat' split
  all_goals rfl

/-- The ban-update handler never adds an unban key, emits no events and
produces no result. -/
theorem banUpdateStep_effects (now : Nat) (pd? : Option PlayerData)
    (bv uv : Bool → Bool) (r : PassResult) :
    (banUpdateStep now pd? bv uv r).addUnbanKey = none ∧
    (banUpdateStep now pd? bv uv r).evs = [] ∧
    (banUpdateStep now pd? bv uv r).res = none := by
  unfold banUpdateStep StepOut.skip
  repeat' split
  all_goals exact ⟨rfl, rfl, rfl⟩

/-- Well-formedness of a classified probe outcome: an in-force
suspension carries a strictly future expiry, and a deletion carries no
sanction flags. -/
theorem activityOf_wf (r : RawProbe) (now : Nat) (act : Activity)
    (h : activityOf r now = some act) :
    (act.suspended = true → ∃ u, act.suspendedUntil = some u ∧ now < u) ∧
    (act.deleted = true → act.banned = false ∧ act.suspended = false) := by
  cases r with
  | ok b su cc =>
    have hact :
        ({ accessible := true
           banned := b
           suspended := suspendedNow su now
           suspendedUntil := su
           countryCode := cc
           deleted := false } : Activity) = act :=
      Option.some.inj h
    subst hact
    refine ⟨?_, by intro hd; cases hd⟩
    intro hs
    dsimp only at hs ⊢
    match su, hs with
    | some t, hs =>
      refine ⟨t, rfl, ?_⟩
      have : decide (now < t) = true := hs
      exact of_decide_eq_true this
  | notFound =>
    have hact : deletedActivity = act := Option.some.inj h
    subst hact
    exact ⟨(by intro hs; cases hs), fun _ => ⟨rfl, rfl⟩⟩
  | forbidden =>
    have hact : deletedActivity = act := Option.some.inj h
    subst hact
    exact ⟨(by intro hs; cases hs), fun _ => ⟨rfl, rfl⟩⟩
  | fail => cases h

/-- A persisted record agrees with a classified probe outcome: deleted
probes have been recorded as `deleted_account`, ban probes as `banned`,
in-force suspensions as `suspended` with the same expiry, and an
unsanctioned probe finds the record not sanctioned. -/
def matchesAct (pd : PlayerData) (act : Activity) : Prop :=
  (act.deleted = true → pd.status = .deletedAccount) ∧
  (act.deleted = false → act.banned = true → pd.status = .banned) ∧
  (act.deleted = false → act.banned = false → act.suspended = true →
    pd.status = .suspended ∧ pd.suspendedUntil = act.suspendedUntil) ∧
  (act.deleted = false → act.banned = false → act.suspended = false →
    pd.status ≠ .banned ∧ pd.status ≠ .suspended)

/-- A record that agrees with its entity's probe outcome makes the
re-verification handler a no-op: no result, no event, no key, no
write. -/
theorem reverifyStep_skip_of_matches (probe : String → RawProbe) (now : Nat)
    (pd : PlayerData) (e : SanctionedP)
    (hm : ∀ act, activityOf (probe e.userId) now = some act → matchesAct pd act) :
    ∀ bv uv, reverifyStep probe now (some pd) bv uv e = StepOut.skip := by
  intro bv uv
  unfold reverifyStep
  cases hact : activityOf (probe e.userId) now with
  | none => rfl
  | some act =>
    obtain ⟨h1, h2, h3, h4⟩ := hm act hact
    dsimp only
    by_cases hd : act.deleted = true
    · rw [if_pos hd, if_neg (by rw [h1 hd]; exact fun hne => hne rfl)]
    · rw [if_neg hd]
      have hd' : act.deleted = false := by
        cases hde : act.deleted
        · rfl
        · exact absurd hde hd
      by_cases hb : act.banned = true
      · rw [if_pos hb, if_neg (by rw [h2 hd' hb]; exact fun hne => hne rfl)]
      · rw [if_neg hb]
        have hb' : act.banned = false := by
          cases hbe : act.banned
          · rfl
          · exact absurd hbe hb
        by_cases hs : act.suspended = true
        · obtain ⟨hst, hsu⟩ := h3 hd' hb' hs
          rw [if_pos hs, if_neg (by rw [hst]; exact fun h => Status.noConfusion h),
            if_pos hst, if_neg (by rw [hsu]; exact fun hne => hne rfl)]
        · rw [if_neg hs]
          have hs' : act.suspended = false := by
            cases hse : act.suspended
            · rfl
            · exact absurd hse hs
          obtain ⟨hnb, hns⟩ := h4 hd' hb' hs'
          rw [if_neg (by rintro (h | h); exacts [hnb h, hns h])]

/-- The expiry sweep never breaks agreement with a probe outcome whose
in-force suspension expires strictly in the future. -/
theorem sweepOne_matches (now : Nat) (pd : PlayerData) (act : Activity)
    (hwf : act.suspended = true → ∃ u, act.suspendedUntil = some u ∧ now < u)
    (hm : matchesAct pd act) : matchesAct (sweepOne now pd) act := by
  obtain ⟨h1, h2, h3, h4⟩ := hm
  unfold sweepOne
  cases hst : pd.status
  all_goals cases hsu : pd.suspendedUntil
  all_goals try exact ⟨h1, h2, h3, h4⟩
  -- remaining: status suspended, suspendedUntil some
  case suspended.some u =>
    dsimp only
    by_cases hle : u ≤ now
    · exfalso
      cases hde : act.deleted
      · cases hbe : act.banned
        · cases hse : act.suspended
          · exact (h4 hde hbe hse).2 hst
          · obtain ⟨u', hu', hnu⟩ := hwf hse
            obtain ⟨_, hsu'⟩ := h3 hde hbe hse
            rw [hsu, hu'] at hsu'
            have : u = u' := Option.some.inj hsu'
            omega
        · rw [h2 hde hbe] at hst; cases hst
      · rw [h1 hde] at hst; cases hst
    · rw [if_neg hle]
      exact ⟨h1, h2, h3, h4⟩

/-- The priority pass only ever writes deletion records. -/
theorem priorityStep_pd_char (probe : String → RawProbe) (now : Nat)
    (pd? : Option PlayerData) (bv uv : Bool → Bool) (mp : MissingP) (pd' : PlayerData)
    (h : (priorityStep probe now pd? bv uv mp).pd = some pd') :
    pd'.status = .deletedAccount := by
  unfold priorityStep StepOut.skip at h
  repeat' split at h
  all_goals first
  | (injection h with h'; subst h'; rfl)
  | injection h

/-- The full-population pass only writes deletion records or fresh
(`active`, no suspension) records for untracked entities. -/
theorem verifyAllStep_pd_char (probe : String → RawProbe) (now : Nat)
    (pd? : Option PlayerData) (bv uv : Bool → Bool) (p : LBPlayer) (pd' : PlayerData)
    (h : (verifyAllStep probe now pd? bv uv p).pd = some pd') :
    pd'.status = .deletedAccount ∨ (pd? = none ∧ pd' = freshPlayer p now) := by
  unfold verifyAllStep StepOut.skip at h
  cases hact : activityOf (probe p.userId) now with
  | none => rw [hact] at h; injection h
  | some act =>
    rw [hact] at h
    dsimp only at h
    by_cases hd : act.deleted = true
    · rw [if_pos hd] at h
      cases pd? with
      | none =>
        dsimp only at h
        injection h with h'
        subst h'
        left; rfl
      | some pData =>
        dsimp only at h
        by_cases hnd : pData.status ≠ Status.deletedAccount
        · rw [if_pos hnd] at h
          injection h with h'
          subst h'
          left; rfl
        · rw [if_neg hnd] at h
          injection h
    · rw [if_neg hd] at h
      by_cases hbs : (act.banned || act.suspended) = true
      · rw [if_pos hbs] at h
        cases pd? with
        | none =>
          dsimp only at h
          injection h with h'
          subst h'
          right; exact ⟨rfl, rfl⟩
        | some pData =>
          dsimp only at h
          injection h
      · rw [if_neg hbs] at h
        injection h

/-- The re-verification pass only writes deletion records or restored
(`active`, suspension fields cleared) records. -/
theorem reverifyStep_pd_char (probe : String → RawProbe) (now : Nat)
    (pd? : Option PlayerData) (bv uv : Bool → Bool) (e : SanctionedP) (pd' : PlayerData)
    (h : (reverifyStep probe now pd? bv uv e).pd = some pd') :
    pd'.status = .deletedAccount ∨
    (pd'.status = .active ∧ pd'.suspendedUntil = none ∧
      ∃ pData, pd? = some pData ∧
        (pData.status = .banned ∨ pData.status = .suspended)) := by
  unfold reverifyStep StepOut.skip at h
  repeat' split at h
  all_goals try dsimp only at h
  all_goals repeat' split at h
  all_goals first
  | (injection h with h'; subst h'; left; rfl)
  | (injection h with h'; subst h'; right;
     exact ⟨rfl, rfl, _, rfl, by assumption⟩)
  | injection h

/-- What a ban-update write can look like. -/
theorem banUpdateStep_pd_char (now : Nat) (pd? : Option PlayerData) (bv uv : Bool → Bool)
    (r : PassResult) (pd' : PlayerData)
    (h : (banUpdateStep now pd? bv uv r).pd = some pd') :
    ∃ pd, pd? = some pd ∧
      ((r.confirmedBanned = true ∧ pd'.status = .banned ∧ pd'.suspendedUntil = none) ∨
       (r.confirmedBanned = false ∧ r.suspended = true ∧ pd'.status = .suspended ∧
         pd'.suspendedUntil = r.suspendedUntil) ∨
       (r.confirmedBanned = false ∧ r.suspended = false ∧ pd' = pd)) := by
  unfold banUpdateStep StepOut.skip at h
  by_cases hbv : bv r.confirmedBanned = false
  · rw [if_pos hbv] at h
    cases pd? with
    | none =>
      dsimp only at h
      injection h
    | some pd =>
      refine ⟨pd, rfl, ?_⟩
      dsimp only at h
      by_cases hcb : r.confirmedBanned = true
      · rw [if_pos hcb] at h
        injection h with h'
        subst h'
        exact Or.inl ⟨hcb, rfl, rfl⟩
      · rw [if_neg hcb] at h
        have hcb' : r.confirmedBanned = false := by
          cases hce : r.confirmedBanned
          · rfl
          · exact absurd hce hcb
        by_cases hsp : r.suspended = true
        · rw [if_pos hsp] at h
          injection h with h'
          subst h'
          exact Or.inr (Or.inl ⟨hcb', hsp, rfl, rfl⟩)
        · rw [if_neg hsp] at h
          injection h with h'
          subst h'
          have hsp' : r.suspended = false := by
            cases hse : r.suspended
            · rfl
            · exact absurd hse hsp
          exact Or.inr (Or.inr ⟨hcb', hsp', rfl⟩)
  · rw [if_neg hbv] at h
    injection h

/-- Everything a priority-pass result tells us: a deletion result marks
a previously-not-deleted tracked record deleted, and a sanction result
reflects the probe flags with no map write; either way the result is
keyed by the processed entity. -/
theorem priorityStep_res_char (probe : String → RawProbe) (now : Nat)
    (pd? : Option PlayerData) (bv uv : Bool → Bool) (mp : MissingP) (r : PassResult)
    (h : (priorityStep probe now pd? bv uv mp).res = some r) :
    r.userId = mp.userId ∧
    ((r.deletedAccount = true ∧ r.isNewDeletion = true ∧ r.isNewSanction = false ∧
       ∃ act pd0, activityOf (probe mp.userId) now = some act ∧ act.deleted = true ∧
         pd? = some pd0 ∧ pd0.status ≠ Status.deletedAccount ∧
         ∃ pd', (priorityStep probe now pd? bv uv mp).pd = some pd' ∧
           pd'.status = .deletedAccount) ∨
     (r.deletedAccount = false ∧ r.isNewDeletion = false ∧
       (priorityStep probe now pd? bv uv mp).pd = none ∧
       ∃ act pd0, activityOf (probe mp.userId) now = some act ∧ act.deleted = false ∧
         (act.banned || act.suspended) = true ∧ pd? = some pd0 ∧
         r.confirmedBanned = act.banned ∧ r.suspended = act.suspended ∧
         r.suspendedUntil = act.suspendedUntil ∧
         r.isNewSanction = (if act.banned = true then decide (pd0.status ≠ Status.banned)
           else decide (pd0.status ≠ Status.suspended ∨
             pd0.suspendedUntil ≠ act.suspendedUntil)))) := by
  unfold priorityStep StepOut.skip at h ⊢
  cases hact : activityOf (probe mp.userId) now with
  | none => rw [hact] at h; injection h
  | some act =>
    rw [hact] at h
    dsimp only at h ⊢
    by_cases hd : act.deleted = true
    · rw [if_pos hd] at h ⊢
      cases pd? with
      | none => dsimp only at h; injection h
      | some pData =>
        dsimp only at h ⊢
        by_cases hnd : pData.status ≠ Status.deletedAccount
        · rw [if_pos hnd] at h ⊢
          injection h with h'
          subst h'
          exact ⟨rfl, Or.inl ⟨rfl, rfl, rfl, act, pData, rfl, hd, rfl, hnd, _, rfl, rfl⟩⟩
        · rw [if_neg hnd] at h
          injection h
    · rw [if_neg hd] at h ⊢
      have hd' : act.deleted = false := by
        cases hde : act.deleted
        · rfl
        · exact absurd hde hd
      by_cases hbs : (act.banned || act.suspended) = true
      · rw [if_pos hbs] at h ⊢
        cases pd? with
        | none => dsimp only at h; injection h
        | some pData =>
          dsimp only at h ⊢
          injection h with h'
          subst h'
          exact ⟨rfl, Or.inr ⟨rfl, rfl, rfl, act, pData, rfl, hd', hbs, rfl, rfl, rfl,
            rfl, rfl⟩⟩
      · rw [if_neg hbs] at h
        injection h

/-- Everything a full-population-pass result tells us. -/
theorem verifyAllStep_res_char (probe : String → RawProbe) (now : Nat)
    (pd? : Option PlayerData) (bv uv : Bool → Bool) (p : LBPlayer) (r : PassResult)
    (h : (verifyAllStep probe now pd? bv uv p).res = some r) :
    r.userId = p.userId ∧
    ((r.deletedAccount = true ∧ r.isNewDeletion = true ∧ r.isNewSanction = false ∧
       r.confirmedBanned = false ∧ r.suspended = false ∧
       (∃ act, activityOf (probe p.userId) now = some act ∧ act.deleted = true) ∧
       (∃ pd', (verifyAllStep probe now pd? bv uv p).pd = some pd' ∧
         pd'.status = .deletedAccount) ∧
       (∀ pd0, pd? = some pd0 → pd0.status ≠ Status.deletedAccount)) ∨
     (r.deletedAccount = false ∧ r.isNewDeletion = false ∧
       ∃ act, activityOf (probe p.userId) now = some act ∧ act.deleted = false ∧
         (act.banned || act.suspended) = true ∧
         r.confirmedBanned = act.banned ∧ r.suspended = act.suspended ∧
         r.suspendedUntil = act.suspendedUntil ∧
         ∃ prev,
           ((pd? = some prev ∧ (verifyAllStep probe now pd? bv uv p).pd = none) ∨
            (pd? = none ∧ prev = freshPlayer p now ∧
              (verifyAllStep probe now pd? bv uv p).pd = some prev)) ∧
           r.isNewSanction = (if act.banned = true then decide (prev.status ≠ Status.banned)
             else decide (prev.status ≠ Status.suspended ∨
               prev.suspendedUntil ≠ act.suspendedUntil)))) := by
  unfold verifyAllStep StepOut.skip at h ⊢
  cases hact : activityOf (probe p.userId) now with
  | none => rw [hact] at h; injection h
  | some act =>
    rw [hact] at h
    dsimp only at h ⊢
    by_cases hd : act.deleted = true
    · rw [if_pos hd] at h ⊢
      cases pd? with
      | none =>
        dsimp only at h ⊢
        injection h with h'
        subst h'
        refine ⟨rfl, Or.inl ⟨rfl, rfl, rfl, rfl, rfl, ⟨act, rfl, hd⟩, ⟨_, rfl, rfl⟩, ?_⟩⟩
        intro pd0 hpd0
        cases hpd0
      | some pData =>
        dsimp only at h ⊢
        by_cases hnd : pData.status ≠ Status.deletedAccount
        · rw [if_pos hnd] at h ⊢
          injection h with h'
          subst h'
          refine ⟨rfl, Or.inl ⟨rfl, rfl, rfl, rfl, rfl, ⟨act, rfl, hd⟩, ⟨_, rfl, rfl⟩, ?_⟩⟩
          intro pd0 hpd0
          cases hpd0
          exact hnd
        · rw [if_neg hnd] at h
          injection h
    · rw [if_neg hd] at h ⊢
      have hd' : act.deleted = false := by
        cases hde : act.deleted
        · rfl
        · exact absurd hde hd
      by_cases hbs : (act.banned || act.suspended) = true
      · rw [if_pos hbs] at h ⊢
        cases pd? with
        | none =>
          dsimp only at h ⊢
          injection h with h'
          subst h'
          exact ⟨rfl, Or.inr ⟨rfl, rfl, act, rfl, hd', hbs, rfl, rfl, rfl,
            freshPlayer p now, Or.inr ⟨rfl, rfl, rfl⟩, rfl⟩⟩
        | some pData =>
          dsimp only at h ⊢
          injection h with h'
          subst h'
          exact ⟨rfl, Or.inr ⟨rfl, rfl, act, rfl, hd', hbs, rfl, rfl, rfl,
            pData, Or.inl ⟨rfl, rfl⟩, rfl⟩⟩
      · rw [if_neg hbs] at h
        injection h

/-- Everything a re-verification-pass result tells us. -/
theorem reverifyStep_res_char (probe : String → RawProbe) (now : Nat)
    (pd? : Option PlayerData) (bv uv : Bool → Bool) (e : SanctionedP) (r : PassResult)
    (h : (reverifyStep probe now pd? bv uv e).res = some r) :
    r.userId = e.userId ∧
    ∃ act pData, activityOf (probe e.userId) now = some act ∧ pd? = some pData ∧
    ((r.deletedAccount = true ∧ r.isNewDeletion = true ∧ r.isNewSanction = false ∧
       act.deleted = true ∧ pData.status ≠ Status.deletedAccount ∧
       ∃ pd', (reverifyStep probe now pd? bv uv e).pd = some pd' ∧
         pd'.status = .deletedAccount) ∨
     (r.deletedAccount = false ∧ r.isNewDeletion = false ∧ r.isNewSanction = true ∧
       act.deleted = false ∧ (act.banned || act.suspended) = true ∧
       r.confirmedBanned = act.banned ∧ r.suspended = act.suspended ∧
       r.suspendedUntil = act.suspendedUntil ∧
       (reverifyStep probe now pd? bv uv e).pd = none)) := by
  unfold reverifyStep StepOut.skip at h ⊢
  cases hact : activityOf (probe e.userId) now with
  | none => rw [hact] at h; injection h
  | some act =>
    rw [hact] at h
    dsimp only at h ⊢
    cases pd? with
    | none => injection h
    | some pData =>
      dsimp only at h ⊢
      by_cases hd : act.deleted = true
      · rw [if_pos hd] at h ⊢
        by_cases hnd : pData.status ≠ Status.deletedAccount
        · rw [if_pos hnd] at h ⊢
          injection h with h'
          subst h'
          exact ⟨rfl, act, pData, rfl, rfl,
            Or.inl ⟨rfl, rfl, rfl, hd, hnd, _, rfl, rfl⟩⟩
        · rw [if_neg hnd] at h
          injection h
      · rw [if_neg hd] at h ⊢
        have hd' : act.deleted = false := by
          cases hde : act.deleted
          · rfl
          · exact absurd hde hd
        by_cases hb : act.banned = true
        · rw [if_pos hb] at h ⊢
          by_cases hnb : pData.status ≠ Status.banned
          · rw [if_pos hnb] at h ⊢
            injection h with h'
            subst h'
            exact ⟨rfl, act, pData, rfl, rfl,
              Or.inr ⟨rfl, rfl, rfl, hd', by rw [hb]; rfl, rfl, rfl, rfl, rfl⟩⟩
          · rw [if_neg hnb] at h
            injection h
        · rw [if_neg hb] at h ⊢
          have hb' : act.banned = false := by
            cases hbe : act.banned
            · rfl
            · exact absurd hbe hb
          by_cases hs : act.suspended = true
          · rw [if_pos hs] at h ⊢
            by_cases hpb : pData.status = Status.banned
            · rw [if_pos hpb] at h ⊢
              injection h with h'
              subst h'
              exact ⟨rfl, act, pData, rfl, rfl,
                Or.inr ⟨rfl, rfl, rfl, hd', by rw [hb', hs]; rfl, rfl, rfl, rfl, rfl⟩⟩
            · rw [if_neg hpb] at h ⊢
              by_cases hps : pData.status = Status.suspended
              · rw [if_pos hps] at h ⊢
                by_cases hdu : pData.suspendedUntil ≠ act.suspendedUntil
                · rw [if_pos hdu] at h ⊢
                  injection h with h'
                  subst h'
                  exact ⟨rfl, act, pData, rfl, rfl,
                    Or.inr ⟨rfl, rfl, rfl, hd', by rw [hb', hs]; rfl, rfl, rfl, rfl, rfl⟩⟩
                · rw [if_neg hdu] at h
                  injection h
              · rw [if_neg hps] at h ⊢
                injection h with h'
                subst h'
                exact ⟨rfl, act, pData, rfl, rfl,
                  Or.inr ⟨rfl, rfl, rfl, hd', by rw [hb', hs]; rfl, rfl, rfl, rfl, rfl⟩⟩
          · rw [if_neg hs] at h
            by_cases hbs : pData.status = Status.banned ∨ pData.status = Status.suspended
            · rw [if_pos hbs] at h
              by_cases huv : uv (pData.status == Status.banned) = false
              · rw [if_pos huv] at h
                injection h
              · rw [if_neg huv] at h
                injection h
            · rw [if_neg hbs] at h
              injection h

/-- On a sanctioned snapshot entity with no full-population entry, not
handled by the priority pass, outside the first post-restart cycle and
with a fresh unban key, the loop restores the record to `active`
(keeping `suspendedUntil`!) and emits the restored event. -/
theorem loopStep_restores (t pr : List PassResult) (fc : Bool) (now : Nat)
    (pd0 : PlayerData) (bv uv : Bool → Bool) (p : LBPlayer)
    (hfind : t.find? (fun s => s.userId == p.userId) = none)
    (halready : pr.any (fun s => s.userId == p.userId) = false)
    (hst : pd0.status = .banned ∨ pd0.status = .suspended ∨
      pd0.status = .suspensionExpired)
    (hfc : fc = false)
    (huv : uv (pd0.status == Status.banned) = false) :
    (loopStep t pr fc now (some pd0) bv uv p).evs = [.restored] ∧
    (loopStep t pr fc now (some pd0) bv uv p).addUnbanKey =
      some (pd0.status == Status.banned) ∧
    ∃ pd', (loopStep t pr fc now (some pd0) bv uv p).pd = some pd' ∧
      pd'.status = .active ∧ pd'.suspendedUntil = pd0.suspendedUntil := by
  have hnd : pd0.status ≠ Status.deletedAccount := by
    rcases hst with h | h | h <;> rw [h] <;> exact fun hc => Status.noConfusion hc
  unfold loopStep
  dsimp only
  rw [hfind, halready]
  dsimp only
  rw [if_pos ⟨hst, hnd, hfc⟩, if_pos huv]
  exact ⟨rfl, rfl, _, rfl, rfl, rfl⟩

/-- Same situation on the first post-restart cycle: the record silently
becomes `active` (again keeping `suspendedUntil`), no event, no key. -/
theorem loopStep_silent (t pr : List PassResult) (now : Nat)
    (pd0 : PlayerData) (bv uv : Bool → Bool) (p : LBPlayer)
    (hfind : t.find? (fun s => s.userId == p.userId) = none)
    (halready : pr.any (fun s => s.userId == p.userId) = false)
    (hst : pd0.status = .banned ∨ pd0.status = .suspended ∨
      pd0.status = .suspensionExpired) :
    (loopStep t pr true now (some pd0) bv uv p).evs = [] ∧
    (loopStep t pr true now (some pd0) bv uv p).addUnbanKey = none ∧
    ∃ pd', (loopStep t pr true now (some pd0) bv uv p).pd = some pd' ∧
      pd'.status = .active ∧ pd'.suspendedUntil = pd0.suspendedUntil := by
  have hnd : pd0.status ≠ Status.deletedAccount := by
    rcases hst with h | h | h <;> rw [h] <;> exact fun hc => Status.noConfusion hc
  have hna : pd0.status ≠ Status.active := by
    rcases hst with h | h | h <;> rw [h] <;> exact fun hc => Status.noConfusion hc
  unfold loopStep
  dsimp only
  rw [hfind, halready]
  dsimp only
  rw [if_neg (by rintro ⟨-, -, hfc⟩; cases hfc), if_pos ⟨hna, hnd⟩]
  exact ⟨rfl, rfl, _, rfl, rfl, rfl⟩

/-- The loop only ever emits a restored event (with its unban key) for
a record it rewrites to `active`, with no full-population entry and
outside the first post-restart cycle; otherwise it emits nothing and
adds no key. -/
theorem loopStep_evs_key (t pr : List PassResult) (fc : Bool) (now : Nat)
    (pd? : Option PlayerData) (bv uv : Bool → Bool) (p : LBPlayer) :
    ((loopStep t pr fc now pd? bv uv p).evs = [] ∧
     (loopStep t pr fc now pd? bv uv p).addUnbanKey = none) ∨
    ((loopStep t pr fc now pd? bv uv p).evs = [EKind.restored] ∧
     fc = false ∧ t.find? (fun s => s.userId == p.userId) = none ∧
     (∃ b, (loopStep t pr fc now pd? bv uv p).addUnbanKey = some b) ∧
     (∃ pd0, pd? = some pd0 ∧
       (pd0.status = .banned ∨ pd0.status = .suspended ∨
         pd0.status = .suspensionExpired)) ∧
     ∃ pd', (loopStep t pr fc now pd? bv uv p).pd = some pd' ∧
       pd'.status = .active) := by
  unfold loopStep
  cases pd? with
  | none => exact Or.inl ⟨rfl, rfl⟩
  | some pd0 =>
    dsimp only
    cases hf : t.find? (fun s => s.userId == p.userId) with
    | some s =>
      cases ha : pr.any (fun s => s.userId == p.userId) with
      | true => exact Or.inl ⟨rfl, rfl⟩
      | false =>
        dsimp only
        by_cases hsn : s.isNewSanction = true
        · rw [if_pos hsn]
          by_cases hcb : s.confirmedBanned = true
          · rw [if_pos hcb]; exact Or.inl ⟨rfl, rfl⟩
          · rw [if_neg hcb]; exact Or.inl ⟨rfl, rfl⟩
        · rw [if_neg hsn]
          by_cases hac : pd0.status = Status.active
          · rw [if_pos hac]
            by_cases hcb : s.confirmedBanned = true
            · rw [if_pos hcb]; exact Or.inl ⟨rfl, rfl⟩
            · rw [if_neg hcb]; exact Or.inl ⟨rfl, rfl⟩
          · rw [if_neg hac]; exact Or.inl ⟨rfl, rfl⟩
    | none =>
      cases ha : pr.any (fun s => s.userId == p.userId) with
      | true => exact Or.inl ⟨rfl, rfl⟩
      | false =>
        dsimp only
        by_cases hC : (pd0.status = Status.banned ∨ pd0.status = Status.suspended ∨
            pd0.status = Status.suspensionExpired) ∧
            pd0.status ≠ Status.deletedAccount ∧ fc = false
        · rw [if_pos hC]
          by_cases huv : uv (pd0.status == Status.banned) = false
          · rw [if_pos huv]
            exact Or.inr ⟨rfl, hC.2.2, rfl, ⟨_, rfl⟩, ⟨pd0, rfl, hC.1⟩, _, rfl, rfl⟩
          · rw [if_neg huv]
            exact Or.inl ⟨rfl, rfl⟩
        · rw [if_neg hC]
          by_cases hE : pd0.status ≠ Status.active ∧ pd0.status ≠ Status.deletedAccount
          · rw [if_pos hE]; exact Or.inl ⟨rfl, rfl⟩
          · rw [if_neg hE]; exact Or.inl ⟨rfl, rfl⟩

/-- When the loop finds a full-population sanction entry that reflects
the probe (and the priority pass did not cover the entity), the record
it writes agrees with the probe, silently. -/
theorem loopStep_matches (t pr : List PassResult) (fc : Bool) (now : Nat)
    (pd0 : PlayerData) (bv uv : Bool → Bool) (p : LBPlayer) (s : PassResult)
    (act : Activity)
    (hfind : t.find? (fun x => x.userId == p.userId) = some s)
    (halready : pr.any (fun x => x.userId == p.userId) = false)
    (hcb : s.confirmedBanned = act.banned) (hsu : s.suspendedUntil = act.suspendedUntil)
    (hd : act.deleted = false) (hbs : (act.banned || act.suspended) = true)
    (hnew : s.isNewSanction = false →
      (act.banned = true → pd0.status = .banned) ∧
      (act.banned = false → pd0.status = .suspended ∧
        pd0.suspendedUntil = act.suspendedUntil)) :
    ∃ pd', (loopStep t pr fc now (some pd0) bv uv p).pd = some pd' ∧ matchesAct pd' act ∧
      (loopStep t pr fc now (some pd0) bv uv p).evs = [] ∧
      (loopStep t pr fc now (some pd0) bv uv p).addUnbanKey = none := by
  unfold loopStep
  dsimp only
  rw [hfind, halready]
  dsimp only
  by_cases hsn : s.isNewSanction = true
  · rw [if_pos hsn]
    by_cases hbe : act.banned = true
    · rw [if_pos (by rw [hcb, hbe])]
      refine ⟨_, rfl, ?_, rfl, rfl⟩
      refine ⟨(by intro hdd; rw [hd] at hdd; cases hdd), (fun _ _ => rfl), ?_, ?_⟩
      · intro _ hb2 _; rw [hbe] at hb2; cases hb2
      · intro _ hb2 _; rw [hbe] at hb2; cases hb2
    · have hbe' : act.banned = false := by
        cases hbx : act.banned
        · rfl
        · exact absurd hbx hbe
      rw [if_neg (by rw [hcb, hbe']; exact fun hc => Bool.noConfusion hc)]
      have hse : act.suspended = true := by
        rw [hbe'] at hbs; simpa using hbs
      refine ⟨_, rfl, ?_, rfl, rfl⟩
      refine ⟨(by intro hdd; rw [hd] at hdd; cases hdd), ?_, ?_, ?_⟩
      · intro _ hb2; rw [hbe'] at hb2; cases hb2
      · intro _ _ _; exact ⟨rfl, hsu⟩
      · intro _ _ hs2; rw [hse] at hs2; cases hs2
  · have hsn' : s.isNewSanction = false := by
      cases hsx : s.isNewSanction
      · rfl
      · exact absurd hsx hsn
    rw [if_neg (by rw [hsn']; exact fun hc => Bool.noConfusion hc)]
    obtain ⟨hnb, hns⟩ := hnew hsn'
    cases hbe : act.banned with
    | true =>
      have hstb := hnb hbe
      rw [if_neg (by rw [hstb]; exact fun hc => Status.noConfusion hc)]
      refine ⟨_, rfl, ?_, rfl, rfl⟩
      refine ⟨(by intro hdd; rw [hd] at hdd; cases hdd), (fun _ _ => hstb), ?_, ?_⟩
      · intro _ hb2 _; rw [hbe] at hb2; cases hb2
      · intro _ hb2 _; rw [hbe] at hb2; cases hb2
    | false =>
      obtain ⟨hsts, hstu⟩ := hns hbe
      have hse : act.suspended = true := by
        rw [hbe] at hbs; simpa using hbs
      rw [if_neg (by rw [hsts]; exact fun hc => Status.noConfusion hc)]
      refine ⟨_, rfl, ?_, rfl, rfl⟩
      refine ⟨(by intro hdd; rw [hd] at hdd; cases hdd), ?_, ?_, ?_⟩
      · intro _ hb2; rw [hbe] at hb2; cases hb2
      · intro _ _ _; exact ⟨hsts, hstu⟩
      · intro _ _ hs2; rw [hse] at hs2; cases hs2

/-- A deleted record passes through the loop unchanged in status and
suspension fields (silently), provided any full-population entry for
the entity is not flagged as a new sanction. -/
theorem loopStep_deleted (t pr : List PassResult) (fc : Bool) (now : Nat)
    (pd0 : PlayerData) (bv uv : Bool → Bool) (p : LBPlayer)
    (hst : pd0.status = .deletedAccount)
    (hfind : ∀ s, t.find? (fun x => x.userId == p.userId) = some s →
      s.isNewSanction = false) :
    ∃ pd', (loopStep t pr fc now (some pd0) bv uv p).pd = some pd' ∧
      pd'.status = .deletedAccount ∧ pd'.suspendedUntil = pd0.suspendedUntil ∧
      (loopStep t pr fc now (some pd0) bv uv p).evs = [] ∧
      (loopStep t pr fc now (some pd0) bv uv p).addUnbanKey = none := by
  unfold loopStep
  dsimp only
  cases hf : t.find? (fun s => s.userId == p.userId) with
  | some s =>
    cases ha : pr.any (fun s => s.userId == p.userId) with
    | true => exact ⟨_, rfl, hst, rfl, rfl, rfl⟩
    | false =>
      dsimp only
      rw [if_neg (by rw [hfind s hf]; exact fun hc => Bool.noConfusion hc),
        if_neg (by rw [hst]; exact fun hc => Status.noConfusion hc)]
      exact ⟨_, rfl, hst, rfl, rfl, rfl⟩
  | none =>
    cases ha : pr.any (fun s => s.userId == p.userId) with
    | true => exact ⟨_, rfl, hst, rfl, rfl, rfl⟩
    | false =>
      dsimp only
      rw [if_neg (by rintro ⟨-, hnd, -⟩; exact hnd hst),
        if_neg (by rintro ⟨-, hnd⟩; exact hnd hst)]
      exact ⟨_, rfl, hst, rfl, rfl, rfl⟩

/-- All status/suspension outcomes a loop write can have. -/
theorem loopStep_status_until (t pr : List PassResult) (fc : Bool) (now : Nat)
    (pd? : Option PlayerData) (bv uv : Bool → Bool) (p : LBPlayer) (pd' : PlayerData)
    (h : (loopStep t pr fc now pd? bv uv p).pd = some pd') :
    (pd? = none ∧ pd' = freshPlayer p now) ∨
    (∃ pd0, pd? = some pd0 ∧
      ((pd'.status = pd0.status ∧ pd'.suspendedUntil = pd0.suspendedUntil) ∨
       (∃ s, t.find? (fun x => x.userId == p.userId) = some s ∧
         s.isNewSanction = true ∧
         pd'.status = .banned ∧ pd'.suspendedUntil = none) ∨
       (∃ s, t.find? (fun x => x.userId == p.userId) = some s ∧
         pd0.status = .active ∧
         pd'.status = .banned ∧ pd'.suspendedUntil = pd0.suspendedUntil) ∨
       (∃ s, t.find? (fun x => x.userId == p.userId) = some s ∧
         s.confirmedBanned = false ∧ s.isNewSanction = true ∧
         pd'.status = .suspended ∧ pd'.suspendedUntil = s.suspendedUntil) ∨
       (∃ s, t.find? (fun x => x.userId == p.userId) = some s ∧
         s.confirmedBanned = false ∧ pd0.status = .active ∧
         pd'.status = .suspended ∧ pd'.suspendedUntil = s.suspendedUntil) ∨
       (pd0.status ≠ Status.deletedAccount ∧
         pd'.status = .active ∧ pd'.suspendedUntil = pd0.suspendedUntil))) := by
  unfold loopStep at h
  cases pd? with
  | none =>
    injection h with h'
    subst h'
    exact Or.inl ⟨rfl, rfl⟩
  | some pd0 =>
    refine Or.inr ⟨pd0, rfl, ?_⟩
    dsimp only at h
    cases hf : t.find? (fun s => s.userId == p.userId) with
    | some s =>
      rw [hf] at h
      cases ha : pr.any (fun s => s.userId == p.userId) with
      | true =>
        rw [ha] at h
        dsimp only at h
        injection h with h'
        subst h'
        exact Or.inl ⟨rfl, rfl⟩
      | false =>
        rw [ha] at h
        dsimp only at h
        by_cases hsn : s.isNewSanction = true
        · rw [if_pos hsn] at h
          by_cases hcb : s.confirmedBanned = true
          · rw [if_pos hcb] at h
            injection h with h'
            subst h'
            exact Or.inr (Or.inl ⟨s, rfl, hsn, rfl, rfl⟩)
          · rw [if_neg hcb] at h
            injection h with h'
            subst h'
            have hcb' : s.confirmedBanned = false := by
              cases hcx : s.confirmedBanned
              · rfl
              · exact absurd hcx hcb
            exact Or.inr (Or.inr (Or.inr (Or.inl ⟨s, rfl, hcb', hsn, rfl, rfl⟩)))
        · rw [if_neg hsn] at h
          by_cases hac : pd0.status = Status.active
          · rw [if_pos hac] at h
            by_cases hcb : s.confirmedBanned = true
            · rw [if_pos hcb] at h
              injection h with h'
              subst h'
              exact Or.inr (Or.inr (Or.inl ⟨s, rfl, hac, rfl, rfl⟩))
            · rw [if_neg hcb] at h
              injection h with h'
              subst h'
              have hcb' : s.confirmedBanned = false := by
                cases hcx : s.confirmedBanned
                · rfl
                · exact absurd hcx hcb
              exact Or.inr (Or.inr (Or.inr (Or.inr (Or.inl ⟨s, rfl, hcb', hac, rfl, rfl⟩))))
          · rw [if_neg hac] at h
            injection h with h'
            subst h'
            exact Or.inl ⟨rfl, rfl⟩
    | none =>
      rw [hf] at h
      cases ha : pr.any (fun s => s.userId == p.userId) with
      | true =>
        rw [ha] at h
        dsimp only at h
        injection h with h'
        subst h'
        exact Or.inl ⟨rfl, rfl⟩
      | false =>
        rw [ha] at h
        dsimp only at h
        by_cases hC : (pd0.status = Status.banned ∨ pd0.status = Status.suspended ∨
            pd0.status = Status.suspensionExpired) ∧
            pd0.status ≠ Status.deletedAccount ∧ fc = false
        · rw [if_pos hC] at h
          by_cases huv : uv (pd0.status == Status.banned) = false
          · rw [if_pos huv] at h
            injection h with h'
            subst h'
            exact Or.inr (Or.inr (Or.inr (Or.inr (Or.inr ⟨hC.2.1, rfl, rfl⟩))))
          · rw [if_neg huv] at h
            injection h with h'
            subst h'
            exact Or.inl ⟨rfl, rfl⟩
        · rw [if_neg hC] at h
          by_cases hE : pd0.status ≠ Status.active ∧ pd0.status ≠ Status.deletedAccount
          · rw [if_pos hE] at h
            injection h with h'
            subst h'
            exact Or.inr (Or.inr (Or.inr (Or.inr (Or.inr ⟨hE.2, rfl, rfl⟩))))
          · rw [if_neg hE] at h
            injection h with h'
            subst h'
            exact Or.inl ⟨rfl, rfl⟩

/-- What membership in the priority ("recently missing") selection
tells us. -/
theorem mem_missingPlayersOf {players : List (String × PlayerData)} {lb : List LBPlayer}
    {now : Nat} {mp : MissingP} (h : mp ∈ missingPlayersOf players lb now) :
    (mp.userId, mp.pd) ∈ players ∧ mp.pd.status = .active ∧
    lb.any (fun q => q.userId == mp.userId) = false := by
  obtain ⟨p, hp, hg⟩ := List.mem_filterMap.mp h
  by_cases hC : now - 6 * 60 * 60 * 1000 < p.2.lastSeen ∧ p.2.status = Status.active ∧
      ¬ (lb.any (fun q => q.userId == p.1)) = true
  · rw [if_pos hC] at hg
    dsimp only at hg
    by_cases hH : 1 ≤ (now - p.2.lastSeen) / (60 * 60 * 1000) ∧
        (now - p.2.lastSeen) / (60 * 60 * 1000) < 24
    · rw [if_pos hH] at hg
      injection hg with hg'
      subst hg'
      refine ⟨hp, hC.2.1, ?_⟩
      cases hx : lb.any (fun q => q.userId == p.1)
      · rfl
      · exact absurd hx hC.2.2
    · rw [if_neg hH] at hg
      cases hg
  · rw [if_neg hC] at hg
    cases hg

/-- What membership in the re-verification selection tells us. -/
theorem mem_existingSanctionedOf {players : List (String × PlayerData)} {now : Nat}
    {e : SanctionedP} (h : e ∈ existingSanctionedOf players now) :
    ∃ pd, (e.userId, pd) ∈ players ∧ pd.status = e.status ∧
      pd.suspendedUntil = e.suspendedUntil ∧
      (pd.status = .suspended ∨ pd.status = .banned) := by
  obtain ⟨p, hp, hg⟩ := List.mem_filterMap.mp h
  by_cases hC : (p.2.status = Status.suspended ∨ p.2.status = Status.banned) ∧
      p.2.status ≠ Status.deletedAccount ∧
      now - 7 * 24 * 60 * 60 * 1000 < p.2.lastSeen
  · rw [if_pos hC] at hg
    injection hg with hg'
    subst hg'
    exact ⟨p.2, hp, rfl, rfl, hC.1⟩
  · rw [if_neg hC] at hg
    cases hg

/-- The events the priority block appends: the new-ban notifications
followed (after the state update, which emits nothing) by the
new-deletion notifications. -/
theorem priorityBlock_events (now : Nat) (prs : List PassResult) (st : CycleSt) :
    (priorityBlock now prs st).events =
      st.events ++ (newBansOf prs).map (fun r => (r.userId, EKind.sanction)) ++
        (newDeletionsOf prs).map (fun r => (r.userId, EKind.deletion)) := by
  unfold priorityBlock
  by_cases he : prs.isEmpty
  · rw [if_pos he]
    have hnil : prs = [] := by
      cases prs
      · rfl
      · cases he
    subst hnil
    simp [newBansOf, newDeletionsOf]
  · rw [if_neg he]
    dsimp only
    by_cases hb : (newBansOf prs).isEmpty
    · rw [if_pos hb]
    · rw [if_neg hb]
      rw [runPass_events_of_no_evs _ _ (fun pd? bv uv a => (banUpdateStep_effects now pd? bv uv a).2.1)]

/-- The priority block never touches the unban-key set. -/
theorem priorityBlock_unbanKeys (now : Nat) (prs : List PassResult) (st : CycleSt) :
    (priorityBlock now prs st).unbanKeys = st.unbanKeys := by
  unfold priorityBlock
  by_cases he : prs.isEmpty
  · rw [if_pos he]
  · rw [if_neg he]
    dsimp only
    by_cases hb : (newBansOf prs).isEmpty
    · rw [if_pos hb]
    · rw [if_neg hb]
      exact runPass_unbanKeys_of_none _ _
        (fun pd? bv uv a => (banUpdateStep_effects now pd? bv uv a).1) _ _

/-- Any ban key present after the priority block was present before or
is scoped to a notified new ban. -/
theorem priorityBlock_bansKeys_mem (now : Nat) (prs : List PassResult) (st : CycleSt)
    (x : String × Bool) (hx : x ∈ (priorityBlock now prs st).bansKeys) :
    x ∈ st.bansKeys ∨ x.1 ∈ (newBansOf prs).map PassResult.userId := by
  unfold priorityBlock at hx
  by_cases he : prs.isEmpty
  · rw [if_pos he] at hx
    exact Or.inl hx
  · rw [if_neg he] at hx
    dsimp only at hx
    by_cases hb : (newBansOf prs).isEmpty
    · rw [if_pos hb] at hx
      exact Or.inl hx
    · rw [if_neg hb] at hx
      rcases runPass_bansKeys_mem (fun r : PassResult => r.userId) (banUpdateStep now)
          (newBansOf prs) _ x hx with h1 | h1
      · exact Or.inl h1
      · exact Or.inr h1

/-- The priority block write set: untouched unless the entity got a
new-ban state update. -/
theorem priorityBlock_getPlayer_not_mem (now : Nat) (prs : List PassResult) (st : CycleSt)
    (uid : String) (hu : uid ∉ (newBansOf prs).map PassResult.userId) :
    getPlayer (priorityBlock now prs st).players uid = getPlayer st.players uid := by
  unfold priorityBlock
  by_cases he : prs.isEmpty
  · rw [if_pos he]
  · rw [if_neg he]
    dsimp only
    by_cases hb : (newBansOf prs).isEmpty
    · rw [if_pos hb]
    · rw [if_neg hb]
      exact runPass_getPlayer_not_mem _ _ _ _ uid hu

/-- The priority block keeps the players-map keys duplicate-free. -/
theorem priorityBlock_nodup (now : Nat) (prs : List PassResult) (st : CycleSt)
    (h : (st.players.map Prod.fst).Nodup) :
    ((priorityBlock now prs st).players.map Prod.fst).Nodup := by
  unfold priorityBlock
  by_cases he : prs.isEmpty
  · rw [if_pos he]; exact h
  · rw [if_neg he]
    dsimp only
    by_cases hb : (newBansOf prs).isEmpty
    · rw [if_pos hb]; exact h
    · rw [if_neg hb]
      exact runPass_nodup_keys _ _ _ _ h

/-- The events the combined block appends. -/
theorem combinedBlock_events (now : Nat) (allS : List PassResult) (st : CycleSt) :
    (combinedBlock now allS st).events =
      st.events ++ (newBansOf allS).map (fun r => (r.userId, EKind.sanction)) ++
        (newDeletionsOf allS).map (fun r => (r.userId, EKind.deletion)) := by
  unfold combinedBlock
  dsimp only
  by_cases hb : (allS.filter (fun s => s.isNewSanction && !s.deletedAccount)).isEmpty
  · rw [if_pos hb]
    have hnil : allS.filter (fun s => s.isNewSanction && !s.deletedAccount) = [] := by
      cases hx : allS.filter (fun s => s.isNewSanction && !s.deletedAccount)
      · rfl
      · rw [hx] at hb; cases hb
    show st.events ++ _ = _
    unfold newBansOf newDeletionsOf
    rw [hnil]
    simp
  · rw [if_neg hb]
    rw [runPass_events_of_no_evs _ _ (fun pd? bv uv a => (banUpdateStep_effects now pd? bv uv a).2.1)]
    rfl

/-- The re-verification pass restores a sanctioned record whose probe
reports no sanction and no deletion — with no restart guard of any
kind: the cycle's first-check flag plays no role here. -/
theorem reverifyStep_restores (probe : String → RawProbe) (now : Nat)
    (pData : PlayerData) (bv uv : Bool → Bool) (e : SanctionedP) (act : Activity)
    (hact : activityOf (probe e.userId) now = some act)
    (hd : act.deleted = false) (hb : act.banned = false) (hs : act.suspended = false)
    (hst : pData.status = .banned ∨ pData.status = .suspended)
    (huv : uv (pData.status == Status.banned) = false) :
    (reverifyStep probe now (some pData) bv uv e).evs = [.restored] ∧
    (reverifyStep probe now (some pData) bv uv e).addUnbanKey =
      some (pData.status == Status.banned) ∧
    ∃ pd', (reverifyStep probe now (some pData) bv uv e).pd = some pd' ∧
      pd'.status = .active ∧ pd'.suspendedUntil = none := by
  unfold reverifyStep
  rw [hact]
  dsimp only
  rw [if_neg (by rw [hd]; exact fun hc => Bool.noConfusion hc),
    if_neg (by rw [hb]; exact fun hc => Bool.noConfusion hc),
    if_neg (by rw [hs]; exact fun hc => Bool.noConfusion hc),
    if_pos hst, if_pos huv]
  exact ⟨rfl, rfl, _, rfl, rfl, rfl⟩

/-- Conversely, any event or unban key the re-verification pass
produces comes from that restoration branch. -/
theorem reverifyStep_restored (probe : String → RawProbe) (now : Nat)
    (pd? : Option PlayerData) (bv uv : Bool → Bool) (e : SanctionedP) :
    ((reverifyStep probe now pd? bv uv e).evs = [] ∧
     (reverifyStep probe now pd? bv uv e).addUnbanKey = none) ∨
    ((reverifyStep probe now pd? bv uv e).evs = [.restored] ∧
     (∃ b, (reverifyStep probe now pd? bv uv e).addUnbanKey = some b) ∧
     (∃ pData, pd? = some pData ∧
       (pData.status = .banned ∨ pData.status = .suspended)) ∧
     ∃ pd', (reverifyStep probe now pd? bv uv e).pd = some pd' ∧
       pd'.status = .active) := by
  unfold reverifyStep StepOut.skip
  cases hact : activityOf (probe e.userId) now with
  | none => exact Or.inl ⟨rfl, rfl⟩
  | some act =>
    dsimp only
    cases pd? with
    | none => exact Or.inl ⟨rfl, rfl⟩
    | some pData =>
      dsimp only
      by_cases hd : act.deleted = true
      · rw [if_pos hd]
        by_cases hnd : pData.status ≠ Status.deletedAccount
        · rw [if_pos hnd]; exact Or.inl ⟨rfl, rfl⟩
        · rw [if_neg hnd]; exact Or.inl ⟨rfl, rfl⟩
      · rw [if_neg hd]
        by_cases hb : act.banned = true
        · rw [if_pos hb]
          by_cases hnb : pData.status ≠ Status.banned
          · rw [if_pos hnb]; exact Or.inl ⟨rfl, rfl⟩
          · rw [if_neg hnb]; exact Or.inl ⟨rfl, rfl⟩
        · rw [if_neg hb]
          by_cases hs : act.suspended = true
          · rw [if_pos hs]
            by_cases hpb : pData.status = Status.banned
            · rw [if_pos hpb]; exact Or.inl ⟨rfl, rfl⟩
            · rw [if_neg hpb]
              by_cases hps : pData.status = Status.suspended
              · rw [if_pos hps]
                by_cases hdu : pData.suspendedUntil ≠ act.suspendedUntil
                · rw [if_pos hdu]; exact Or.inl ⟨rfl, rfl⟩
                · rw [if_neg hdu]; exact Or.inl ⟨rfl, rfl⟩
              · rw [if_neg hps]; exact Or.inl ⟨rfl, rfl⟩
          · rw [if_neg hs]
            by_cases hbs : pData.status = Status.banned ∨ pData.status = Status.suspended
            · rw [if_pos hbs]
              by_cases huv : uv (pData.status == Status.banned) = false
              · rw [if_pos huv]
                exact Or.inr ⟨rfl, ⟨_, rfl⟩, ⟨pData, rfl, hbs⟩, _, rfl, rfl⟩
              · rw [if_neg huv]; exact Or.inl ⟨rfl, rfl⟩
            · rw [if_neg hbs]; exact Or.inl ⟨rfl, rfl⟩

/-- The sweep only alters records whose status is `suspended`. -/
theorem sweepOne_of_not_susp (now : Nat) (pd : PlayerData)
    (h : pd.status ≠ .suspended) : sweepOne now pd = pd := by
  unfold sweepOne
  cases hst : pd.status
  all_goals cases hsu : pd.suspendedUntil
  all_goals try rfl
  case suspended.some u => exact absurd hst h

/-! ### Concrete scenarios -/

/-- A cycle timestamp (30 days in ms). -/
def cNow : Nat := 2592000000

/-- A tracked player persisted as banned, seen recently. -/
def cPdBanned : PlayerData :=
  { nick := "P", countryCode := some "de", firstSeen := 0, ratings := [],
    lastSeen := cNow - 1000, status := .banned, suspendedUntil := none,
    suspendedAt := none, bannedAt := some 5, deletedAt := none,
    unbannedAt := none, unsuspendedAt := none }

/-- A tracked player persisted as suspended until a future timestamp. -/
def cPdSusp : PlayerData :=
  { cPdBanned with
      status := .suspended
      suspendedUntil := some (cNow + 86400000)
      suspendedAt := some 5
      bannedAt := none }

/-- A tracked player persisted as a deleted account. -/
def cPdDeleted : PlayerData :=
  { cPdBanned with
      status := .deletedAccount
      bannedAt := none
      deletedAt := some 7 }

/-- A tracked active player last seen two hours ago. -/
def cPdActive : PlayerData :=
  { cPdBanned with
      status := .active
      bannedAt := none
      lastSeen := cNow - 2 * 60 * 60 * 1000 }

/-- A snapshot entry for an untracked player `q`. -/
def cLbQ : LBPlayer := ⟨"q", "Q", some "de", 1100, 3⟩

/-- A snapshot entry for the tracked player `p`. -/
def cLbP : LBPlayer := ⟨"p", "P", some "de", 900, 10⟩

/-- A probe reporting every entity alive and unsanctioned. -/
def cProbeActive : String → RawProbe := fun _ => .ok false none none

/-- A probe reporting every entity banned. -/
def cProbeBanned : String → RawProbe := fun _ => .ok true none none

/-- A probe reporting only the missing entity `m` banned. -/
def cProbeC4 : String → RawProbe := fun uid =>
  if uid = "m" then .ok true none none else .ok false none none

/-- The classified outcome of `cProbeActive` for any entity. -/
def cActActive : Activity :=
  { accessible := true, banned := false, suspended := false,
    suspendedUntil := none, countryCode := none, deleted := false }

/-- The re-verification snapshot of the banned player `p`. -/
def cSanctP : SanctionedP := ⟨"p", .banned, none, some "de"⟩

/-- Store for the C2 scenario: `p` banned, no persisted lastCheck. -/
def cStoreC2 : Store := ⟨[("p", cPdBanned)], none, 0⟩

/-- Store for the C9 scenario: `p` banned, last check four hours ago. -/
def cStoreC9 : Store := ⟨[("p", cPdBanned)], some (cNow - 4 * 60 * 60 * 1000), 0⟩

/-- Store for the C3 scenario: `p` deleted, last check one hour ago. -/
def cStoreC3 : Store := ⟨[("p", cPdDeleted)], some (cNow - 60 * 60 * 1000), 0⟩

/-- Store for the C5 scenario: `p` suspended, last check one hour ago. -/
def cStoreC5 : Store := ⟨[("p", cPdSusp)], some (cNow - 60 * 60 * 1000), 0⟩

/-- Store for the C4 scenario: `m` active but missing from the
snapshot, last check one hour ago. -/
def cStoreC4 : Store := ⟨[("m", cPdActive)], some (cNow - 60 * 60 * 1000), 0⟩

/-- **C2** (counterexample).  The claim states that on the first check
cycle after a process restart, an entity persisted as banned whose
probe reports neither banned nor suspended is restored silently, with
no RestoredEvent.  In this cycle the restart flag is set, `p` is
persisted banned, its probe reports active — yet the cycle emits the
restored event for `p`: the re-verification pass over sanctioned
entities has no restart guard. -/
theorem c2_restart_guard_counterexample :
    isFirstCheckAfterRestart cStoreC2.lastCheck cNow = true ∧
    (getPlayer cStoreC2.players "p").map PlayerData.status = some Status.banned ∧
    cProbeActive "p" = RawProbe.ok false none none ∧
    (checkForBannedPlayers cStoreC2 [cLbQ] cProbeActive cNow false).events =
      [("p", EKind.restored)] := by
  refine ⟨by decide, by decide, by decide, by decide⟩

/-- **C9** (counterexample).  The claim concludes that any gap longer
than 3 hours between cycles suppresses RestoredEvents for that cycle.
Here the persisted `lastCheck` lies 4 hours back, the restart flag is
consequently set — and the cycle still emits a restored event for the
banned entity `p` probed active, through the guard-free
re-verification pass. -/
theorem c9_gap_counterexample :
    cStoreC9.lastCheck = some (cNow - 4 * 60 * 60 * 1000) ∧
    3 * 60 * 60 * 1000 < cNow - (cNow - 4 * 60 * 60 * 1000) ∧
    isFirstCheckAfterRestart cStoreC9.lastCheck cNow = true ∧
    (checkForBannedPlayers cStoreC9 [cLbQ] cProbeActive cNow false).events =
      [("p", EKind.restored)] := by
  refine ⟨by decide, by decide, by decide, by decide⟩

/-- **C3** (counterexample).  The claim states `deleted_account` is
terminal.  Here `p` is persisted deleted, appears on the snapshot, and
its probe reports banned: the cycle flips the record to `banned` and
emits a sanction event for it. -/
theorem c3_terminal_counterexample :
    (getPlayer cStoreC3.players "p").map PlayerData.status =
      some Status.deletedAccount ∧
    (getPlayer (checkForBannedPlayers cStoreC3 [cLbP] cProbeBanned cNow
        false).store.players "p").map PlayerData.status = some Status.banned ∧
    (checkForBannedPlayers cStoreC3 [cLbP] cProbeBanned cNow false).events =
      [("p", EKind.sanction)] := by
  refine ⟨by decide, by decide, by decide⟩

/-- **C5** (counterexample).  The claim states `suspendedUntil` is
present iff the status is `suspended`.  Here the suspended entity `p`
is probed active outside a first check: the loop restores it to
`active` but does not delete `suspendedUntil`. -/
theorem c5_suspended_until_counterexample :
    isFirstCheckAfterRestart cStoreC5.lastCheck cNow = false ∧
    (getPlayer cStoreC5.players "p").map
      (fun pd => (pd.status, pd.suspendedUntil)) =
      some (Status.suspended, some (cNow + 86400000)) ∧
    (getPlayer (checkForBannedPlayers cStoreC5 [cLbP] cProbeActive cNow
        false).store.players "p").map (fun pd => (pd.status, pd.suspendedUntil)) =
      some (Status.active, some (cNow + 86400000)) := by
  refine ⟨by decide, by decide, by decide⟩

/-- **C4** (counterexample).  The claim states a failed cycle leaves
the persisted store exactly as before.  Here the priority pass finds
the missing entity `m` banned and saves mid-cycle; the injected
exception then aborts the cycle — one error message is reported, but
the persisted store now carries `m` as banned. -/
theorem c4_partial_save_counterexample :
    (checkForBannedPlayers cStoreC4 [cLbQ] cProbeC4 cNow true).errorMsgs = 1 ∧
    persistedAfter (checkForBannedPlayers cStoreC4 [cLbQ] cProbeC4 cNow true)
      cStoreC4 ≠ cStoreC4 ∧
    (getPlayer (persistedAfter (checkForBannedPlayers cStoreC4 [cLbQ] cProbeC4 cNow true)
        cStoreC4).players "m").map PlayerData.status = some Status.banned := by
  refine ⟨by decide, by decide, by decide⟩

/-- **C2** (amended).  When the fresh probe of a
banned/suspended/suspension-expired entity reports neither banned nor
suspended, the status becomes `active` on every path.  The restart
guard and the cycle-scoped dedup key govern the RestoredEvent only on
the snapshot-loop path: there the event fires exactly outside the
first post-restart cycle (silent status update otherwise).  The
re-verification pass over persisted sanctioned entities, however,
emits the RestoredEvent with **no** restart guard, so on a first
post-restart cycle a RestoredEvent can still fire. -/
theorem c2_restoration_policy (t pr : List PassResult) (lc : Option Nat) (now : Nat)
    (pd0 pData : PlayerData) (bv uv : Bool → Bool) (p : LBPlayer) (e : SanctionedP)
    (probe : String → RawProbe) (act : Activity)
    (hfind : t.find? (fun s => s.userId == p.userId) = none)
    (halready : pr.any (fun s => s.userId == p.userId) = false)
    (hst : pd0.status = .banned ∨ pd0.status = .suspended ∨
      pd0.status = .suspensionExpired)
    (huv : uv (pd0.status == Status.banned) = false)
    (hact : activityOf (probe e.userId) now = some act)
    (hd : act.deleted = false) (hb : act.banned = false) (hs : act.suspended = false)
    (hst2 : pData.status = .banned ∨ pData.status = .suspended)
    (huv2 : uv (pData.status == Status.banned) = false) :
    (isFirstCheckAfterRestart lc now = false →
      (loopStep t pr (isFirstCheckAfterRestart lc now) now (some pd0) bv uv p).evs =
        [.restored] ∧
      ∃ pd', (loopStep t pr (isFirstCheckAfterRestart lc now) now
          (some pd0) bv uv p).pd = some pd' ∧ pd'.status = .active) ∧
    (isFirstCheckAfterRestart lc now = true →
      (loopStep t pr (isFirstCheckAfterRestart lc now) now (some pd0) bv uv p).evs =
        [] ∧
      ∃ pd', (loopStep t pr (isFirstCheckAfterRestart lc now) now
          (some pd0) bv uv p).pd = some pd' ∧ pd'.status = .active) ∧
    ((reverifyStep probe now (some pData) bv uv e).evs = [.restored] ∧
      ∃ pd', (reverifyStep probe now (some pData) bv uv e).pd = some pd' ∧
        pd'.status = .active) := by
  refine ⟨?_, ?_, ?_⟩
  · intro hfc
    rw [hfc]
    obtain ⟨h1, h2, pd', h3, h4, h5⟩ :=
      loopStep_restores t pr false now pd0 bv uv p hfind halready hst rfl huv
    exact ⟨h1, pd', h3, h4⟩
  · intro hfc
    rw [hfc]
    obtain ⟨h1, h2, pd', h3, h4, h5⟩ :=
      loopStep_silent t pr now pd0 bv uv p hfind halready hst
    exact ⟨h1, pd', h3, h4⟩
  · obtain ⟨h1, h2, pd', h3, h4, h5⟩ :=
      reverifyStep_restores probe now pData bv uv e act hact hd hb hs hst2 huv2
    exact ⟨h1, pd', h3, h4⟩

/-- Witness for `c2_restoration_policy`: the banned player `p`, probed
active, at concrete inputs; the re-verification path emits the
restored event. -/
theorem c2_restoration_policy_witness :
    cPdBanned.status = Status.banned ∧
    ((reverifyStep cProbeActive cNow (some cPdBanned) (fun _ => false)
        (fun _ => false) cSanctP).evs = [.restored] ∧
      ∃ pd', (reverifyStep cProbeActive cNow (some cPdBanned) (fun _ => false)
        (fun _ => false) cSanctP).pd = some pd' ∧ pd'.status = .active) :=
  ⟨by decide,
    (c2_restoration_policy [] [] none cNow cPdBanned cPdBanned (fun _ => false)
      (fun _ => false) cLbP cSanctP cProbeActive cActActive (by decide) (by decide)
      (by decide) (by decide) (by decide) (by decide) (by decide) (by decide)
      (by decide) (by decide)).2.2⟩

/-- **C9** (amended).  The restart flag is indeed time-based: it is set
exactly when `lastCheck` is absent, zero, or more than 3 hours before
the cycle start.  But the flag suppresses restoration events only on
the snapshot-loop path; the re-verification pass emits RestoredEvents
regardless, so a longer-than-3-hours gap does not suppress
RestoredEvents for the cycle as a whole. -/
theorem c9_gap_guard (t pr : List PassResult) (lc : Option Nat) (now t0 : Nat)
    (pd0 pData : PlayerData) (bv uv : Bool → Bool) (p : LBPlayer) (e : SanctionedP)
    (probe : String → RawProbe) (act : Activity)
    (hlc : lc = some t0) (hgap : 3 * 60 * 60 * 1000 < now - t0)
    (hfind : t.find? (fun s => s.userId == p.userId) = none)
    (halready : pr.any (fun s => s.userId == p.userId) = false)
    (hst : pd0.status = .banned ∨ pd0.status = .suspended ∨
      pd0.status = .suspensionExpired)
    (hact : activityOf (probe e.userId) now = some act)
    (hd : act.deleted = false) (hb : act.banned = false) (hs : act.suspended = false)
    (hst2 : pData.status = .banned ∨ pData.status = .suspended)
    (huv2 : uv (pData.status == Status.banned) = false) :
    (∀ (lc' : Option Nat) (now' : Nat), isFirstCheckAfterRestart lc' now' = true ↔
      (lc' = none ∨ ∃ t1, lc' = some t1 ∧
        (t1 = 0 ∨ 3 * 60 * 60 * 1000 < now' - t1))) ∧
    isFirstCheckAfterRestart lc now = true ∧
    ((loopStep t pr (isFirstCheckAfterRestart lc now) now (some pd0) bv uv p).evs =
      [] ∧
      ∃ pd', (loopStep t pr (isFirstCheckAfterRestart lc now) now
          (some pd0) bv uv p).pd = some pd' ∧ pd'.status = .active) ∧
    (reverifyStep probe now (some pData) bv uv e).evs = [.restored] := by
  have hiff : ∀ (lc' : Option Nat) (now' : Nat),
      isFirstCheckAfterRestart lc' now' = true ↔
      (lc' = none ∨ ∃ t1, lc' = some t1 ∧
        (t1 = 0 ∨ 3 * 60 * 60 * 1000 < now' - t1)) := by
    intro lc' now'
    cases lc' with
    | none => simp [isFirstCheckAfterRestart]
    | some t1 => simp [isFirstCheckAfterRestart]
  have hflag : isFirstCheckAfterRestart lc now = true :=
    (hiff lc now).mpr (Or.inr ⟨t0, hlc, Or.inr hgap⟩)
  refine ⟨hiff, hflag, ?_, ?_⟩
  · rw [hflag]
    obtain ⟨h1, h2, pd', h3, h4, h5⟩ :=
      loopStep_silent t pr now pd0 bv uv p hfind halready hst
    exact ⟨h1, pd', h3, h4⟩
  · exact (reverifyStep_restores probe now pData bv uv e act hact hd hb hs
      hst2 huv2).1

/-- Witness for `c9_gap_guard`: a four-hour gap at concrete inputs. -/
theorem c9_gap_guard_witness :
    3 * 60 * 60 * 1000 < cNow - (cNow - 4 * 60 * 60 * 1000) ∧
    (isFirstCheckAfterRestart (some (cNow - 4 * 60 * 60 * 1000)) cNow = true ∧
      (reverifyStep cProbeActive cNow (some cPdBanned) (fun _ => false)
        (fun _ => false) cSanctP).evs = [.restored]) := by
  refine ⟨by decide, ?_, ?_⟩
  · exact (c9_gap_guard [] [] (some (cNow - 4 * 60 * 60 * 1000)) cNow
      (cNow - 4 * 60 * 60 * 1000) cPdBanned cPdBanned (fun _ => false)
      (fun _ => false) cLbP cSanctP cProbeActive cActActive rfl (by decide)
      (by decide) (by decide) (by decide) (by decide) (by decide) (by decide)
      (by decide) (by decide) (by decide)).2.1
  · exact (c9_gap_guard [] [] (some (cNow - 4 * 60 * 60 * 1000)) cNow
      (cNow - 4 * 60 * 60 * 1000) cPdBanned cPdBanned (fun _ => false)
      (fun _ => false) cLbP cSanctP cProbeActive cActActive rfl (by decide)
      (by decide) (by decide) (by decide) (by decide) (by decide) (by decide)
      (by decide) (by decide) (by decide)).2.2.2

/-- **C4** (amended).  An empty snapshot aborts the cycle before any
mutation with exactly one error message, as claimed.  A cycle that
fails by exception also reports exactly one error message — but the
persisted store is only unchanged when the priority pass found
nothing: if it produced results, its mid-cycle save (the state after
the priority notification block) persists despite the failed cycle. -/
theorem c4_failure_modes (store : Store) (lb : List LBPlayer)
    (probe : String → RawProbe) (now : Nat) :
    (∀ crash, checkForBannedPlayers store [] probe now crash =
      { store := store, saves := [], events := [], errorMsgs := 1, infoMsgs := 0 } ∧
      persistedAfter (checkForBannedPlayers store [] probe now crash) store = store) ∧
    ((checkForBannedPlayers store lb probe now true).errorMsgs = 1) ∧
    (lb.isEmpty = false →
      ((priorityOutcome store lb probe now).2.isEmpty = true →
        persistedAfter (checkForBannedPlayers store lb probe now true) store =
          store) ∧
      ((priorityOutcome store lb probe now).2.isEmpty = false →
        persistedAfter (checkForBannedPlayers store lb probe now true) store =
          { store with players :=
              (priorityBlock now (priorityOutcome store lb probe now).2
                (priorityOutcome store lb probe now).1).players })) := by
  refine ⟨fun crash => ⟨rfl, rfl⟩, ?_, ?_⟩
  · unfold checkForBannedPlayers
    by_cases hlb : lb.isEmpty = true
    · rw [if_pos hlb]
    · rw [if_neg hlb]
      rfl
  · intro hlb
    unfold checkForBannedPlayers
    rw [if_neg (by rw [hlb]; exact fun hc => Bool.noConfusion hc)]
    dsimp only
    rw [if_pos (rfl : true = true)]
    constructor
    · intro hemp
      rw [if_pos hemp]
      rfl
    · intro hemp
      rw [if_neg (by rw [hemp]; exact fun hc => Bool.noConfusion hc)]
      rfl

/-- Witness for `c4_failure_modes`: the crash cycle over `cStoreC4`
persists the priority block's state. -/
theorem c4_failure_modes_witness :
    ([cLbQ] : List LBPlayer).isEmpty = false ∧
    (priorityOutcome cStoreC4 [cLbQ] cProbeC4 cNow).2.isEmpty = false ∧
    persistedAfter (checkForBannedPlayers cStoreC4 [cLbQ] cProbeC4 cNow true) cStoreC4 =
      { cStoreC4 with players :=
          (priorityBlock cNow (priorityOutcome cStoreC4 [cLbQ] cProbeC4 cNow).2
            (priorityOutcome cStoreC4 [cLbQ] cProbeC4 cNow).1).players } :=
  ⟨by decide, by decide,
    ((c4_failure_modes cStoreC4 [cLbQ] cProbeC4 cNow).2.2 (by decide)).2 (by decide)⟩

/-- Well-formedness every probing-pass result enjoys: a sanction result
carries a present expiry whenever it flags a suspension, and flags at
least one of banned/suspended; a deletion result is never flagged as a
new sanction. -/
def resultWF (r : PassResult) : Prop :=
  (r.deletedAccount = false → (r.suspended = true → r.suspendedUntil.isSome = true) ∧
    (r.confirmedBanned || r.suspended) = true) ∧
  (r.deletedAccount = true → r.isNewSanction = false)

/-- Priority-pass results are well-formed. -/
theorem priority_results_wf (probe : String → RawProbe) (now : Nat)
    (l : List MissingP) (st : CycleSt) :
    ∀ r ∈ (runPass (·.userId) (priorityStep probe now) l st).2, resultWF r := by
  refine runPass_results_prop _ _ (fun _ _ => True) resultWF l st
    (fun _ _ _ _ _ _ _ _ => trivial) (fun _ => trivial) ?_
  intro mp _ pd? bv uv _ r hres
  obtain ⟨-, hcase⟩ := priorityStep_res_char probe now pd? bv uv mp r hres
  rcases hcase with ⟨hda, -, hsn, -⟩ | ⟨hda, -, -, act, pd0, hact, hdel, hbs, -, hcb, hsp, hsu, -⟩
  · exact ⟨fun hc => absurd hda (by rw [hc]; exact fun h => Bool.noConfusion h),
      fun _ => hsn⟩
  · refine ⟨fun _ => ⟨?_, ?_⟩, fun hc => absurd hda (by rw [hc]; exact fun h => Bool.noConfusion h)⟩
    · intro hsusp
      rw [hsp] at hsusp
      obtain ⟨u, hu, -⟩ := (activityOf_wf _ now act hact).1 hsusp
      rw [hsu, hu]
      rfl
    · rw [hcb, hsp]
      exact hbs

/-- Full-population-pass results are well-formed. -/
theorem verifyAll_results_wf (probe : String → RawProbe) (now : Nat)
    (l : List LBPlayer) (st : CycleSt) :
    ∀ r ∈ (runPass (·.userId) (verifyAllStep probe now) l st).2, resultWF r := by
  refine runPass_results_prop _ _ (fun _ _ => True) resultWF l st
    (fun _ _ _ _ _ _ _ _ => trivial) (fun _ => trivial) ?_
  intro p _ pd? bv uv _ r hres
  obtain ⟨-, hcase⟩ := verifyAllStep_res_char probe now pd? bv uv p r hres
  rcases hcase with ⟨hda, -, hsn, -⟩ |
    ⟨hda, -, act, hact, hdel, hbs, hcb, hsp, hsu, -⟩
  · exact ⟨fun hc => absurd hda (by rw [hc]; exact fun h => Bool.noConfusion h),
      fun _ => hsn⟩
  · refine ⟨fun _ => ⟨?_, ?_⟩, fun hc => absurd hda (by rw [hc]; exact fun h => Bool.noConfusion h)⟩
    · intro hsusp
      rw [hsp] at hsusp
      obtain ⟨u, hu, -⟩ := (activityOf_wf _ now act hact).1 hsusp
      rw [hsu, hu]
      rfl
    · rw [hcb, hsp]
      exact hbs

/-- Re-verification-pass results are well-formed. -/
theorem reverify_results_wf (probe : String → RawProbe) (now : Nat)
    (l : List SanctionedP) (st : CycleSt) :
    ∀ r ∈ (runPass (·.userId) (reverifyStep probe now) l st).2, resultWF r := by
  refine runPass_results_prop _ _ (fun _ _ => True) resultWF l st
    (fun _ _ _ _ _ _ _ _ => trivial) (fun _ => trivial) ?_
  intro e _ pd? bv uv _ r hres
  obtain ⟨-, act, pData, hact, -, hcase⟩ := reverifyStep_res_char probe now pd? bv uv e r hres
  rcases hcase with ⟨hda, -, hsn, -⟩ |
    ⟨hda, -, -, hdel, hbs, hcb, hsp, hsu, -⟩
  · exact ⟨fun hc => absurd hda (by rw [hc]; exact fun h => Bool.noConfusion h),
      fun _ => hsn⟩
  · refine ⟨fun _ => ⟨?_, ?_⟩, fun hc => absurd hda (by rw [hc]; exact fun h => Bool.noConfusion h)⟩
    · intro hsusp
      rw [hsp] at hsusp
      obtain ⟨u, hu, -⟩ := (activityOf_wf _ now act hact).1 hsusp
      rw [hsu, hu]
      rfl
    · rw [hcb, hsp]
      exact hbs

/-- One direction of the claimed field invariant: a suspended record
carries an expiry. -/
def suspInv (pd? : Option PlayerData) : Prop :=
  ∀ pd, pd? = some pd → pd.status = .suspended → pd.suspendedUntil.isSome = true

/-- The sweep preserves the suspended-carries-expiry invariant. -/
theorem suspInv_sweepOne (now : Nat) (pd : PlayerData)
    (h : suspInv (some pd)) : suspInv (some (sweepOne now pd)) := by
  intro pd1 hpd1 hs1
  injection hpd1 with hpd1
  subst hpd1
  by_cases hss : pd.status = Status.suspended
  · have hio := h pd rfl hss
    match hu : pd.suspendedUntil with
    | none => rw [hu] at hio; cases hio
    | some u =>
      unfold sweepOne at hs1 ⊢
      rw [hss, hu] at hs1 ⊢
      dsimp only at hs1 ⊢
      by_cases hle : u ≤ now
      · rw [if_pos hle] at hs1
        cases hs1
      · rw [if_neg hle]
        exact hio
  · rw [sweepOne_of_not_susp now pd hss] at hs1
    exact absurd hs1 hss

/-- The dedup-guarded ban update preserves the
suspended-carries-expiry invariant for well-formed sanction results. -/
theorem banUpdate_preserves_suspInv (now : Nat) (rs : List PassResult) (st : CycleSt)
    (hwf : ∀ r ∈ rs, r.deletedAccount = false ∧ resultWF r)
    (h0 : ∀ u, suspInv (getPlayer st.players u)) :
    ∀ u, suspInv (getPlayer
      (runPass (·.userId) (banUpdateStep now) rs st).1.players u) := by
  refine runPass_preserves _ _ (fun _ pd? => suspInv pd?) rs st ?_ h0
  intro r hr pd? bv uv hP pd' hpd'
  intro pd hpd hs
  injection hpd with hpd
  subst hpd
  obtain ⟨pd0, hpd0, hcase⟩ := banUpdateStep_pd_char now pd? bv uv r pd' hpd'
  rcases hcase with ⟨-, hst, -⟩ | ⟨-, hsp, hst, hsu⟩ | ⟨-, -, hpp⟩
  · rw [hst] at hs; cases hs
  · obtain ⟨hda, hwf1, -⟩ := hwf r hr
    rw [hsu]
    exact (hwf1 hda).1 hsp
  · subst hpp
    exact hP _ hpd0 hs

/-- The final store of a non-crashing cycle over a non-empty
snapshot. -/
theorem cycle_store_of_ok (store : Store) (lb : List LBPlayer)
    (probe : String → RawProbe) (now : Nat) (hlb : lb.isEmpty = false) :
    (checkForBannedPlayers store lb probe now false).store =
      { players := (st10Of store lb probe now).players, lastCheck := some now,
        totalChecks := store.totalChecks + 1 } := by
  unfold checkForBannedPlayers
  rw [if_neg (by rw [hlb]; exact fun hc => Bool.noConfusion hc)]
  rfl

/-- The events of a non-crashing cycle over a non-empty snapshot. -/
theorem cycle_events_of_ok (store : Store) (lb : List LBPlayer)
    (probe : String → RawProbe) (now : Nat) (hlb : lb.isEmpty = false) :
    (checkForBannedPlayers store lb probe now false).events =
      (st10Of store lb probe now).events := by
  unfold checkForBannedPlayers
  rw [if_neg (by rw [hlb]; exact fun hc => Bool.noConfusion hc)]
  rfl

/-- The full-population handler ignores both dedup-key views. -/
theorem verifyAllStep_insensitive (probe : String → RawProbe) (now : Nat)
    (st : CycleSt) (p : LBPlayer) :
    localApp (·.userId) (verifyAllStep probe now) st p =
      localOut (·.userId) (verifyAllStep probe now) st.players p := rfl

/-- The priority handler ignores both dedup-key views. -/
theorem priorityStep_insensitive (probe : String → RawProbe) (now : Nat)
    (st : CycleSt) (mp : MissingP) :
    localApp (·.userId) (priorityStep probe now) st mp =
      localOut (·.userId) (priorityStep probe now) st.players mp := rfl

/-- The full-population pass results, in closed form. -/
theorem vrOf_results (store : Store) (lb : List LBPlayer) (probe : String → RawProbe)
    (now : Nat) (hnd : (lb.map LBPlayer.userId).Nodup) :
    (vrOf store lb probe now).2 =
      passResultsOf (·.userId) (verifyAllStep probe now)
        (stpOf store lb probe now).players lb :=
  (runPass_char _ _ lb (stpOf store lb probe now) hnd
    (fun p _ => verifyAllStep_insensitive probe now _ p)).1

/-- The record a snapshot entity ends the full-population pass with. -/
theorem vrOf_getPlayer_mem (store : Store) (lb : List LBPlayer)
    (probe : String → RawProbe) (now : Nat) (hnd : (lb.map LBPlayer.userId).Nodup)
    (p : LBPlayer) (hp : p ∈ lb) :
    getPlayer (vrOf store lb probe now).1.players p.userId =
      (match (localOut (·.userId) (verifyAllStep probe now)
          (stpOf store lb probe now).players p).pd with
       | some pd => some pd
       | none => getPlayer (stpOf store lb probe now).players p.userId) :=
  runPass_getPlayer_mem _ _ lb (stpOf store lb probe now) hnd
    (fun q _ => verifyAllStep_insensitive probe now _ q) p hp

/-- The full-population pass results carry pairwise distinct entity
ids when the snapshot does. -/
theorem vrOf_results_nodup (store : Store) (lb : List LBPlayer)
    (probe : String → RawProbe) (now : Nat) (hnd : (lb.map LBPlayer.userId).Nodup) :
    ((vrOf store lb probe now).2.map PassResult.userId).Nodup := by
  rw [vrOf_results store lb probe now hnd]
  exact nodup_filterMap_map lb _ PassResult.userId LBPlayer.userId
    (fun p r h => (verifyAllStep_res_char probe now _ _ _ p r h).1) hnd

/-- Every full-population deletion result has its entity recorded as
deleted right after the pass. -/
theorem vrOf_deleted_recorded (store : Store) (lb : List LBPlayer)
    (probe : String → RawProbe) (now : Nat) (hnd : (lb.map LBPlayer.userId).Nodup)
    (s : PassResult) (hs : s ∈ (vrOf store lb probe now).2)
    (hdel : s.deletedAccount = true) :
    ∃ pd, getPlayer (vrOf store lb probe now).1.players s.userId = some pd ∧
      pd.status = .deletedAccount := by
  rw [vrOf_results store lb probe now hnd] at hs
  obtain ⟨p, hp, hres⟩ := List.mem_filterMap.mp hs
  obtain ⟨huid, hcase⟩ := verifyAllStep_res_char probe now _ _ _ p s hres
  rcases hcase with ⟨-, -, -, -, -, -, ⟨pd', hpd', hst'⟩, -⟩ |
    ⟨hda, -⟩
  · refine ⟨pd', ?_, hst'⟩
    rw [huid, vrOf_getPlayer_mem store lb probe now hnd p hp]
    rw [show (localOut (·.userId) (verifyAllStep probe now)
      (stpOf store lb probe now).players p).pd = some pd' from hpd']
  · rw [hda] at hdel
    cases hdel

/-- **C5** (amended).  The expiry sweep behaves as claimed: a suspended
record whose expiry has passed moves to `suspension_expired` with its
suspension fields cleared, and records not suspended are untouched —
all without any probe.  The claimed field equivalence however only
survives a cycle in one direction: if every suspended record carries
an expiry, that remains true after a full cycle; the converse
(`suspendedUntil` present only on suspended records) is broken by the
loop's restoration path, which does not delete `suspendedUntil`. -/
theorem c5_suspension_policy (store : Store) (lb : List LBPlayer)
    (probe : String → RawProbe) (now : Nat)
    (hnd : (lb.map LBPlayer.userId).Nodup)
    (hinv : ∀ u, suspInv (getPlayer store.players u)) :
    (∀ (pd : PlayerData) (u : Nat), pd.status = .suspended →
      pd.suspendedUntil = some u → u ≤ now →
      (sweepOne now pd).status = .suspensionExpired ∧
      (sweepOne now pd).suspendedUntil = none ∧
      (sweepOne now pd).suspendedAt = none) ∧
    (∀ pd : PlayerData, pd.status ≠ .suspended → sweepOne now pd = pd) ∧
    (∀ u, suspInv (getPlayer
      (checkForBannedPlayers store lb probe now false).store.players u)) := by
  refine ⟨?_, sweepOne_of_not_susp now, ?_⟩
  · intro pd u hss hsu hle
    unfold sweepOne
    rw [hss, hsu]
    dsimp only
    rw [if_pos hle]
    exact ⟨rfl, rfl, rfl⟩
  · by_cases hlb : lb.isEmpty = true
    · have hcyc : checkForBannedPlayers store lb probe now false =
          { store := store, saves := [], events := [], errorMsgs := 1,
            infoMsgs := 0 } := by
        unfold checkForBannedPlayers
        rw [if_pos hlb]
      rw [hcyc]
      exact hinv
    · have hlb' : lb.isEmpty = false := by
        cases hx : lb.isEmpty
        · rfl
        · exact absurd hx hlb
      rw [cycle_store_of_ok store lb probe now hlb']
      have h1 : ∀ u, suspInv (getPlayer (priorityOutcome store lb probe now).1.players u) := by
        refine runPass_preserves _ _ (fun _ pd? => suspInv pd?) _ _ ?_ hinv
        intro mp hmp pd? bv uv hP pd' hpd'
        intro pd hpd hs
        injection hpd with hpd
        subst hpd
        rw [priorityStep_pd_char probe now pd? bv uv mp _ hpd'] at hs
        cases hs
      have h2 : ∀ u, suspInv (getPlayer (stpOf store lb probe now).players u) := by
        unfold stpOf priorityBlock
        by_cases he : (priorityOutcome store lb probe now).2.isEmpty = true
        · rw [if_pos he]
          exact h1
        · rw [if_neg he]
          dsimp only
          by_cases hb : (newBansOf (priorityOutcome store lb probe now).2).isEmpty = true
          · rw [if_pos hb]
            exact h1
          · rw [if_neg hb]
            refine banUpdate_preserves_suspInv now _ _ ?_ h1
            intro r hr
            have hrmem : r ∈ (priorityOutcome store lb probe now).2 :=
              List.mem_of_mem_filter hr
            have hpred := List.of_mem_filter hr
            have hda : r.deletedAccount = false := by
              simp only [Bool.and_eq_true, Bool.not_eq_true'] at hpred
              exact hpred.2
            exact ⟨hda, priority_results_wf probe now _ _ r hrmem⟩
      have h3 : ∀ u, suspInv (getPlayer (vrOf store lb probe now).1.players u) := by
        refine runPass_preserves _ _ (fun _ pd? => suspInv pd?) _ _ ?_ h2
        intro p hp pd? bv uv hP pd' hpd'
        intro pd hpd hs
        injection hpd with hpd
        subst hpd
        rcases verifyAllStep_pd_char probe now pd? bv uv p _ hpd' with hdel | ⟨-, hfresh⟩
        · rw [hdel] at hs
          cases hs
        · rw [hfresh] at hs
          cases hs
      have hndT : (((vrOf store lb probe now).2).map PassResult.userId).Nodup :=
        vrOf_results_nodup store lb probe now hnd
      have hwfT : ∀ r ∈ (vrOf store lb probe now).2, resultWF r :=
        fun r hr => verifyAll_results_wf probe now lb _ r hr
      have hdelT : ∀ s ∈ (vrOf store lb probe now).2, s.deletedAccount = true →
          ∃ pd, getPlayer (vrOf store lb probe now).1.players s.userId = some pd ∧
            pd.status = .deletedAccount :=
        fun s hs hd => vrOf_deleted_recorded store lb probe now hnd s hs hd
      have h4 : ∀ u, (suspInv (getPlayer (lpOf store lb probe now).1.players u) ∧
          (∀ s ∈ (vrOf store lb probe now).2, s.userId = u → s.deletedAccount = true →
            ∃ pd, getPlayer (lpOf store lb probe now).1.players u = some pd ∧
              pd.status = .deletedAccount)) := by
        refine runPass_preserves _ _
          (fun uid pd? => suspInv pd? ∧
            (∀ s ∈ (vrOf store lb probe now).2, s.userId = uid →
              s.deletedAccount = true →
              ∃ pd, pd? = some pd ∧ pd.status = .deletedAccount))
          lb (vrOf store lb probe now).1 ?_ ?_
        · intro p hp pd? bv uv hP pd' hpd'
          obtain ⟨hPs, hPd⟩ := hP
          rcases loopStep_status_until _ _ _ _ pd? bv uv p pd' hpd' with
            ⟨hnone, hfresh⟩ | ⟨pd0, hpd0, hcase⟩
          · constructor
            · intro pd hpd hs
              injection hpd with hpd
              subst hpd
              rw [hfresh] at hs
              cases hs
            · intro s hsT hsu hsd
              obtain ⟨pdx, hpdx, -⟩ := hPd s hsT hsu hsd
              rw [hnone] at hpdx
              cases hpdx
          · rcases hcase with ⟨hstq, hsuq⟩ |
              ⟨s, hfind, hsnew, hstb, hsub⟩ |
              ⟨s, hfind, hac, hstb, hsub⟩ |
              ⟨s, hfind, hcbf, hsnew, hsts, hsus⟩ |
              ⟨s, hfind, hcbf, hac, hsts, hsus⟩ |
              ⟨hnd0, hsta, hsua⟩
            · constructor
              · intro pd hpd hs
                injection hpd with hpd
                subst hpd
                rw [hstq] at hs
                rw [hsuq]
                exact hPs pd0 hpd0 hs
              · intro s hsT hsu hsd
                obtain ⟨pdx, hpdx, hdx⟩ := hPd s hsT hsu hsd
                rw [hpd0] at hpdx
                injection hpdx with hx
                refine ⟨pd', rfl, ?_⟩
                rw [hstq, hx]
                exact hdx
            · have hsmem : s ∈ (vrOf store lb probe now).2 :=
                List.mem_of_find?_eq_some hfind
              have hsid : s.userId = p.userId := by
                have := List.find?_some hfind
                exact eq_of_beq (by simpa using this)
              constructor
              · intro pd hpd hs
                injection hpd with hpd
                subst hpd
                rw [hstb] at hs
                cases hs
              · intro s' hs'T hs'u hs'd
                exfalso
                have hss' : s = s' :=
                  List.inj_on_of_nodup_map hndT hsmem hs'T (by rw [hsid, hs'u])
                have hx := (hwfT s hsmem).2 (by rw [hss']; exact hs'd)
                rw [hsnew] at hx
                cases hx
            · constructor
              · intro pd hpd hs
                injection hpd with hpd
                subst hpd
                rw [hstb] at hs
                cases hs
              · intro s' hs'T hs'u hs'd
                exfalso
                obtain ⟨pdx, hpdx, hdx⟩ := hPd s' hs'T hs'u hs'd
                rw [hpd0] at hpdx
                injection hpdx with hx
                rw [← hx, hac] at hdx
                cases hdx
            · have hsmem : s ∈ (vrOf store lb probe now).2 :=
                List.mem_of_find?_eq_some hfind
              have hsid : s.userId = p.userId := by
                have := List.find?_some hfind
                exact eq_of_beq (by simpa using this)
              have hsd : s.deletedAccount = false := by
                cases hx : s.deletedAccount
                · rfl
                · have hy := (hwfT s hsmem).2 hx
                  rw [hsnew] at hy
                  cases hy
              have hsusp : s.suspended = true := by
                have hor := ((hwfT s hsmem).1 hsd).2
                rw [hcbf] at hor
                simpa using hor
              have hio := ((hwfT s hsmem).1 hsd).1 hsusp
              constructor
              · intro pd hpd hs
                injection hpd with hpd
                subst hpd
                rw [hsus]
                exact hio
              · intro s' hs'T hs'u hs'd
                exfalso
                have hss' : s = s' :=
                  List.inj_on_of_nodup_map hndT hsmem hs'T (by rw [hsid, hs'u])
                have hx := (hwfT s hsmem).2 (by rw [hss']; exact hs'd)
                rw [hsnew] at hx
                cases hx
            · have hsmem : s ∈ (vrOf store lb probe now).2 :=
                List.mem_of_find?_eq_some hfind
              have hsid : s.userId = p.userId := by
                have := List.find?_some hfind
                exact eq_of_beq (by simpa using this)
              have hsd : s.deletedAccount = false := by
                cases hx : s.deletedAccount
                · rfl
                · exfalso
                  obtain ⟨pdx, hpdx, hdx⟩ := hPd s hsmem hsid hx
                  rw [hpd0] at hpdx
                  injection hpdx with hy
                  rw [← hy, hac] at hdx
                  cases hdx
              have hsusp : s.suspended = true := by
                have hor := ((hwfT s hsmem).1 hsd).2
                rw [hcbf] at hor
                simpa using hor
              have hio := ((hwfT s hsmem).1 hsd).1 hsusp
              constructor
              · intro pd hpd hs
                injection hpd with hpd
                subst hpd
                rw [hsus]
                exact hio
              · intro s' hs'T hs'u hs'd
                exfalso
                obtain ⟨pdx, hpdx, hdx⟩ := hPd s' hs'T hs'u hs'd
                rw [hpd0] at hpdx
                injection hpdx with hy
                rw [← hy, hac] at hdx
                cases hdx
            · constructor
              · intro pd hpd hs
                injection hpd with hpd
                subst hpd
                rw [hsta] at hs
                cases hs
              · intro s' hs'T hs'u hs'd
                exfalso
                obtain ⟨pdx, hpdx, hdx⟩ := hPd s' hs'T hs'u hs'd
                rw [hpd0] at hpdx
                injection hpdx with hy
                rw [← hy] at hdx
                exact hnd0 hdx
        · intro u
          refine ⟨h3 u, ?_⟩
          intro s hsT hsu hsd
          obtain ⟨pdx, hpdx, hdx⟩ := hdelT s hsT hsd
          rw [hsu] at hpdx
          exact ⟨pdx, hpdx, hdx⟩
      have h5 : ∀ u, suspInv (getPlayer (st7Of store lb probe now).players u) := by
        intro u
        show suspInv (getPlayer (sweepPlayers (lpOf store lb probe now).1.players now) u)
        rw [getPlayer_sweep]
        cases hx : getPlayer (lpOf store lb probe now).1.players u with
        | none =>
          intro pd hpd hs
          cases hpd
        | some pd0 =>
          exact suspInv_sweepOne now pd0
            (fun pd hpd hs => (h4 u).1 pd (by rw [hx]; exact hpd) hs)
      have h6 : ∀ u, suspInv (getPlayer (rvOf store lb probe now).1.players u) := by
        refine runPass_preserves _ _ (fun _ pd? => suspInv pd?) _ _ ?_ h5
        intro e he pd? bv uv hP pd' hpd'
        intro pd hpd hs
        injection hpd with hpd
        subst hpd
        rcases reverifyStep_pd_char probe now pd? bv uv e _ hpd' with hdel | ⟨hact2, -, -⟩
        · rw [hdel] at hs
          cases hs
        · rw [hact2] at hs
          cases hs
      have h7 : ∀ u, suspInv (getPlayer (st10Of store lb probe now).players u) := by
        unfold st10Of combinedBlock
        dsimp only
        by_cases hbn : ((((vrOf store lb probe now).2 ++ (rvOf store lb probe now).2).filter
            (fun s => s.isNewSanction && !s.deletedAccount)).isEmpty = true)
        · rw [if_pos hbn]
          exact h6
        · rw [if_neg hbn]
          refine banUpdate_preserves_suspInv now _ _ ?_ h6
          intro r hr
          have hrmem := List.mem_of_mem_filter hr
          have hpred := List.of_mem_filter hr
          have hda : r.deletedAccount = false := by
            simp only [Bool.and_eq_true, Bool.not_eq_true'] at hpred
            exact hpred.2
          rcases List.mem_append.mp hrmem with hin | hin
          · exact ⟨hda, hwfT r hin⟩
          · exact ⟨hda, reverify_results_wf probe now _ _ r hin⟩
      exact h7

/-- Witness for `c5_suspension_policy` at the concrete suspended-player
scenario. -/
theorem c5_suspension_policy_witness :
    ((([cLbP] : List LBPlayer).map LBPlayer.userId).Nodup) ∧
    (∀ u, suspInv (getPlayer
      (checkForBannedPlayers cStoreC5 [cLbP] cProbeActive cNow false).store.players u)) :=
  ⟨by decide,
    (c5_suspension_policy cStoreC5 [cLbP] cProbeActive cNow (by decide)
      (by
        intro u pd hpd hs
        have hpd' : getPlayer [("p", cPdSusp)] u = some pd := hpd
        by_cases h : "p" = u
        · subst h
          rw [getPlayer_cons, if_pos rfl] at hpd'
          injection hpd' with hpd'
          subst hpd'
          rfl
        · rw [getPlayer_cons, if_neg h] at hpd'
          cases hpd')).2.2⟩

/-- The entity is recorded as a deleted account in a players map. -/
def deletedIn (players : List (String × PlayerData)) (uid : String) : Prop :=
  ∃ pd, getPlayer players uid = some pd ∧ pd.status = .deletedAccount

/-- **C3** (amended).  A record persisted as `deleted_account` stays
deleted through a full cycle, and no event of any kind fires for it —
provided its probe does not report the entity as banned or suspended.
(The counterexample shows the proviso is real: the code trusts a
banned/suspended probe over the recorded deletion and re-sanctions the
entity, with a notification.) -/
theorem c3_deleted_terminal (store : Store) (lb : List LBPlayer)
    (probe : String → RawProbe) (now : Nat)
    (hprobe : ∀ uid, deletedIn store.players uid →
      ∀ act, activityOf (probe uid) now = some act →
        act.banned = false ∧ act.suspended = false) :
    (∀ uid, deletedIn store.players uid →
      deletedIn (checkForBannedPlayers store lb probe now false).store.players uid) ∧
    (∀ uid k, deletedIn store.players uid →
      (uid, k) ∉ (checkForBannedPlayers store lb probe now false).events) := by
  by_cases hlb : lb.isEmpty = true
  · have hcyc : checkForBannedPlayers store lb probe now false =
        { store := store, saves := [], events := [], errorMsgs := 1,
          infoMsgs := 0 } := by
      unfold checkForBannedPlayers
      rw [if_pos hlb]
    rw [hcyc]
    exact ⟨fun uid hdel => hdel, fun uid k _ hmem => by cases hmem⟩
  · have hlb' : lb.isEmpty = false := by
      cases hx : lb.isEmpty
      · rfl
      · exact absurd hx hlb
    -- the invariant threaded through the cycle
    have h0 : ∀ u, (deletedIn store.players u →
        ∃ pd, getPlayer store.players u = some pd ∧
          pd.status = Status.deletedAccount) :=
      fun u hdel => hdel
    have h1 : ∀ u, (deletedIn store.players u →
        ∃ pd, getPlayer (priorityOutcome store lb probe now).1.players u = some pd ∧
          pd.status = Status.deletedAccount) := by
      refine runPass_preserves _ _
        (fun uid pd? => deletedIn store.players uid →
          ∃ pd, pd? = some pd ∧ pd.status = Status.deletedAccount) _ _ ?_ h0
      intro mp hmp pd? bv uv hP pd' hpd' hdel
      exact ⟨pd', rfl, priorityStep_pd_char probe now pd? bv uv mp pd' hpd'⟩
    have hQ1 : ∀ r ∈ (priorityOutcome store lb probe now).2,
        ¬ deletedIn store.players r.userId := by
      refine runPass_results_prop _ _
        (fun uid pd? => deletedIn store.players uid →
          ∃ pd, pd? = some pd ∧ pd.status = Status.deletedAccount)
        (fun r => ¬ deletedIn store.players r.userId) _ _
        ?_ h0 ?_
      · intro mp hmp pd? bv uv hP pd' hpd' hdel
        exact ⟨pd', rfl, priorityStep_pd_char probe now pd? bv uv mp pd' hpd'⟩
      · intro mp hmp pd? bv uv hP r hres hdel
        obtain ⟨huid, hcase⟩ := priorityStep_res_char probe now pd? bv uv mp r hres
        rw [huid] at hdel
        rcases hcase with ⟨-, -, -, act, pd0, hact, -, hpd0, hnd0, -⟩ |
          ⟨-, -, -, act, pd0, hact, -, hbs, -, -, -, -, -⟩
        · obtain ⟨pdd, hpdd, hdd⟩ := hP hdel
          rw [hpd0] at hpdd
          injection hpdd with hx
          rw [← hx] at hdd
          exact hnd0 hdd
        · obtain ⟨hbf, hsf⟩ := hprobe mp.userId hdel act hact
          rw [hbf, hsf] at hbs
          cases hbs
    have h2 : ∀ u, (deletedIn store.players u →
        ∃ pd, getPlayer (stpOf store lb probe now).players u = some pd ∧
          pd.status = Status.deletedAccount) := by
      unfold stpOf priorityBlock
      by_cases he : (priorityOutcome store lb probe now).2.isEmpty = true
      · rw [if_pos he]
        exact h1
      · rw [if_neg he]
        dsimp only
        by_cases hb : (newBansOf (priorityOutcome store lb probe now).2).isEmpty = true
        · rw [if_pos hb]
          exact h1
        · rw [if_neg hb]
          refine runPass_preserves _ _
            (fun uid pd? => deletedIn store.players uid →
              ∃ pd, pd? = some pd ∧ pd.status = Status.deletedAccount) _ _ ?_ h1
          intro r hr pd? bv uv hP pd' hpd' hdel
          have hrmem : r ∈ (priorityOutcome store lb probe now).2 :=
            List.mem_of_mem_filter hr
          obtain ⟨pd0, hpd0, hcase⟩ := banUpdateStep_pd_char now pd? bv uv r pd' hpd'
          exact absurd hdel (hQ1 r hrmem)
    have h3 : ∀ u, (deletedIn store.players u →
        ∃ pd, getPlayer (vrOf store lb probe now).1.players u = some pd ∧
          pd.status = Status.deletedAccount) := by
      refine runPass_preserves _ _
        (fun uid pd? => deletedIn store.players uid →
          ∃ pd, pd? = some pd ∧ pd.status = Status.deletedAccount) _ _ ?_ h2
      intro p hp pd? bv uv hP pd' hpd' hdel
      rcases verifyAllStep_pd_char probe now pd? bv uv p pd' hpd' with hdd | ⟨hn, -⟩
      · exact ⟨pd', rfl, hdd⟩
      · obtain ⟨pdd, hpdd, -⟩ := hP hdel
        rw [hn] at hpdd
        cases hpdd
    have hQ2 : ∀ r ∈ (vrOf store lb probe now).2,
        ¬ deletedIn store.players r.userId := by
      refine runPass_results_prop _ _
        (fun uid pd? => deletedIn store.players uid →
          ∃ pd, pd? = some pd ∧ pd.status = Status.deletedAccount)
        (fun r => ¬ deletedIn store.players r.userId) _ _
        ?_ h2 ?_
      · intro p hp pd? bv uv hP pd' hpd' hdel
        rcases verifyAllStep_pd_char probe now pd? bv uv p pd' hpd' with hdd | ⟨hn, -⟩
        · exact ⟨pd', rfl, hdd⟩
        · obtain ⟨pdd, hpdd, -⟩ := hP hdel
          rw [hn] at hpdd
          cases hpdd
      · intro p hp pd? bv uv hP r hres hdel
        obtain ⟨huid, hcase⟩ := verifyAllStep_res_char probe now pd? bv uv p r hres
        rw [huid] at hdel
        rcases hcase with ⟨-, -, -, -, -, -, -, hnone⟩ |
          ⟨-, -, act, hact, -, hbs, -, -, -, -⟩
        · obtain ⟨pdd, hpdd, hdd⟩ := hP hdel
          exact hnone pdd hpdd hdd
        · obtain ⟨hbf, hsf⟩ := hprobe p.userId hdel act hact
          rw [hbf, hsf] at hbs
          cases hbs
    have hstepLoop : ∀ p ∈ lb, ∀ pd? bv uv,
        (deletedIn store.players p.userId →
          ∃ pd, pd? = some pd ∧ pd.status = Status.deletedAccount) →
        ∀ pd', (loopStep (vrOf store lb probe now).2
            (priorityOutcome store lb probe now).2
            (isFirstCheckAfterRestart store.lastCheck now) now pd? bv uv p).pd =
          some pd' →
        (deletedIn store.players p.userId →
          ∃ pd, some pd' = some pd ∧ pd.status = Status.deletedAccount) := by
      intro p hp pd? bv uv hP pd' hpd' hdel
      obtain ⟨pdd, hpdd, hdd⟩ := hP hdel
      subst hpdd
      have hfind : ∀ s, ((vrOf store lb probe now).2).find?
          (fun x => x.userId == p.userId) = some s → s.isNewSanction = false := by
        intro s hfs
        exfalso
        have hsmem := List.mem_of_find?_eq_some hfs
        have hsid : s.userId = p.userId := by
          have := List.find?_some hfs
          exact eq_of_beq (by simpa using this)
        exact hQ2 s hsmem (by rw [hsid]; exact hdel)
      obtain ⟨pd'', hpd'', hst'', -, -, -⟩ :=
        loopStep_deleted _ _ _ now pdd bv uv p hdd hfind
      rw [hpd'] at hpd''
      injection hpd'' with hx
      exact ⟨pd', rfl, by rw [hx]; exact hst''⟩
    have h4 : ∀ u, (deletedIn store.players u →
        ∃ pd, getPlayer (lpOf store lb probe now).1.players u = some pd ∧
          pd.status = Status.deletedAccount) := by
      refine runPass_preserves _ _
        (fun uid pd? => deletedIn store.players uid →
          ∃ pd, pd? = some pd ∧ pd.status = Status.deletedAccount) _ _ hstepLoop h3
    have h5 : ∀ u, (deletedIn store.players u →
        ∃ pd, getPlayer (st7Of store lb probe now).players u = some pd ∧
          pd.status = Status.deletedAccount) := by
      intro u hdel
      obtain ⟨pd, hpd, hdd⟩ := h4 u hdel
      refine ⟨sweepOne now pd, ?_, ?_⟩
      · show getPlayer (sweepPlayers (lpOf store lb probe now).1.players now) u =
          some (sweepOne now pd)
        rw [getPlayer_sweep, hpd]
        rfl
      · rw [sweepOne_of_not_susp now pd (by rw [hdd]; exact fun hc => Status.noConfusion hc)]
        exact hdd
    have hstepRev : ∀ e ∈ sanctOf store lb probe now, ∀ pd? bv uv,
        (deletedIn store.players e.userId →
          ∃ pd, pd? = some pd ∧ pd.status = Status.deletedAccount) →
        ∀ pd', (reverifyStep probe now pd? bv uv e).pd = some pd' →
        (deletedIn store.players e.userId →
          ∃ pd, some pd' = some pd ∧ pd.status = Status.deletedAccount) := by
      intro e he pd? bv uv hP pd' hpd' hdel
      rcases reverifyStep_pd_char probe now pd? bv uv e pd' hpd' with hdd |
        ⟨-, -, pData, hpData, hbs⟩
      · exact ⟨pd', rfl, hdd⟩
      · exfalso
        obtain ⟨pdd, hpdd, hddx⟩ := hP hdel
        rw [hpData] at hpdd
        injection hpdd with hx
        rw [← hx] at hddx
        rcases hbs with hb | hb
        · rw [hb] at hddx; cases hddx
        · rw [hb] at hddx; cases hddx
    have h6 : ∀ u, (deletedIn store.players u →
        ∃ pd, getPlayer (rvOf store lb probe now).1.players u = some pd ∧
          pd.status = Status.deletedAccount) := by
      refine runPass_preserves _ _
        (fun uid pd? => deletedIn store.players uid →
          ∃ pd, pd? = some pd ∧ pd.status = Status.deletedAccount) _ _ hstepRev h5
    have hQ4 : ∀ r ∈ (rvOf store lb probe now).2,
        ¬ deletedIn store.players r.userId := by
      refine runPass_results_prop _ _
        (fun uid pd? => deletedIn store.players uid →
          ∃ pd, pd? = some pd ∧ pd.status = Status.deletedAccount)
        (fun r => ¬ deletedIn store.players r.userId) _ _
        hstepRev h5 ?_
      intro e he pd? bv uv hP r hres hdel
      obtain ⟨huid, act, pData, hact, hpData, hcase⟩ :=
        reverifyStep_res_char probe now pd? bv uv e r hres
      rw [huid] at hdel
      obtain ⟨pdd, hpdd, hddx⟩ := hP hdel
      rw [hpData] at hpdd
      injection hpdd with hx
      rcases hcase with ⟨-, -, -, -, hnd0, -⟩ | ⟨-, -, -, -, hbs, -⟩
      · rw [← hx] at hddx
        exact hnd0 hddx
      · obtain ⟨hbf, hsf⟩ := hprobe e.userId hdel act hact
        rw [hbf, hsf] at hbs
        cases hbs
    have h7 : ∀ u, (deletedIn store.players u →
        ∃ pd, getPlayer (st10Of store lb probe now).players u = some pd ∧
          pd.status = Status.deletedAccount) := by
      unfold st10Of combinedBlock
      dsimp only
      by_cases hbn : ((((vrOf store lb probe now).2 ++ (rvOf store lb probe now).2).filter
          (fun s => s.isNewSanction && !s.deletedAccount)).isEmpty = true)
      · rw [if_pos hbn]
        exact h6
      · rw [if_neg hbn]
        refine runPass_preserves _ _
          (fun uid pd? => deletedIn store.players uid →
            ∃ pd, pd? = some pd ∧ pd.status = Status.deletedAccount) _ _ ?_ h6
        intro r hr pd? bv uv hP pd' hpd' hdel
        exfalso
        have hrmem := List.mem_of_mem_filter hr
        rcases List.mem_append.mp hrmem with hin | hin
        · exact hQ2 r hin hdel
        · exact hQ4 r hin hdel
    -- no event concerns a deleted entity
    have hE7 : ∀ e ∈ (st10Of store lb probe now).events, ¬ deletedIn store.players e.1 := by
      have hEstp : ∀ e ∈ (stpOf store lb probe now).events,
          ¬ deletedIn store.players e.1 := by
        intro e he
        unfold stpOf at he
        rw [priorityBlock_events] at he
        have hprio_ev : (priorityOutcome store lb probe now).1.events = [] := by
          unfold priorityOutcome
          rw [runPass_events_of_no_evs _ _
            (fun pd? bv uv a => (priorityStep_effects probe now pd? bv uv a).2.2)]
        rcases List.mem_append.mp he with hin | hin
        · rcases List.mem_append.mp hin with hin2 | hin2
          · rw [hprio_ev] at hin2
            cases hin2
          · obtain ⟨r, hrmem, hre⟩ := List.mem_map.mp hin2
            rw [← hre]
            exact hQ1 r (List.mem_of_mem_filter hrmem)
        · obtain ⟨r, hrmem, hre⟩ := List.mem_map.mp hin
          rw [← hre]
          exact hQ1 r (List.mem_of_mem_filter hrmem)
      have hEvr : ∀ e ∈ (vrOf store lb probe now).1.events,
          ¬ deletedIn store.players e.1 := by
        intro e he
        rw [show (vrOf store lb probe now).1.events =
            (stpOf store lb probe now).events from
          runPass_events_of_no_evs _ _
            (fun pd? bv uv a => (verifyAllStep_effects probe now pd? bv uv a).2.2) _ _] at he
        exact hEstp e he
      have hElp : ∀ e ∈ (lpOf store lb probe now).1.events,
          ¬ deletedIn store.players e.1 := by
        refine runPass_events_prop _ _
          (fun uid pd? => deletedIn store.players uid →
            ∃ pd, pd? = some pd ∧ pd.status = Status.deletedAccount)
          (fun e => ¬ deletedIn store.players e.1) _ _
          hstepLoop h3 ?_ hEvr
        intro p hp pd? bv uv hP k hk hdel
        rcases loopStep_evs_key (vrOf store lb probe now).2
            (priorityOutcome store lb probe now).2
            (isFirstCheckAfterRestart store.lastCheck now) now pd? bv uv p with
          ⟨hnil, -⟩ | ⟨-, -, -, -, ⟨pd0, hpd0, hbs⟩, -⟩
        · rw [hnil] at hk
          cases hk
        · obtain ⟨pdd, hpdd, hddx⟩ := hP hdel
          rw [hpd0] at hpdd
          injection hpdd with hx
          rw [← hx] at hddx
          rcases hbs with hb | hb | hb
          all_goals rw [hb] at hddx
          all_goals cases hddx
      have hEst7 : ∀ e ∈ (st7Of store lb probe now).events,
          ¬ deletedIn store.players e.1 := by
        intro e he
        exact hElp e he
      have hErv : ∀ e ∈ (rvOf store lb probe now).1.events,
          ¬ deletedIn store.players e.1 := by
        refine runPass_events_prop _ _
          (fun uid pd? => deletedIn store.players uid →
            ∃ pd, pd? = some pd ∧ pd.status = Status.deletedAccount)
          (fun e => ¬ deletedIn store.players e.1) _ _
          hstepRev h5 ?_ hEst7
        intro e he pd? bv uv hP k hk hdel
        rcases reverifyStep_restored probe now pd? bv uv e with
          ⟨hnil, -⟩ | ⟨-, -, ⟨pData, hpData, hbs⟩, -⟩
        · rw [hnil] at hk
          cases hk
        · obtain ⟨pdd, hpdd, hddx⟩ := hP hdel
          rw [hpData] at hpdd
          injection hpdd with hx
          rw [← hx] at hddx
          rcases hbs with hb | hb
          all_goals rw [hb] at hddx
          all_goals cases hddx
      intro e he
      unfold st10Of at he
      rw [combinedBlock_events] at he
      rcases List.mem_append.mp he with hin | hin
      · rcases List.mem_append.mp hin with hin2 | hin2
        · exact hErv e hin2
        · obtain ⟨r, hrmem, hre⟩ := List.mem_map.mp hin2
          rw [← hre]
          rcases List.mem_append.mp (List.mem_of_mem_filter hrmem) with h | h
          · exact hQ2 r h
          · exact hQ4 r h
      · obtain ⟨r, hrmem, hre⟩ := List.mem_map.mp hin
        rw [← hre]
        rcases List.mem_append.mp (List.mem_of_mem_filter hrmem) with h | h
        · exact hQ2 r h
        · exact hQ4 r h
    constructor
    · intro uid hdel
      rw [cycle_store_of_ok store lb probe now hlb']
      exact h7 uid hdel
    · intro uid k hdel hmem
      rw [cycle_events_of_ok store lb probe now hlb'] at hmem
      exact hE7 (uid, k) hmem hdel

/-- Witness for `c3_deleted_terminal`: the deleted player `p` stays
deleted through a cycle whose probe reports it unsanctioned. -/
theorem c3_deleted_terminal_witness :
    deletedIn cStoreC3.players "p" ∧
    deletedIn (checkForBannedPlayers cStoreC3 [cLbP] cProbeActive cNow
      false).store.players "p" :=
  ⟨⟨cPdDeleted, rfl, rfl⟩,
    (c3_deleted_terminal cStoreC3 [cLbP] cProbeActive cNow
      (fun _ _ act hact => by
        have hx := Option.some.inj hact
        subst hx
        exact ⟨rfl, rfl⟩)).1 "p" ⟨cPdDeleted, rfl, rfl⟩⟩

/-- A first-occurrence ban update writes a record that agrees with the
probe outcome the result was built from. -/
theorem banUpdateStep_matches (now : Nat) (pd : PlayerData) (r : PassResult)
    (act : Activity)
    (hcb : r.confirmedBanned = act.banned) (hsp : r.suspended = act.suspended)
    (hsu : r.suspendedUntil = act.suspendedUntil) (hd : act.deleted = false)
    (hbs : (act.banned || act.suspended) = true) :
    ∃ pd', (banUpdateStep now (some pd) (fun _ => false) (fun _ => false) r).pd =
      some pd' ∧ matchesAct pd' act := by
  unfold banUpdateStep
  rw [if_pos rfl]
  dsimp only
  cases hbe : act.banned with
  | true =>
    rw [if_pos (by rw [hcb, hbe])]
    refine ⟨_, rfl, ?_⟩
    refine ⟨(by intro hdd; rw [hd] at hdd; cases hdd), (fun _ _ => rfl), ?_, ?_⟩
    · intro _ hb2 _; rw [hbe] at hb2; cases hb2
    · intro _ hb2 _; rw [hbe] at hb2; cases hb2
  | false =>
    have hse : act.suspended = true := by
      rw [hbe] at hbs; simpa using hbs
    rw [if_neg (by rw [hcb, hbe]; exact fun hc => Bool.noConfusion hc),
      if_pos (by rw [hsp, hse])]
    refine ⟨_, rfl, ?_⟩
    refine ⟨(by intro hdd; rw [hd] at hdd; cases hdd), ?_, ?_, ?_⟩
    · intro _ hb2; rw [hbe] at hb2; cases hb2
    · intro _ _ _; exact ⟨rfl, hsu⟩
    · intro _ _ hs2; rw [hse] at hs2; cases hs2

/-- Per-kind projection of the events of a pass whose handlers emit at
most one event per element. -/
theorem projEv_passEvents {α : Type} (uidOf : α → String) (f : LocalStep α)
    (ps : List (String × PlayerData)) (k : EKind) :
    ∀ l : List α,
      (∀ a ∈ l, (localOut uidOf f ps a).evs = [] ∨
        ∃ k0, (localOut uidOf f ps a).evs = [k0]) →
      projEv k (passEventsOf uidOf f ps l) =
        l.filterMap (fun a =>
          if k ∈ (localOut uidOf f ps a).evs then some (uidOf a) else none) := by
  intro l
  induction l with
  | nil => intro _; rfl
  | cons a rest ih =>
    intro hone
    have hl : passEventsOf uidOf f ps (a :: rest) =
        ((localOut uidOf f ps a).evs).map (fun k0 => (uidOf a, k0)) ++
          passEventsOf uidOf f ps rest := by
      unfold passEventsOf
      rw [List.flatMap_cons]
    rw [hl, projEv_append, List.filterMap_cons,
      ih (fun a' ha' => hone a' (List.mem_cons_of_mem _ ha'))]
    rcases hone a (List.mem_cons_self _ _) with hnil | ⟨k0, hk0⟩
    · rw [hnil]
      simp [projEv]
    · rw [hk0]
      have hsing : projEv k (List.map (fun k1 => (uidOf a, k1)) [k0]) =
          if k = k0 then [uidOf a] else [] := by
        show projEv k [(uidOf a, k0)] = _
        unfold projEv
        rw [List.filterMap_cons]
        dsimp only
        by_cases h : k0 = k
        · subst h
          rw [if_pos rfl, if_pos rfl]
          rfl
        · rw [if_neg h, if_neg (fun hh => h hh.symm)]
          rfl
      rw [hsing]
      by_cases hkk : k = k0
      · subst hkk
        rw [if_pos rfl, if_pos (List.mem_singleton.mpr rfl)]
        rfl
      · rw [if_neg hkk, if_neg (fun hmem => hkk (List.mem_singleton.mp hmem))]
        rfl

/-- The missing-entity selection carries pairwise distinct ids when the
store does. -/
theorem missing_nodup (store : Store) (lb : List LBPlayer) (now : Nat)
    (hnds : (store.players.map Prod.fst).Nodup) :
    ((missingPlayersOf store.players lb now).map MissingP.userId).Nodup := by
  refine nodup_filterMap_map store.players _ MissingP.userId Prod.fst ?_ hnds
  intro p mp hg
  by_cases hC : now - 6 * 60 * 60 * 1000 < p.2.lastSeen ∧ p.2.status = Status.active ∧
      ¬ (lb.any (fun q => q.userId == p.1)) = true
  · rw [if_pos hC] at hg
    dsimp only at hg
    by_cases hH : 1 ≤ (now - p.2.lastSeen) / (60 * 60 * 1000) ∧
        (now - p.2.lastSeen) / (60 * 60 * 1000) < 24
    · rw [if_pos hH] at hg
      injection hg with hg'
      subst hg'
      rfl
    · rw [if_neg hH] at hg
      cases hg
  · rw [if_neg hC] at hg
    cases hg

/-- Priority-pass results carry pairwise distinct ids when the store
does. -/
theorem priority_results_nodup (store : Store) (lb : List LBPlayer)
    (probe : String → RawProbe) (now : Nat)
    (hnds : (store.players.map Prod.fst).Nodup) :
    ((priorityOutcome store lb probe now).2.map PassResult.userId).Nodup := by
  have hchar := (runPass_char (·.userId) (priorityStep probe now)
    (missingPlayersOf store.players lb now) ⟨store.players, [], [], []⟩
    (missing_nodup store lb now hnds)
    (fun mp _ => priorityStep_insensitive probe now _ mp)).1
  show ((runPass (·.userId) (priorityStep probe now)
    (missingPlayersOf store.players lb now) ⟨store.players, [], [], []⟩).2.map
      PassResult.userId).Nodup
  rw [hchar]
  exact nodup_filterMap_map _ _ PassResult.userId MissingP.userId
    (fun mp r h => (priorityStep_res_char probe now _ _ _ mp r h).1)
    (missing_nodup store lb now hnds)

/-- Priority-pass results concern entities absent from the snapshot. -/
theorem priority_results_off_lb (store : Store) (lb : List LBPlayer)
    (probe : String → RawProbe) (now : Nat) :
    ∀ r ∈ (priorityOutcome store lb probe now).2, ∀ q ∈ lb, r.userId ≠ q.userId := by
  refine runPass_results_prop _ _ (fun _ _ => True)
    (fun r => ∀ q ∈ lb, r.userId ≠ q.userId) _ _
    (fun _ _ _ _ _ _ _ _ => trivial) (fun _ => trivial) ?_
  intro mp hmp pd? bv uv _ r hres q hq he
  have huid := (priorityStep_res_char probe now pd? bv uv mp r hres).1
  have hany := (mem_missingPlayersOf hmp).2.2
  have : lb.any (fun q' => q'.userId == mp.userId) = true :=
    List.any_eq_true.mpr ⟨q, hq, by rw [← huid, ← he]; exact beq_self_eq_true _⟩
  rw [hany] at this
  cases this

/-- Hence the priority loop-skip test is vacuous for snapshot
entities. -/
theorem priority_not_already (store : Store) (lb : List LBPlayer)
    (probe : String → RawProbe) (now : Nat) (p : LBPlayer) (hp : p ∈ lb) :
    (priorityOutcome store lb probe now).2.any (fun s => s.userId == p.userId) =
      false := by
  cases hx : (priorityOutcome store lb probe now).2.any
      (fun s => s.userId == p.userId) with
  | false => rfl
  | true =>
    obtain ⟨r, hr, hbeq⟩ := List.any_eq_true.mp hx
    exact absurd (eq_of_beq hbeq)
      (priority_results_off_lb store lb probe now r hr p hp)

/-- No unban key exists before the reconciliation loop runs. -/
theorem vrOf_unbanKeys (store : Store) (lb : List LBPlayer) (probe : String → RawProbe)
    (now : Nat) : (vrOf store lb probe now).1.unbanKeys = [] := by
  show (runPass (·.userId) (verifyAllStep probe now) lb
    (stpOf store lb probe now)).1.unbanKeys = []
  rw [runPass_unbanKeys_of_none _ _
    (fun pd? bv uv a => (verifyAllStep_effects probe now pd? bv uv a).2.1)]
  show (stpOf store lb probe now).unbanKeys = []
  unfold stpOf
  rw [priorityBlock_unbanKeys]
  show (runPass (·.userId) (priorityStep probe now)
    (missingPlayersOf store.players lb now) ⟨store.players, [], [], []⟩).1.unbanKeys = []
  rw [runPass_unbanKeys_of_none _ _
    (fun pd? bv uv a => (priorityStep_effects probe now pd? bv uv a).2.1)]

/-- The players-map keys stay duplicate-free up to the sweep. -/
theorem st7_keys_nodup (store : Store) (lb : List LBPlayer) (probe : String → RawProbe)
    (now : Nat) (hnds : (store.players.map Prod.fst).Nodup) :
    ((st7Of store lb probe now).players.map Prod.fst).Nodup := by
  show ((sweepPlayers (lpOf store lb probe now).1.players now).map Prod.fst).Nodup
  rw [map_fst_sweep]
  unfold lpOf vrOf stpOf priorityOutcome
  exact runPass_nodup_keys _ _ lb _ (runPass_nodup_keys _ _ lb _
    (priorityBlock_nodup _ _ _ (runPass_nodup_keys _ _ _ _ hnds)))

/-- The re-verification selection carries pairwise distinct ids. -/
theorem sanct_nodup (store : Store) (lb : List LBPlayer) (probe : String → RawProbe)
    (now : Nat) (hnds : (store.players.map Prod.fst).Nodup) :
    ((sanctOf store lb probe now).map SanctionedP.userId).Nodup := by
  show (((st7Of store lb probe now).players.filterMap _).map SanctionedP.userId).Nodup
  refine nodup_filterMap_map _ _ SanctionedP.userId Prod.fst ?_
    (st7_keys_nodup store lb probe now hnds)
  intro p e hg
  by_cases hC : (p.2.status = Status.suspended ∨ p.2.status = Status.banned) ∧
      p.2.status ≠ Status.deletedAccount ∧
      now - 7 * 24 * 60 * 60 * 1000 < p.2.lastSeen
  · rw [if_pos hC] at hg
    injection hg with hg'
    subst hg'
    rfl
  · rw [if_neg hC] at hg
    cases hg

/-- The loop handler ignores the ban-key view. -/
theorem loopStep_bans_insensitive (t pr : List PassResult) (fc : Bool) (now : Nat) :
    ∀ (pd? : Option PlayerData) (bv bv' uv : Bool → Bool) (p : LBPlayer),
      loopStep t pr fc now pd? bv uv p = loopStep t pr fc now pd? bv' uv p :=
  fun _ _ _ _ _ => rfl

/-- The re-verification handler ignores the ban-key view. -/
theorem reverifyStep_bans_insensitive (probe : String → RawProbe) (now : Nat) :
    ∀ (pd? : Option PlayerData) (bv bv' uv : Bool → Bool) (e : SanctionedP),
      reverifyStep probe now pd? bv uv e = reverifyStep probe now pd? bv' uv e :=
  fun _ _ _ _ _ => rfl

/-- The loop's closed forms: events appended per snapshot entity, unban
keys exactly those the handlers add, records rewritten per entity. -/
theorem lp_events (store : Store) (lb : List LBPlayer) (probe : String → RawProbe)
    (now : Nat) (hndl : (lb.map LBPlayer.userId).Nodup) :
    (lpOf store lb probe now).1.events =
      (vrOf store lb probe now).1.events ++
        passEventsOf (·.userId)
          (loopStep (vrOf store lb probe now).2 (priorityOutcome store lb probe now).2
            (isFirstCheckAfterRestart store.lastCheck now) now)
          (vrOf store lb probe now).1.players lb :=
  (runPass_char _ _ lb (vrOf store lb probe now).1 hndl
    (fun p _ => localApp_of_unban_fresh _ _ _ _
      (loopStep_bans_insensitive _ _ _ _)
      (fun b => by rw [vrOf_unbanKeys]; rfl))).2.1

/-- The unban keys present after the loop. -/
theorem lp_unbanKeys (store : Store) (lb : List LBPlayer) (probe : String → RawProbe)
    (now : Nat) (hndl : (lb.map LBPlayer.userId).Nodup) :
    (lpOf store lb probe now).1.unbanKeys =
      passUnbanKeysOf (·.userId)
        (loopStep (vrOf store lb probe now).2 (priorityOutcome store lb probe now).2
          (isFirstCheckAfterRestart store.lastCheck now) now)
        (vrOf store lb probe now).1.players lb := by
  have h := (runPass_char (·.userId)
    (loopStep (vrOf store lb probe now).2 (priorityOutcome store lb probe now).2
      (isFirstCheckAfterRestart store.lastCheck now) now) lb
    (vrOf store lb probe now).1 hndl
    (fun p _ => localApp_of_unban_fresh _ _ _ _
      (loopStep_bans_insensitive _ _ _ _)
      (fun b => by rw [vrOf_unbanKeys]; rfl))).2.2.2
  rw [show (lpOf store lb probe now).1.unbanKeys =
    (runPass (·.userId)
      (loopStep (vrOf store lb probe now).2 (priorityOutcome store lb probe now).2
        (isFirstCheckAfterRestart store.lastCheck now) now) lb
      (vrOf store lb probe now).1).1.unbanKeys from rfl, h, vrOf_unbanKeys]
  rfl

/-- The record a snapshot entity ends the loop with. -/
theorem lp_getPlayer_mem (store : Store) (lb : List LBPlayer) (probe : String → RawProbe)
    (now : Nat) (hndl : (lb.map LBPlayer.userId).Nodup) (p : LBPlayer) (hp : p ∈ lb) :
    getPlayer (lpOf store lb probe now).1.players p.userId =
      (match (localOut (·.userId)
          (loopStep (vrOf store lb probe now).2 (priorityOutcome store lb probe now).2
            (isFirstCheckAfterRestart store.lastCheck now) now)
          (vrOf store lb probe now).1.players p).pd with
       | some pd => some pd
       | none => getPlayer (vrOf store lb probe now).1.players p.userId) :=
  runPass_getPlayer_mem _ _ lb (vrOf store lb probe now).1 hndl
    (fun q _ => localApp_of_unban_fresh _ _ _ _
      (loopStep_bans_insensitive _ _ _ _)
      (fun b => by rw [vrOf_unbanKeys]; rfl)) p hp

/-- Lookups after the sweep are the swept lookups. -/
theorem st7_getPlayer (store : Store) (lb : List LBPlayer) (probe : String → RawProbe)
    (now : Nat) (u : String) :
    getPlayer (st7Of store lb probe now).players u =
      (getPlayer (lpOf store lb probe now).1.players u).map (sweepOne now) :=
  getPlayer_sweep _ _ _

/-- An entity whose post-sweep record is neither banned nor suspended
is not selected for re-verification. -/
theorem sanct_excludes (store : Store) (lb : List LBPlayer) (probe : String → RawProbe)
    (now : Nat) (hnds : (store.players.map Prod.fst).Nodup) (uid : String)
    (pdx : PlayerData)
    (hget : getPlayer (st7Of store lb probe now).players uid = some pdx)
    (hnb : pdx.status ≠ .banned) (hns : pdx.status ≠ .suspended) :
    ∀ e ∈ sanctOf store lb probe now, e.userId ≠ uid := by
  intro e he heq
  obtain ⟨pd, hmem, hst, hsu, hbs⟩ := mem_existingSanctionedOf he
  have hg := getPlayer_of_mem (st7_keys_nodup store lb probe now hnds) hmem
  rw [heq, hget] at hg
  injection hg with hg
  rcases hbs with h | h
  · exact hns (by rw [hg]; exact h)
  · exact hnb (by rw [hg]; exact h)

/-- For every selected entity, its unban keys are fresh at the
re-verification pass, so the closed forms apply. -/
theorem rev_hloc (store : Store) (lb : List LBPlayer) (probe : String → RawProbe)
    (now : Nat) (hnds : (store.players.map Prod.fst).Nodup)
    (hndl : (lb.map LBPlayer.userId).Nodup) :
    ∀ e ∈ sanctOf store lb probe now,
      localApp (·.userId) (reverifyStep probe now) (st7Of store lb probe now) e =
        localOut (·.userId) (reverifyStep probe now)
          (st7Of store lb probe now).players e := by
  intro e he
  refine localApp_of_unban_fresh _ _ _ _ (reverifyStep_bans_insensitive probe now) ?_
  intro b
  cases hk : hasKey (st7Of store lb probe now).unbanKeys e.userId b with
  | false => rfl
  | true =>
    exfalso
    have hmem := (hasKey_iff_mem _ _ _).mp hk
    have hmem' : (e.userId, b) ∈ passUnbanKeysOf (·.userId)
        (loopStep (vrOf store lb probe now).2 (priorityOutcome store lb probe now).2
          (isFirstCheckAfterRestart store.lastCheck now) now)
        (vrOf store lb probe now).1.players lb := by
      have hsame : (st7Of store lb probe now).unbanKeys =
          (lpOf store lb probe now).1.unbanKeys := rfl
      rw [hsame, lp_unbanKeys store lb probe now hndl] at hmem
      exact hmem
    obtain ⟨p, hp, hpu, hkey⟩ := (mem_passUnbanKeysOf _ _ _ _ _ _).mp hmem'
    rcases loopStep_evs_key (vrOf store lb probe now).2
        (priorityOutcome store lb probe now).2
        (isFirstCheckAfterRestart store.lastCheck now) now
        (getPlayer (vrOf store lb probe now).1.players p.userId)
        (fun _ => false) (fun _ => false) p with
      ⟨-, hnone⟩ | ⟨-, -, -, -, -, pd', hpd', hact⟩
    · have h2 : (loopStep (vrOf store lb probe now).2
          (priorityOutcome store lb probe now).2
          (isFirstCheckAfterRestart store.lastCheck now) now
          (getPlayer (vrOf store lb probe now).1.players p.userId)
          (fun _ => false) (fun _ => false) p).addUnbanKey = some b := hkey
      rw [h2] at hnone
      cases hnone
    · have hg : getPlayer (lpOf store lb probe now).1.players p.userId = some pd' := by
        rw [lp_getPlayer_mem store lb probe now hndl p hp]
        have h2 : (localOut (·.userId)
            (loopStep (vrOf store lb probe now).2
              (priorityOutcome store lb probe now).2
              (isFirstCheckAfterRestart store.lastCheck now) now)
            (vrOf store lb probe now).1.players p).pd = some pd' := hpd'
        rw [h2]
      have hsw : sweepOne now pd' = pd' :=
        sweepOne_of_not_susp now pd'
          (by rw [hact]; exact fun hc => Status.noConfusion hc)
      have hst7 : getPlayer (st7Of store lb probe now).players p.userId =
          some pd' := by
        rw [st7_getPlayer, hg]
        show some (sweepOne now pd') = some pd'
        rw [hsw]
      exact sanct_excludes store lb probe now hnds p.userId pd' hst7
        (by rw [hact]; exact fun hc => Status.noConfusion hc)
        (by rw [hact]; exact fun hc => Status.noConfusion hc) e he hpu.symm

/-- The re-verification pass events, in closed form. -/
theorem rv_events (store : Store) (lb : List LBPlayer) (probe : String → RawProbe)
    (now : Nat) (hnds : (store.players.map Prod.fst).Nodup)
    (hndl : (lb.map LBPlayer.userId).Nodup) :
    (rvOf store lb probe now).1.events =
      (st7Of store lb probe now).events ++
        passEventsOf (·.userId) (reverifyStep probe now)
          (st7Of store lb probe now).players (sanctOf store lb probe now) :=
  (runPass_char _ _ _ _ (sanct_nodup store lb probe now hnds)
    (rev_hloc store lb probe now hnds hndl)).2.1

/-- The re-verification pass results, in closed form. -/
theorem rv_results (store : Store) (lb : List LBPlayer) (probe : String → RawProbe)
    (now : Nat) (hnds : (store.players.map Prod.fst).Nodup)
    (hndl : (lb.map LBPlayer.userId).Nodup) :
    (rvOf store lb probe now).2 =
      passResultsOf (·.userId) (reverifyStep probe now)
        (st7Of store lb probe now).players (sanctOf store lb probe now) :=
  (runPass_char _ _ _ _ (sanct_nodup store lb probe now hnds)
    (rev_hloc store lb probe now hnds hndl)).1

/-- The ban-update handler ignores the unban-key view. -/
theorem banUpdateStep_unban_insensitive (now : Nat) :
    ∀ (pd? : Option PlayerData) (bv uv uv' : Bool → Bool) (r : PassResult),
      banUpdateStep now pd? bv uv r = banUpdateStep now pd? bv uv' r :=
  fun _ _ _ _ _ => rfl

/-- The priority pass results, in closed form. -/
theorem priority_results (store : Store) (lb : List LBPlayer)
    (probe : String → RawProbe) (now : Nat)
    (hnds : (store.players.map Prod.fst).Nodup) :
    (priorityOutcome store lb probe now).2 =
      passResultsOf (·.userId) (priorityStep probe now) store.players
        (missingPlayersOf store.players lb now) := by
  unfold priorityOutcome
  exact (runPass_char (·.userId) (priorityStep probe now)
    (missingPlayersOf store.players lb now) ⟨store.players, [], [], []⟩
    (missing_nodup store lb now hnds)
    (fun mp _ => priorityStep_insensitive probe now _ mp)).1

/-- The record a missing entity ends the priority pass with. -/
theorem priority_getPlayer_mem (store : Store) (lb : List LBPlayer)
    (probe : String → RawProbe) (now : Nat)
    (hnds : (store.players.map Prod.fst).Nodup)
    (mp : MissingP) (hmp : mp ∈ missingPlayersOf store.players lb now) :
    getPlayer (priorityOutcome store lb probe now).1.players mp.userId =
      (match (localOut (·.userId) (priorityStep probe now) store.players mp).pd with
       | some pd => some pd
       | none => getPlayer store.players mp.userId) := by
  unfold priorityOutcome
  exact runPass_getPlayer_mem (·.userId) (priorityStep probe now)
    (missingPlayersOf store.players lb now) ⟨store.players, [], [], []⟩
    (missing_nodup store lb now hnds)
    (fun mq _ => priorityStep_insensitive probe now _ mq) mp hmp

/-- A key-preserving `filterMap` into ids keeps them
duplicate-free. -/
theorem nodup_filterMap_uid {α : Type} (l : List α) (g : α → Option String)
    (k : α → String) (hg : ∀ a b, g a = some b → b = k a)
    (hnd : (l.map k).Nodup) : (l.filterMap g).Nodup := by
  induction l with
  | nil => exact List.nodup_nil
  | cons a rest ih =>
    rw [List.map_cons, List.nodup_cons] at hnd
    rw [List.filterMap_cons]
    match hga : g a with
    | none => exact ih hnd.2
    | some b =>
      rw [List.nodup_cons]
      refine ⟨fun hmem => ?_, ih hnd.2⟩
      obtain ⟨a', ha', hga'⟩ := List.mem_filterMap.mp hmem
      have h1 := hg a b hga
      have h2 := hg a' b hga'
      exact hnd.1 (by rw [← h1, h2]; exact List.mem_map.mpr ⟨a', ha', rfl⟩)

/-- Projecting a one-kind notification batch. -/
theorem projEv_map_results (k k0 : EKind) (rs : List PassResult) :
    projEv k (rs.map (fun r => (r.userId, k0))) =
      if k = k0 then rs.map PassResult.userId else [] := by
  rw [show rs.map (fun r => (r.userId, k0)) =
    (rs.map PassResult.userId).map (fun u => (u, k0)) from by rw [List.map_map]; rfl]
  exact projEv_map_pair k k0 _

/-- A pass whose handlers only ever emit the restored event projects to
nothing under any other kind. -/
theorem projEv_pass_of_only_restored {α : Type} (uidOf : α → String) (f : LocalStep α)
    (ps : List (String × PlayerData)) (l : List α) (k : EKind)
    (hk : k ≠ EKind.restored)
    (hone : ∀ a ∈ l, (localOut uidOf f ps a).evs = [] ∨
      (localOut uidOf f ps a).evs = [.restored]) :
    projEv k (passEventsOf uidOf f ps l) = [] := by
  rw [projEv_passEvents uidOf f ps k l
    (fun a ha => (hone a ha).elim Or.inl (fun h => Or.inr ⟨_, h⟩))]
  refine List.filterMap_eq_nil_iff.mpr (fun a ha => ?_)
  rcases hone a ha with h | h
  · rw [h, if_neg (by simp)]
  · rw [h, if_neg (by simpa using hk)]

/-- Full-population results concern snapshot entities. -/
theorem t_uid_on_lb (store : Store) (lb : List LBPlayer) (probe : String → RawProbe)
    (now : Nat) (hndl : (lb.map LBPlayer.userId).Nodup) :
    ∀ s ∈ (vrOf store lb probe now).2, ∃ p ∈ lb, s.userId = p.userId := by
  intro s hs
  rw [vrOf_results store lb probe now hndl] at hs
  obtain ⟨p, hp, hres⟩ := List.mem_filterMap.mp hs
  exact ⟨p, hp, (verifyAllStep_res_char probe now _ _ _ p s hres).1⟩

/-- Re-verification results carry pairwise distinct ids. -/
theorem rv_results_nodup (store : Store) (lb : List LBPlayer)
    (probe : String → RawProbe) (now : Nat)
    (hnds : (store.players.map Prod.fst).Nodup)
    (hndl : (lb.map LBPlayer.userId).Nodup) :
    (((rvOf store lb probe now).2).map PassResult.userId).Nodup := by
  rw [rv_results store lb probe now hnds hndl]
  exact nodup_filterMap_map _ _ PassResult.userId SanctionedP.userId
    (fun e r h => (reverifyStep_res_char probe now _ _ _ e r h).1)
    (sanct_nodup store lb probe now hnds)

/-- After the loop, the record of the entity behind a full-population
sanction result agrees with that entity's probe outcome. -/
theorem t_sanction_matches (store : Store) (lb : List LBPlayer)
    (probe : String → RawProbe) (now : Nat)
    (hnds : (store.players.map Prod.fst).Nodup)
    (hndl : (lb.map LBPlayer.userId).Nodup)
    (s : PassResult) (hsT : s ∈ (vrOf store lb probe now).2)
    (hda : s.deletedAccount = false) :
    ∃ act pd7, activityOf (probe s.userId) now = some act ∧ act.deleted = false ∧
      getPlayer (st7Of store lb probe now).players s.userId = some pd7 ∧
      matchesAct pd7 act := by
  have hndT : (((vrOf store lb probe now).2).map PassResult.userId).Nodup :=
    vrOf_results_nodup store lb probe now hndl
  have hsT' := hsT
  rw [vrOf_results store lb probe now hndl] at hsT'
  obtain ⟨p, hp, hres⟩ := List.mem_filterMap.mp hsT'
  obtain ⟨huid, hcase⟩ := verifyAllStep_res_char probe now _ _ _ p s hres
  rcases hcase with ⟨hda', -⟩ | ⟨-, -, act, hact, hdel, hbs, hcb, hsp, hsu, prev, hprevcase, hisNew⟩
  · rw [hda'] at hda
    cases hda
  · -- the record after the full-population pass is `prev`
    have hgC : getPlayer (vrOf store lb probe now).1.players p.userId = some prev := by
      rw [vrOf_getPlayer_mem store lb probe now hndl p hp]
      rcases hprevcase with ⟨hprev_eq, hpd_none⟩ | ⟨hpd?none, hprevfresh, hpd_some⟩
      · have h2 : (localOut (·.userId) (verifyAllStep probe now)
            (stpOf store lb probe now).players p).pd = none := hpd_none
        rw [h2]
        exact hprev_eq
      · have h2 : (localOut (·.userId) (verifyAllStep probe now)
            (stpOf store lb probe now).players p).pd = some prev := hpd_some
        rw [h2]
    -- the loop finds exactly `s` and leaves a matching record
    have hfind : ((vrOf store lb probe now).2).find?
        (fun x => x.userId == p.userId) = some s := by
      have hpeq : (fun (x : PassResult) => x.userId == p.userId) =
          (fun (x : PassResult) => x.userId == s.userId) := by
        funext x
        rw [huid]
      rw [hpeq]
      exact find?_userId_eq_of_mem hsT hndT
    have halready := priority_not_already store lb probe now p hp
    have hnew : s.isNewSanction = false →
        (act.banned = true → prev.status = .banned) ∧
        (act.banned = false → prev.status = .suspended ∧
          prev.suspendedUntil = act.suspendedUntil) := by
      intro hisf
      rw [hisf] at hisNew
      constructor
      · intro hbe
        rw [if_pos hbe] at hisNew
        have := of_decide_eq_false hisNew.symm
        by_cases h : prev.status = Status.banned
        · exact h
        · exact absurd h this
      · intro hbe
        rw [if_neg (by rw [hbe]; exact fun hc => Bool.noConfusion hc)] at hisNew
        have := of_decide_eq_false hisNew.symm
        push_neg at this
        exact this
    obtain ⟨pd', hpd', hm, -, -⟩ := loopStep_matches (vrOf store lb probe now).2
      (priorityOutcome store lb probe now).2
      (isFirstCheckAfterRestart store.lastCheck now) now prev
      (fun _ => false) (fun _ => false) p s act hfind halready hcb hsu hdel hbs hnew
    have hglp : getPlayer (lpOf store lb probe now).1.players p.userId = some pd' := by
      rw [lp_getPlayer_mem store lb probe now hndl p hp]
      have h2 : (localOut (·.userId)
          (loopStep (vrOf store lb probe now).2 (priorityOutcome store lb probe now).2
            (isFirstCheckAfterRestart store.lastCheck now) now)
          (vrOf store lb probe now).1.players p).pd = some pd' := by
        show (loopStep (vrOf store lb probe now).2 (priorityOutcome store lb probe now).2
          (isFirstCheckAfterRestart store.lastCheck now) now
          (getPlayer (vrOf store lb probe now).1.players p.userId)
          (fun _ => false) (fun _ => false) p).pd = some pd'
        rw [hgC]
        exact hpd'
      rw [h2]
    refine ⟨act, sweepOne now pd', by rw [huid]; exact hact, hdel, ?_, ?_⟩
    · rw [huid, st7_getPlayer, hglp]
      rfl
    · exact sweepOne_matches now pd' act (activityOf_wf _ now act hact).1 hm

/-- After the loop, the record of the entity behind a notified priority
new ban agrees with that entity's probe outcome. -/
theorem p_ban_matches (store : Store) (lb : List LBPlayer)
    (probe : String → RawProbe) (now : Nat)
    (hnds : (store.players.map Prod.fst).Nodup)
    (r : PassResult) (hr : r ∈ newBansOf (priorityOutcome store lb probe now).2) :
    ∃ act pd7, activityOf (probe r.userId) now = some act ∧ act.deleted = false ∧
      getPlayer (st7Of store lb probe now).players r.userId = some pd7 ∧
      matchesAct pd7 act := by
  have hrmem : r ∈ (priorityOutcome store lb probe now).2 := List.mem_of_mem_filter hr
  have hpred := List.of_mem_filter hr
  have hda : r.deletedAccount = false := by
    simp only [Bool.and_eq_true, Bool.not_eq_true'] at hpred
    exact hpred.2
  have hrmem' := hrmem
  rw [priority_results store lb probe now hnds] at hrmem'
  obtain ⟨mp, hmp, hres⟩ := List.mem_filterMap.mp hrmem'
  obtain ⟨huid, hcase⟩ := priorityStep_res_char probe now _ _ _ mp r hres
  rcases hcase with ⟨hda', -⟩ | ⟨-, -, hpdn, act, pd0, hact, hdel, hbs, hpd0, hcb, hsp, hsu, -⟩
  · rw [hda'] at hda
    cases hda
  · have hnotin : mp.userId ∉ lb.map LBPlayer.userId := by
      intro hmm
      obtain ⟨q, hq, hqe⟩ := List.mem_map.mp hmm
      have hany := (mem_missingPlayersOf hmp).2.2
      have : lb.any (fun q' => q'.userId == mp.userId) = true :=
        List.any_eq_true.mpr ⟨q, hq, by rw [hqe]; exact beq_self_eq_true _⟩
      rw [hany] at this
      cases this
    have hg1 : getPlayer (priorityOutcome store lb probe now).1.players mp.userId =
        some pd0 := by
      rw [priority_getPlayer_mem store lb probe now hnds mp hmp]
      have h2 : (localOut (·.userId) (priorityStep probe now) store.players mp).pd =
          none := hpdn
      rw [h2]
      exact hpd0
    -- the ban update writes a matching record
    obtain ⟨pd', hpd', hm⟩ := banUpdateStep_matches now pd0 r act hcb hsp hsu hdel hbs
    have hprsne : (priorityOutcome store lb probe now).2.isEmpty = false := by
      cases hx : (priorityOutcome store lb probe now).2 with
      | nil => rw [hx] at hrmem; cases hrmem
      | cons a as => rfl
    have hnbne : (newBansOf (priorityOutcome store lb probe now).2).isEmpty = false := by
      cases hx : newBansOf (priorityOutcome store lb probe now).2 with
      | nil => rw [hx] at hr; cases hr
      | cons a as => rfl
    have hg2 : getPlayer (stpOf store lb probe now).players r.userId = some pd' := by
      unfold stpOf priorityBlock
      rw [if_neg (by rw [hprsne]; exact fun hc => Bool.noConfusion hc)]
      dsimp only
      rw [if_neg (by rw [hnbne]; exact fun hc => Bool.noConfusion hc)]
      have hndb : ((newBansOf (priorityOutcome store lb probe now).2).map
          PassResult.userId).Nodup :=
        nodup_map_filter _ _ _ (priority_results_nodup store lb probe now hnds)
      have hbans0 : (priorityOutcome store lb probe now).1.bansKeys = [] := by
        unfold priorityOutcome
        rw [runPass_bansKeys_of_none _ _
          (fun pd? bv uv a => (priorityStep_effects probe now pd? bv uv a).1)]
      rw [runPass_getPlayer_mem (·.userId) (banUpdateStep now)
        (newBansOf (priorityOutcome store lb probe now).2) _ hndb
        (fun r' _ => localApp_of_bans_fresh _ _ _ _
          (banUpdateStep_unban_insensitive now)
          (fun b => by
            show hasKey (priorityOutcome store lb probe now).1.bansKeys _ b = false
            rw [hbans0]
            rfl)) r hr]
      have h3 : (localOut (·.userId) (banUpdateStep now)
          (priorityOutcome store lb probe now).1.players r).pd = some pd' := by
        show (banUpdateStep now
          (getPlayer (priorityOutcome store lb probe now).1.players r.userId)
          (fun _ => false) (fun _ => false) r).pd = some pd'
        rw [show getPlayer (priorityOutcome store lb probe now).1.players r.userId =
          some pd0 from by rw [huid]; exact hg1]
        exact hpd'
      rw [h3]
    have hg3 : getPlayer (vrOf store lb probe now).1.players r.userId = some pd' := by
      show getPlayer (runPass (·.userId) (verifyAllStep probe now) lb
        (stpOf store lb probe now)).1.players r.userId = some pd'
      rw [runPass_getPlayer_not_mem _ _ lb _ r.userId (by rw [huid]; exact hnotin)]
      exact hg2
    have hg4 : getPlayer (lpOf store lb probe now).1.players r.userId = some pd' := by
      show getPlayer (runPass (·.userId)
        (loopStep (vrOf store lb probe now).2 (priorityOutcome store lb probe now).2
          (isFirstCheckAfterRestart store.lastCheck now) now) lb
        (vrOf store lb probe now).1).1.players r.userId = some pd'
      rw [runPass_getPlayer_not_mem _ _ lb _ r.userId (by rw [huid]; exact hnotin)]
      exact hg3
    refine ⟨act, sweepOne now pd', by rw [huid]; exact hact, hdel, ?_, ?_⟩
    · rw [st7_getPlayer, hg4]
      rfl
    · exact sweepOne_matches now pd' act (activityOf_wf _ now act hact).1 hm

/-- After the sweep, the entity behind a full-population deletion
result is recorded deleted. -/
theorem t_deletion_deleted (store : Store) (lb : List LBPlayer)
    (probe : String → RawProbe) (now : Nat)
    (hndl : (lb.map LBPlayer.userId).Nodup)
    (s : PassResult) (hsT : s ∈ (vrOf store lb probe now).2)
    (hdel : s.deletedAccount = true) :
    ∃ pd7, getPlayer (st7Of store lb probe now).players s.userId = some pd7 ∧
      pd7.status = .deletedAccount := by
  have hndT : (((vrOf store lb probe now).2).map PassResult.userId).Nodup :=
    vrOf_results_nodup store lb probe now hndl
  obtain ⟨pdC, hgC, hdC⟩ := vrOf_deleted_recorded store lb probe now hndl s hsT hdel
  obtain ⟨p, hp, huid⟩ := t_uid_on_lb store lb probe now hndl s hsT
  have hfind : ∀ s', ((vrOf store lb probe now).2).find?
      (fun x => x.userId == p.userId) = some s' → s'.isNewSanction = false := by
    intro s' hfs
    have hsmem := List.mem_of_find?_eq_some hfs
    have hsid : s'.userId = p.userId := by
      have := List.find?_some hfs
      exact eq_of_beq (by simpa using this)
    have hss : s = s' :=
      List.inj_on_of_nodup_map hndT hsT hsmem (by rw [huid, hsid])
    exact (verifyAll_results_wf probe now lb _ s' hsmem).2 (by rw [← hss]; exact hdel)
  obtain ⟨pd'', hpd'', hst'', -, -, -⟩ := loopStep_deleted (vrOf store lb probe now).2
    (priorityOutcome store lb probe now).2
    (isFirstCheckAfterRestart store.lastCheck now) now pdC
    (fun _ => false) (fun _ => false) p hdC hfind
  have hglp : getPlayer (lpOf store lb probe now).1.players p.userId = some pd'' := by
    rw [lp_getPlayer_mem store lb probe now hndl p hp]
    have h2 : (localOut (·.userId)
        (loopStep (vrOf store lb probe now).2 (priorityOutcome store lb probe now).2
          (isFirstCheckAfterRestart store.lastCheck now) now)
        (vrOf store lb probe now).1.players p).pd = some pd'' := by
      show (loopStep (vrOf store lb probe now).2 (priorityOutcome store lb probe now).2
        (isFirstCheckAfterRestart store.lastCheck now) now
        (getPlayer (vrOf store lb probe now).1.players p.userId)
        (fun _ => false) (fun _ => false) p).pd = some pd''
      rw [show getPlayer (vrOf store lb probe now).1.players p.userId = some pdC from by
        rw [← huid]; exact hgC]
      exact hpd''
    rw [h2]
  refine ⟨pd'', ?_, hst''⟩
  rw [huid, st7_getPlayer, hglp]
  show some (sweepOne now pd'') = some pd''
  rw [sweepOne_of_not_susp now pd''
    (by rw [hst'']; exact fun hc => Status.noConfusion hc)]

/-- After the sweep, the entity behind a notified priority deletion is
recorded deleted. -/
theorem p_deletion_deleted (store : Store) (lb : List LBPlayer)
    (probe : String → RawProbe) (now : Nat)
    (hnds : (store.players.map Prod.fst).Nodup)
    (r : PassResult) (hr : r ∈ newDeletionsOf (priorityOutcome store lb probe now).2) :
    ∃ pd7, getPlayer (st7Of store lb probe now).players r.userId = some pd7 ∧
      pd7.status = .deletedAccount := by
  have hrmem : r ∈ (priorityOutcome store lb probe now).2 := List.mem_of_mem_filter hr
  have hpred := List.of_mem_filter hr
  have hda : r.deletedAccount = true := by
    simp only [Bool.and_eq_true] at hpred
    exact hpred.1
  have hrmem' := hrmem
  rw [priority_results store lb probe now hnds] at hrmem'
  obtain ⟨mp, hmp, hres⟩ := List.mem_filterMap.mp hrmem'
  obtain ⟨huid, hcase⟩ := priorityStep_res_char probe now _ _ _ mp r hres
  rcases hcase with ⟨-, -, -, act, pd0, hact, hdel, hpd0, hnd0, pd', hpd', hst'⟩ |
    ⟨hda', -⟩
  · have hnotin : mp.userId ∉ lb.map LBPlayer.userId := by
      intro hmm
      obtain ⟨q, hq, hqe⟩ := List.mem_map.mp hmm
      have hany := (mem_missingPlayersOf hmp).2.2
      have : lb.any (fun q' => q'.userId == mp.userId) = true :=
        List.any_eq_true.mpr ⟨q, hq, by rw [hqe]; exact beq_self_eq_true _⟩
      rw [hany] at this
      cases this
    have hg1 : getPlayer (priorityOutcome store lb probe now).1.players mp.userId =
        some pd' := by
      rw [priority_getPlayer_mem store lb probe now hnds mp hmp]
      have h2 : (localOut (·.userId) (priorityStep probe now) store.players mp).pd =
          some pd' := hpd'
      rw [h2]
    have hnotban : r.userId ∉ (newBansOf (priorityOutcome store lb probe now).2).map
        PassResult.userId := by
      intro hmm
      obtain ⟨r', hr', hre⟩ := List.mem_map.mp hmm
      have hrr : r' = r :=
        List.inj_on_of_nodup_map (priority_results_nodup store lb probe now hnds)
          (List.mem_of_mem_filter hr') hrmem hre
      have hpred' := List.of_mem_filter hr'
      simp only [Bool.and_eq_true, Bool.not_eq_true'] at hpred'
      rw [hrr, hda] at hpred'
      cases hpred'.2
    have hg2 : getPlayer (stpOf store lb probe now).players r.userId = some pd' := by
      unfold stpOf
      rw [priorityBlock_getPlayer_not_mem now _ _ r.userId hnotban, huid]
      exact hg1
    have hg3 : getPlayer (vrOf store lb probe now).1.players r.userId = some pd' := by
      show getPlayer (runPass (·.userId) (verifyAllStep probe now) lb
        (stpOf store lb probe now)).1.players r.userId = some pd'
      rw [runPass_getPlayer_not_mem _ _ lb _ r.userId (by rw [huid]; exact hnotin)]
      exact hg2
    have hg4 : getPlayer (lpOf store lb probe now).1.players r.userId = some pd' := by
      show getPlayer (runPass (·.userId)
        (loopStep (vrOf store lb probe now).2 (priorityOutcome store lb probe now).2
          (isFirstCheckAfterRestart store.lastCheck now) now) lb
        (vrOf store lb probe now).1).1.players r.userId = some pd'
      rw [runPass_getPlayer_not_mem _ _ lb _ r.userId (by rw [huid]; exact hnotin)]
      exact hg3
    refine ⟨pd', ?_, hst'⟩
    rw [st7_getPlayer, hg4]
    show some (sweepOne now pd') = some pd'
    rw [sweepOne_of_not_susp now pd'
      (by rw [hst']; exact fun hc => Status.noConfusion hc)]
  · rw [hda'] at hda
    cases hda

/-- A loop-restored entity is recorded `active` after the sweep. -/
theorem loop_restored_active (store : Store) (lb : List LBPlayer)
    (probe : String → RawProbe) (now : Nat)
    (hndl : (lb.map LBPlayer.userId).Nodup)
    (p : LBPlayer) (hp : p ∈ lb)
    (hev : EKind.restored ∈ (localOut (·.userId)
      (loopStep (vrOf store lb probe now).2 (priorityOutcome store lb probe now).2
        (isFirstCheckAfterRestart store.lastCheck now) now)
      (vrOf store lb probe now).1.players p).evs) :
    ∃ pd7, getPlayer (st7Of store lb probe now).players p.userId = some pd7 ∧
      pd7.status = .active := by
  rcases loopStep_evs_key (vrOf store lb probe now).2
      (priorityOutcome store lb probe now).2
      (isFirstCheckAfterRestart store.lastCheck now) now
      (getPlayer (vrOf store lb probe now).1.players p.userId)
      (fun _ => false) (fun _ => false) p with
    ⟨hnil, -⟩ | ⟨-, -, -, -, -, pd', hpd', hact⟩
  · have h2 : (localOut (·.userId)
        (loopStep (vrOf store lb probe now).2 (priorityOutcome store lb probe now).2
          (isFirstCheckAfterRestart store.lastCheck now) now)
        (vrOf store lb probe now).1.players p).evs = [] := hnil
    rw [h2] at hev
    cases hev
  · have hglp : getPlayer (lpOf store lb probe now).1.players p.userId = some pd' := by
      rw [lp_getPlayer_mem store lb probe now hndl p hp]
      have h2 : (localOut (·.userId)
          (loopStep (vrOf store lb probe now).2 (priorityOutcome store lb probe now).2
            (isFirstCheckAfterRestart store.lastCheck now) now)
          (vrOf store lb probe now).1.players p).pd = some pd' := hpd'
      rw [h2]
    refine ⟨pd', ?_, hact⟩
    rw [st7_getPlayer, hglp]
    show some (sweepOne now pd') = some pd'
    rw [sweepOne_of_not_susp now pd'
      (by rw [hact]; exact fun hc => Status.noConfusion hc)]

/-- Re-verifying an entity whose swept record agrees with its probe is
a complete no-op. -/
theorem rev_skip_of_matched (store : Store) (lb : List LBPlayer)
    (probe : String → RawProbe) (now : Nat) (uid : String) (act : Activity)
    (pd7 : PlayerData)
    (hact : activityOf (probe uid) now = some act)
    (hget : getPlayer (st7Of store lb probe now).players uid = some pd7)
    (hm : matchesAct pd7 act) :
    ∀ e ∈ sanctOf store lb probe now, e.userId = uid →
      localOut (·.userId) (reverifyStep probe now)
        (st7Of store lb probe now).players e = StepOut.skip := by
  intro e he heq
  show reverifyStep probe now
    (getPlayer (st7Of store lb probe now).players e.userId)
    (fun _ => false) (fun _ => false) e = StepOut.skip
  rw [heq, hget]
  refine reverifyStep_skip_of_matches probe now pd7 e ?_ _ _
  intro act' hact'
  rw [heq, hact] at hact'
  injection hact' with h
  rw [← h]
  exact hm

/-- No re-verification result concerns an entity whose swept record
agrees with its probe. -/
theorem rv_results_ne_of_matched (store : Store) (lb : List LBPlayer)
    (probe : String → RawProbe) (now : Nat)
    (hnds : (store.players.map Prod.fst).Nodup)
    (hndl : (lb.map LBPlayer.userId).Nodup)
    (uid : String) (act : Activity) (pd7 : PlayerData)
    (hact : activityOf (probe uid) now = some act)
    (hget : getPlayer (st7Of store lb probe now).players uid = some pd7)
    (hm : matchesAct pd7 act) :
    ∀ t ∈ (rvOf store lb probe now).2, t.userId ≠ uid := by
  intro t ht heq
  rw [rv_results store lb probe now hnds hndl] at ht
  obtain ⟨e, he, hres⟩ := List.mem_filterMap.mp ht
  have huid := (reverifyStep_res_char probe now _ _ _ e t hres).1
  have hskip := rev_skip_of_matched store lb probe now uid act pd7 hact hget hm e he
    (by rw [← huid]; exact heq)
  rw [show (localOut (·.userId) (reverifyStep probe now)
    (st7Of store lb probe now).players e).res = StepOut.skip.res from by rw [hskip]] at hres
  cases hres

/-- **C1**.  Within one check cycle, for every `(entityId, eventKind)`
pair at most one notification fires, even though the priority pass, the
full-population pass and the re-verification pass can rediscover the
same transition: the cycle's event log has no duplicate pair, for any
store and snapshot with distinct ids, any probe, and whether or not the
cycle is aborted by an exception after the priority block. -/
theorem c1_event_dedup (store : Store) (lb : List LBPlayer)
    (probe : String → RawProbe) (now : Nat) (crash : Bool)
    (hnds : (store.players.map Prod.fst).Nodup)
    (hndl : (lb.map LBPlayer.userId).Nodup) :
    (checkForBannedPlayers store lb probe now crash).events.Nodup := by
  by_cases hlb : lb.isEmpty = true
  · have hcyc : checkForBannedPlayers store lb probe now crash =
        { store := store, saves := [], events := [], errorMsgs := 1,
          infoMsgs := 0 } := by
      unfold checkForBannedPlayers
      rw [if_pos hlb]
    rw [hcyc]
    exact List.nodup_nil
  · have hlb' : lb.isEmpty = false := by
      cases hx : lb.isEmpty
      · rfl
      · exact absurd hx hlb
    -- shorthand lists
    have hstp_events : (stpOf store lb probe now).events =
        (newBansOf (priorityOutcome store lb probe now).2).map
          (fun r => (r.userId, EKind.sanction)) ++
        (newDeletionsOf (priorityOutcome store lb probe now).2).map
          (fun r => (r.userId, EKind.deletion)) := by
      unfold stpOf
      rw [priorityBlock_events]
      have h0 : (priorityOutcome store lb probe now).1.events = [] := by
        unfold priorityOutcome
        rw [runPass_events_of_no_evs _ _
          (fun pd? bv uv a => (priorityStep_effects probe now pd? bv uv a).2.2)]
      rw [h0, List.nil_append]
    have hndP : (((priorityOutcome store lb probe now).2).map PassResult.userId).Nodup :=
      priority_results_nodup store lb probe now hnds
    have hndT : (((vrOf store lb probe now).2).map PassResult.userId).Nodup :=
      vrOf_results_nodup store lb probe now hndl
    have hndR : (((rvOf store lb probe now).2).map PassResult.userId).Nodup :=
      rv_results_nodup store lb probe now hnds hndl
    -- membership helpers
    have hRsource : ∀ t ∈ (rvOf store lb probe now).2,
        ∃ e ∈ sanctOf store lb probe now, t.userId = e.userId := by
      intro t ht
      rw [rv_results store lb probe now hnds hndl] at ht
      obtain ⟨e, he, hres⟩ := List.mem_filterMap.mp ht
      exact ⟨e, he, (reverifyStep_res_char probe now _ _ _ e t hres).1⟩
    -- single-event shapes
    have hone_loop : ∀ p ∈ lb,
        (localOut (·.userId)
          (loopStep (vrOf store lb probe now).2 (priorityOutcome store lb probe now).2
            (isFirstCheckAfterRestart store.lastCheck now) now)
          (vrOf store lb probe now).1.players p).evs = [] ∨
        (localOut (·.userId)
          (loopStep (vrOf store lb probe now).2 (priorityOutcome store lb probe now).2
            (isFirstCheckAfterRestart store.lastCheck now) now)
          (vrOf store lb probe now).1.players p).evs = [.restored] := by
      intro p _
      rcases loopStep_evs_key (vrOf store lb probe now).2
          (priorityOutcome store lb probe now).2
          (isFirstCheckAfterRestart store.lastCheck now) now
          (getPlayer (vrOf store lb probe now).1.players p.userId)
          (fun _ => false) (fun _ => false) p with ⟨h, -⟩ | ⟨h, -⟩
      · exact Or.inl h
      · exact Or.inr h
    have hone_rev : ∀ e ∈ sanctOf store lb probe now,
        (localOut (·.userId) (reverifyStep probe now)
          (st7Of store lb probe now).players e).evs = [] ∨
        (localOut (·.userId) (reverifyStep probe now)
          (st7Of store lb probe now).players e).evs = [.restored] := by
      intro e _
      rcases reverifyStep_restored probe now
          (getPlayer (st7Of store lb probe now).players e.userId)
          (fun _ => false) (fun _ => false) e with ⟨h, -⟩ | ⟨h, -⟩
      · exact Or.inl h
      · exact Or.inr h
    cases crash with
    | true =>
      have hev : (checkForBannedPlayers store lb probe now true).events =
          (stpOf store lb probe now).events := by
        unfold checkForBannedPlayers
        rw [if_neg (by rw [hlb']; exact fun hc => Bool.noConfusion hc)]
        rfl
      rw [hev, hstp_events]
      refine nodup_of_projEv _ (fun k => ?_)
      rw [projEv_append, projEv_map_results, projEv_map_results]
      cases k with
      | sanction =>
        rw [if_pos rfl, if_neg (fun hc => EKind.noConfusion hc), List.append_nil]
        exact nodup_map_filter _ _ _ hndP
      | restored =>
        rw [if_neg (fun hc => EKind.noConfusion hc),
          if_neg (fun hc => EKind.noConfusion hc)]
        exact List.nodup_nil
      | deletion =>
        rw [if_neg (fun hc => EKind.noConfusion hc), if_pos rfl, List.nil_append]
        exact nodup_map_filter _ _ _ hndP
    | false =>
      have hev : (checkForBannedPlayers store lb probe now false).events =
          ((((newBansOf (priorityOutcome store lb probe now).2).map
              (fun r => (r.userId, EKind.sanction)) ++
            (newDeletionsOf (priorityOutcome store lb probe now).2).map
              (fun r => (r.userId, EKind.deletion))) ++
            passEventsOf (·.userId)
              (loopStep (vrOf store lb probe now).2
                (priorityOutcome store lb probe now).2
                (isFirstCheckAfterRestart store.lastCheck now) now)
              (vrOf store lb probe now).1.players lb) ++
            passEventsOf (·.userId) (reverifyStep probe now)
              (st7Of store lb probe now).players (sanctOf store lb probe now)) ++
          ((newBansOf (vrOf store lb probe now).2 ++
              newBansOf (rvOf store lb probe now).2).map
            (fun r => (r.userId, EKind.sanction)) ++
           (newDeletionsOf (vrOf store lb probe now).2 ++
              newDeletionsOf (rvOf store lb probe now).2).map
            (fun r => (r.userId, EKind.deletion))) := by
        rw [cycle_events_of_ok store lb probe now hlb']
        unfold st10Of
        rw [combinedBlock_events]
        have h1 : (rvOf store lb probe now).1.events =
            (st7Of store lb probe now).events ++
              passEventsOf (·.userId) (reverifyStep probe now)
                (st7Of store lb probe now).players (sanctOf store lb probe now) :=
          rv_events store lb probe now hnds hndl
        have h2 : (st7Of store lb probe now).events =
            (lpOf store lb probe now).1.events := rfl
        have h3 : (lpOf store lb probe now).1.events =
            (vrOf store lb probe now).1.events ++
              passEventsOf (·.userId)
                (loopStep (vrOf store lb probe now).2
                  (priorityOutcome store lb probe now).2
                  (isFirstCheckAfterRestart store.lastCheck now) now)
                (vrOf store lb probe now).1.players lb :=
          lp_events store lb probe now hndl
        have h4 : (vrOf store lb probe now).1.events =
            (stpOf store lb probe now).events := by
          show (runPass (·.userId) (verifyAllStep probe now) lb
            (stpOf store lb probe now)).1.events = _
          rw [runPass_events_of_no_evs _ _
            (fun pd? bv uv a => (verifyAllStep_effects probe now pd? bv uv a).2.2)]
        have h5 : newBansOf ((vrOf store lb probe now).2 ++ (rvOf store lb probe now).2) =
            newBansOf (vrOf store lb probe now).2 ++
              newBansOf (rvOf store lb probe now).2 := by
          unfold newBansOf
          rw [List.filter_append]
        have h6 : newDeletionsOf ((vrOf store lb probe now).2 ++
              (rvOf store lb probe now).2) =
            newDeletionsOf (vrOf store lb probe now).2 ++
              newDeletionsOf (rvOf store lb probe now).2 := by
          unfold newDeletionsOf
          rw [List.filter_append]
        rw [h1, h2, h3, h4, hstp_events, h5, h6, List.append_assoc]
      rw [hev]
      refine nodup_of_projEv _ (fun k => ?_)
      rw [projEv_append, projEv_append, projEv_append, projEv_append, projEv_append,
        projEv_map_results, projEv_map_results, projEv_map_results,
        projEv_map_results, List.map_append, List.map_append]
      cases k with
      | sanction =>
        rw [if_pos rfl, if_neg (fun hc => EKind.noConfusion hc), List.append_nil,
          if_pos rfl, if_neg (fun hc => EKind.noConfusion hc), List.append_nil,
          projEv_pass_of_only_restored _ _ _ _ _ (fun hc => EKind.noConfusion hc)
            hone_loop,
          projEv_pass_of_only_restored _ _ _ _ _ (fun hc => EKind.noConfusion hc)
            hone_rev, List.append_nil, List.append_nil]
        rw [List.nodup_append]
        refine ⟨nodup_map_filter _ _ _ hndP, ?_, ?_⟩
        · rw [List.nodup_append]
          refine ⟨nodup_map_filter _ _ _ hndT, nodup_map_filter _ _ _ hndR, ?_⟩
          intro u hu2 hu3
          obtain ⟨s, hs, hse⟩ := List.mem_map.mp hu2
          obtain ⟨t, ht, hte⟩ := List.mem_map.mp hu3
          have hsmem : s ∈ (vrOf store lb probe now).2 := List.mem_of_mem_filter hs
          have hspred := List.of_mem_filter hs
          have hsda : s.deletedAccount = false := by
            simp only [Bool.and_eq_true, Bool.not_eq_true'] at hspred
            exact hspred.2
          obtain ⟨act, pd7, hact, hdel, hget, hm⟩ :=
            t_sanction_matches store lb probe now hnds hndl s hsmem hsda
          exact rv_results_ne_of_matched store lb probe now hnds hndl s.userId act pd7
            hact hget hm t (List.mem_of_mem_filter ht) (by rw [hte, hse])
        · intro u hu1 hu23
          obtain ⟨r, hr, hre⟩ := List.mem_map.mp hu1
          rcases List.mem_append.mp hu23 with hu2 | hu3
          · obtain ⟨s, hs, hse⟩ := List.mem_map.mp hu2
            obtain ⟨p, hp, hsp⟩ :=
              t_uid_on_lb store lb probe now hndl s (List.mem_of_mem_filter hs)
            exact priority_results_off_lb store lb probe now r
              (List.mem_of_mem_filter hr) p hp (by rw [hre, ← hse, hsp])
          · obtain ⟨t, ht, hte⟩ := List.mem_map.mp hu3
            obtain ⟨act, pd7, hact, hdel, hget, hm⟩ :=
              p_ban_matches store lb probe now hnds r hr
            exact rv_results_ne_of_matched store lb probe now hnds hndl r.userId act
              pd7 hact hget hm t (List.mem_of_mem_filter ht) (by rw [hte, hre])
      | restored =>
        rw [if_neg (fun hc => EKind.noConfusion hc),
          if_neg (fun hc => EKind.noConfusion hc),
          if_neg (fun hc => EKind.noConfusion hc),
          if_neg (fun hc => EKind.noConfusion hc)]
        simp only [List.append_nil, List.nil_append]
        rw [projEv_passEvents _ _ _ _ lb
            (fun p hp => (hone_loop p hp).elim Or.inl (fun h => Or.inr ⟨_, h⟩)),
          projEv_passEvents _ _ _ _ (sanctOf store lb probe now)
            (fun e he => (hone_rev e he).elim Or.inl (fun h => Or.inr ⟨_, h⟩))]
        rw [List.nodup_append]
        refine ⟨?_, ?_, ?_⟩
        · refine nodup_filterMap_uid lb _ LBPlayer.userId ?_ hndl
          intro p b hg
          by_cases h : EKind.restored ∈ (localOut (·.userId)
              (loopStep (vrOf store lb probe now).2
                (priorityOutcome store lb probe now).2
                (isFirstCheckAfterRestart store.lastCheck now) now)
              (vrOf store lb probe now).1.players p).evs
          · rw [if_pos h] at hg
            injection hg with hg
            exact hg.symm
          · rw [if_neg h] at hg
            cases hg
        · refine nodup_filterMap_uid (sanctOf store lb probe now) _
            SanctionedP.userId ?_ (sanct_nodup store lb probe now hnds)
          intro e b hg
          by_cases h : EKind.restored ∈ (localOut (·.userId) (reverifyStep probe now)
              (st7Of store lb probe now).players e).evs
          · rw [if_pos h] at hg
            injection hg with hg
            exact hg.symm
          · rw [if_neg h] at hg
            cases hg
        · intro u hu1 hu2
          obtain ⟨p, hp, hpg⟩ := List.mem_filterMap.mp hu1
          obtain ⟨e, he, heg⟩ := List.mem_filterMap.mp hu2
          by_cases h1 : EKind.restored ∈ (localOut (·.userId)
              (loopStep (vrOf store lb probe now).2
                (priorityOutcome store lb probe now).2
                (isFirstCheckAfterRestart store.lastCheck now) now)
              (vrOf store lb probe now).1.players p).evs
          · rw [if_pos h1] at hpg
            injection hpg with hpg
            by_cases h2 : EKind.restored ∈ (localOut (·.userId)
                (reverifyStep probe now)
                (st7Of store lb probe now).players e).evs
            · rw [if_pos h2] at heg
              injection heg with heg
              obtain ⟨pd7, hget, hact⟩ :=
                loop_restored_active store lb probe now hndl p hp h1
              exact sanct_excludes store lb probe now hnds p.userId pd7 hget
                (by rw [hact]; exact fun hc => Status.noConfusion hc)
                (by rw [hact]; exact fun hc => Status.noConfusion hc) e he
                (by rw [heg, hpg])
            · rw [if_neg h2] at heg
              cases heg
          · rw [if_neg h1] at hpg
            cases hpg
      | deletion =>
        rw [if_neg (fun hc => EKind.noConfusion hc), if_pos rfl, List.nil_append,
          if_neg (fun hc => EKind.noConfusion hc), if_pos rfl, List.nil_append,
          projEv_pass_of_only_restored _ _ _ _ _ (fun hc => EKind.noConfusion hc)
            hone_loop,
          projEv_pass_of_only_restored _ _ _ _ _ (fun hc => EKind.noConfusion hc)
            hone_rev, List.append_nil, List.append_nil]
        rw [List.nodup_append]
        refine ⟨nodup_map_filter _ _ _ hndP, ?_, ?_⟩
        · rw [List.nodup_append]
          refine ⟨nodup_map_filter _ _ _ hndT, nodup_map_filter _ _ _ hndR, ?_⟩
          intro u hu2 hu3
          obtain ⟨s, hs, hse⟩ := List.mem_map.mp hu2
          obtain ⟨t, ht, hte⟩ := List.mem_map.mp hu3
          have hspred := List.of_mem_filter hs
          have hsda : s.deletedAccount = true := by
            simp only [Bool.and_eq_true] at hspred
            exact hspred.1
          obtain ⟨pd7, hget, hdd⟩ := t_deletion_deleted store lb probe now hndl s
            (List.mem_of_mem_filter hs) hsda
          obtain ⟨e, he, hte2⟩ := hRsource t (List.mem_of_mem_filter ht)
          exact sanct_excludes store lb probe now hnds s.userId pd7 hget
            (by rw [hdd]; exact fun hc => Status.noConfusion hc)
            (by rw [hdd]; exact fun hc => Status.noConfusion hc) e he
            (by rw [← hte2, hte, hse])
        · intro u hu1 hu23
          obtain ⟨r, hr, hre⟩ := List.mem_map.mp hu1
          rcases List.mem_append.mp hu23 with hu2 | hu3
          · obtain ⟨s, hs, hse⟩ := List.mem_map.mp hu2
            obtain ⟨p, hp, hsp⟩ :=
              t_uid_on_lb store lb probe now hndl s (List.mem_of_mem_filter hs)
            exact priority_results_off_lb store lb probe now r
              (List.mem_of_mem_filter hr) p hp (by rw [hre, ← hse, hsp])
          · obtain ⟨t, ht, hte⟩ := List.mem_map.mp hu3
            obtain ⟨pd7, hget, hdd⟩ :=
              p_deletion_deleted store lb probe now hnds r hr
            obtain ⟨e, he, hte2⟩ := hRsource t (List.mem_of_mem_filter ht)
            exact sanct_excludes store lb probe now hnds r.userId pd7 hget
              (by rw [hdd]; exact fun hc => Status.noConfusion hc)
              (by rw [hdd]; exact fun hc => Status.noConfusion hc) e he
              (by rw [← hte2, hte, hre])

/-- Witness for `c1_event_dedup`: the restart-scenario cycle emits its
(nonempty) event list without duplicates. -/
theorem c1_event_dedup_witness :
    ((cStoreC2.players.map Prod.fst).Nodup) ∧
    (checkForBannedPlayers cStoreC2 [cLbQ] cProbeActive cNow false).events.Nodup :=
  ⟨by decide,
    c1_event_dedup cStoreC2 [cLbQ] cProbeActive cNow false (by decide) (by decide)⟩
